import Mathlib

/-! # vcppgen: argument model builder and MSBuild emitter

A shallow embedding of `src/main.cpp`.

* `std::string` and `std::string_view` values are `String`s; `argv` is a
  `List String` whose element `0` is the program name and `argc` is its length.
* An `std::ostream&` parameter is a `String` holding the text written so far;
  every `os << x` appends to it and the writer returns the extended text.
* `fs::is_regular_file (rootDir / p)` is the parameter `fs : String → FileTest`:
  the call returns a `bool` (`.returns b`) or, when the status of the path
  cannot be determined, throws a `filesystem_error` (`.throws what`, with the
  `what()` text of the library).
* A `std::runtime_error` thrown by `main` is `Outcome.thrown what`; a
  `filesystem_error` thrown by the file test is `Outcome.filesystemError what`.
  The handler `catch (const std::exception& e)` catches both.
* The two `while (i < argc)` loops recurse on a fuel counter; `main` hands
  them `argc`, and `Outcome.noFuel` marks an exhausted counter.
-/

namespace Vcppgen

/-! ## Data model (`struct Configuration`, `struct Project`) -/

/-- One `-c` block: configuration name, architecture and the two artifact lists. -/
structure Configuration where
  name : String
  architecture : String
  libraries : List String
  binaries : List String
deriving DecidableEq

/-- The wrapper project; both flags start `false`, the list starts empty. -/
structure Project where
  name : String
  toolset : String
  hasBinaries : Bool
  hasLibraries : Bool
  configurations : List Configuration
deriving DecidableEq

/-! ## Emitter -/

/-- Source `writeCondition`: the `Condition="..."` attribute of a configuration. -/
def writeCondition (os : String) (configuration : Configuration) : String :=
  os ++ "Condition=\"'$(Configuration)|$(Platform)'=='" ++ configuration.name ++ "|"
    ++ configuration.architecture ++ "'\""

/-- Source `writeCopyTarget`: the `CopyBinaryFiles` and `Build` targets, gated by `hasBinaries`. -/
def writeCopyTarget (os : String) (project : Project) : String :=
  if project.hasBinaries then
    let os := os ++ "\t<Target Name=\"CopyBinaryFiles\">\r\n" ++ "\t\t<ItemGroup>\r\n"
    let os := project.configurations.foldl (fun os configuration =>
      configuration.binaries.foldl (fun os binary =>
        let os := os ++ "<NativeTargetPath "
        let os := writeCondition os configuration
        os ++ " Include=\"$(ProjectDir)" ++ binary ++ "\" />\r\n") os) os
    os ++ "</ItemGroup>\r\n"
      ++ "<Copy SourceFiles=\"@(NativeTargetPath)\" DestinationFolder=\"$(OutDir)\" />\r\n"
      ++ "</Target>\r\n"
      ++ "<Target Name=\"Build\" DependsOnTargets=\"CopyBinaryFiles\"/>"
  else os

/-- Source `writeTargets`: design-time `NativeTargetPath` rows, binaries then libraries. -/
def writeTargets (os : String) (configuration : Configuration) : String :=
  let os := configuration.binaries.foldl (fun os binary =>
    os ++ "\t\t\t<NativeTargetPath Condition=\"'$(Configuration)|$(Platform)'=='"
      ++ configuration.name
      ++ "|" ++ configuration.architecture
      ++ "' and '$(DesignTimeBuild)'=='true'\" Include=\"$(ProjectDir)"
      ++ binary
      ++ "\" />\r\n") os
  configuration.libraries.foldl (fun os library =>
    os ++ "\t\t\t<NativeTargetPath Condition=\"'$(Configuration)|$(Platform)'=='"
      ++ configuration.name
      ++ "|" ++ configuration.architecture
      ++ "' and '$(DesignTimeBuild)'=='true'\" Include=\"$(ProjectDir)"
      ++ library
      ++ "\" />\r\n") os

/-- The iterator loop of `writeLibraries`: `k` is `it - libraries.begin()`, the
list is what remains from `it` on; a `;` is written unless `it` is `begin()`. -/
def writeLibrariesLoop : Nat → List String → String → String
  | _, [], os => os
  | k, library :: rest, os =>
    let os := if k ≠ 0 then os ++ ";" else os
    writeLibrariesLoop (k + 1) rest (os ++ "$(ProjectDir)" ++ library)

/-- Source `writeLibraries`: one `Libs` element for a configuration. -/
def writeLibraries (os : String) (configuration : Configuration) : String :=
  let os := os ++ "<Libs "
  let os := writeCondition os configuration
  let os := os ++ " Include=\""
  let os := writeLibrariesLoop 0 configuration.libraries os
  let os := os ++ "\">\r\n<ProjectType>"
  let os := if configuration.binaries.isEmpty then os ++ "StaticLibrary" else os ++ "DynamicLibrary"
  os ++ "</ProjectType>\r\n<FileType>lib</FileType>\r\n<ResolveableAssembly>false</ResolveableAssembly>\r\n</Libs>\r\n"

/-- Source `writeLibraryTarget`: the `GetResolvedLinkLibs` target, gated by `hasLibraries`. -/
def writeLibraryTarget (os : String) (project : Project) : String :=
  if project.hasLibraries then
    let os := os ++ "<Target Name=\"GetResolvedLinkLibs\""
    let os := os ++ " Returns = \"@(Libs)\">\r\n<ItemGroup>\r\n"
    let os := project.configurations.foldl (fun os configuration =>
      writeLibraries os configuration) os
    os ++ "</ItemGroup>\r\n</Target>\r\n"
  else os

/-- Source `writeConfigurations`: the `ProjectConfigurations` item group and the
`Configuration` property group. -/
def writeConfigurations (os : String) (project : Project) : String :=
  let os := os ++ "<ItemGroup Label=\"ProjectConfigurations\">\r\n"
  let os := project.configurations.foldl (fun os configuration =>
    os ++ "<ProjectConfiguration Include=\""
      ++ configuration.name ++ "|" ++ configuration.architecture ++ "\">\r\n<Configuration>"
      ++ configuration.name ++ "</Configuration>\r\n<Platform>"
      ++ configuration.architecture ++ "</Platform>\r\n</ProjectConfiguration>\r\n") os
  os ++ "</ItemGroup>\r\n<PropertyGroup Label=\"Configuration\">\r\n<PlatformToolset>"
    ++ project.toolset ++ "</PlatformToolset>\r\n</PropertyGroup>\r\n"

/-- Source `writeGlobals`: the `Globals` property group. -/
def writeGlobals (os : String) (project : Project) : String :=
  os ++ "<PropertyGroup Label=\"Globals\">\r\n"
    ++ "<Keyword>Win32Proj</Keyword>"
    ++ "<RootNamespace>" ++ project.name ++ "</RootNamespace>\r\n"
    ++ "</PropertyGroup>\r\n"

/-- The emission block of `main` (the scope that owns `std::ofstream os`):
everything written to the output file for a finished project. -/
def emit (project : Project) : String :=
  let os := ""
  let os := os ++ "<?xml version=\"1.0\" encoding=\"utf-8\"?>\r\n<Project DefaultTargets=\"Build\" ToolsVersion=\"15.0\" xmlns=\"http://schemas.microsoft.com/developer/msbuild/2003\">\r\n"
  let os := writeConfigurations os project
  let os := writeGlobals os project
  let os := os ++ "<Import Project=\"$(VCTargetsPath)\\Microsoft.Cpp.Default.props\"/>\r\n<Import Project=\"$(VCTargetsPath)\\Microsoft.Cpp.props\"/>\r\n<Import Project=\"$(VCTargetsPath)\\Microsoft.Cpp.targets\"/>\r\n"
  let os := os ++ "\t<Target Name=\"GetTargetPath\" DependsOnTargets=\"GetNativeTargetPath\" Returns=\"@(NativeTargetPath)\">\r\n\t</Target>\r\n"
  let os := os ++ "\t<Target Name=\"GetTargetPath\" Returns=\"@(NativeTargetPath)\">\r\n\t\t<ItemGroup>\r\n"
  let os := project.configurations.foldl (fun os configuration =>
    writeTargets os configuration) os
  let os := os ++ "\t\t</ItemGroup>\r\n\t</Target>\r\n"
  let os := writeLibraryTarget os project
  let os := writeCopyTarget os project
  os ++ "</Project>\r\n"

/-! ## Argument model builder -/

/-- What one call of `fs::is_regular_file (rootDir / p)` does: it returns a
`bool`, or it throws a `filesystem_error` (caught by the handler of `main` as a
`std::exception`) whose `what()` text is the library's. -/
inductive FileTest where
  | returns (isRegular : Bool)
  | throws (what : String)
deriving DecidableEq

/-- What a loop of the parser produces: a value, a `std::runtime_error` thrown
by `main` itself with its `what()` text, a `filesystem_error` thrown by
`fs::is_regular_file` with its `what()` text, or an exhausted loop counter of
the model. -/
inductive Outcome (α : Type) where
  | ok (val : α)
  | thrown (what : String)
  | filesystemError (what : String)
  | noFuel
deriving DecidableEq

/-- Lambda `requireFn` of `main`: the token at `i` and the advanced index, or
(as `Except.error`) the message it throws when no token remains. -/
def requireFn (argv : List String) (i : Nat) (str : String) : Except String (String × Nat) :=
  if i ≥ argv.length then .error str
  else .ok (argv.getD i "", i + 1)

/-- Lambda `requireSwitchFn` of `main`: the advanced index when the token at `i`
is `val`; the message `str` it throws when the token is missing or different. -/
def requireSwitchFn (argv : List String) (i : Nat) (str val : String) : Except String Nat :=
  if i ≥ argv.length then .error str
  else if argv.getD i "" ≠ val then .error str
  else .ok (i + 1)

/-- The inner `while (i < argc)` loop of `main`, the artifact loop. The state is
the index, the project (whose flags it sets) and the configuration being built. -/
def artifactLoop (fs : String → FileTest) (argv : List String) :
    Nat → Nat → Project → Configuration → Outcome (Nat × Project × Configuration)
  | 0, i, project, configuration =>
    if i < argv.length then .noFuel else .ok (i, project, configuration)
  | fuel + 1, i, project, configuration =>
    if i < argv.length then
      let sw := argv.getD i ""
      if sw = "-c" then .ok (i, project, configuration)
      else if sw = "-dll" then
        match requireFn argv (i + 1) "Expected DLL path" with
        | .error what => .thrown what
        | .ok (binary, i) =>
          match fs binary with
          | .throws what => .filesystemError what
          | .returns isRegular =>
            if !isRegular then .thrown ("DLL file not found: '" ++ binary ++ "'")
            else artifactLoop fs argv fuel i { project with hasBinaries := true }
              { configuration with binaries := configuration.binaries ++ [binary] }
      else if sw = "-lib" then
        match requireFn argv (i + 1) "Expected lib path" with
        | .error what => .thrown what
        | .ok (library, i) =>
          match fs library with
          | .throws what => .filesystemError what
          | .returns isRegular =>
            if !isRegular then .thrown ("lib file not found: '" ++ library ++ "'")
            else artifactLoop fs argv fuel i { project with hasLibraries := true }
              { configuration with libraries := configuration.libraries ++ [library] }
      else .thrown "Expected -dll, -lib or -c"
    else .ok (i, project, configuration)

/-- The two warnings written to `std::cout` when a configuration is finished. -/
def writeWarnings (cout : String) (configuration : Configuration) : String :=
  let cout := if configuration.libraries.isEmpty then
    cout ++ "Warning: Configuration '" ++ configuration.name ++ "|"
      ++ configuration.architecture ++ "' has no libs" ++ "\n"
    else cout
  if configuration.binaries.isEmpty then
    cout ++ "Warning: Configuration '" ++ configuration.name ++ "|"
      ++ configuration.architecture ++ "' has no DLLs" ++ "\n"
  else cout

/-- The outer `while (i < argc)` loop of `main`, one configuration per round.
Returns what was written to `std::cout` together with the outcome. -/
def configLoop (fs : String → FileTest) (argv : List String) :
    Nat → Nat → Project → String → String × Outcome Project
  | 0, i, project, cout =>
    if i < argv.length then (cout, .noFuel) else (cout, .ok project)
  | fuel + 1, i, project, cout =>
    if i < argv.length then
      match requireSwitchFn argv i "Expected -c" "-c" with
      | .error what => (cout, .thrown what)
      | .ok i =>
      match requireFn argv i "Expected configurations name" with
      | .error what => (cout, .thrown what)
      | .ok (name, i) =>
      match requireFn argv i "Expected platform (e.g. x86, x64)" with
      | .error what => (cout, .thrown what)
      | .ok (architecture, i) =>
      match artifactLoop fs argv argv.length i project
          { name := name, architecture := architecture, libraries := [], binaries := [] } with
      | .thrown what => (cout, .thrown what)
      | .filesystemError what => (cout, .filesystemError what)
      | .noFuel => (cout, .noFuel)
      | .ok (i, project, configuration) =>
        configLoop fs argv fuel i
          { project with configurations := project.configurations ++ [configuration] }
          (writeWarnings cout configuration)
    else (cout, .ok project)

/-- The argument-parsing part of `main`'s `try` block (up to the computation of
`outPath`): the text written to `std::cout` and the finished project or the throw. -/
def parse (fs : String → FileTest) (argv : List String) : String × Outcome Project :=
  match requireFn argv 1 "Expected project name" with
  | .error what => ("", .thrown what)
  | .ok (name, i) =>
  match requireFn argv i "Expected toolset (e.g. vs141, vs140)" with
  | .error what => ("", .thrown what)
  | .ok (toolset, i) =>
    configLoop fs argv argv.length i
      { name := name, toolset := toolset, hasBinaries := false, hasLibraries := false,
        configurations := [] } ""

/-- The observable result of one run of the process. -/
structure Run where
  exitCode : Int
  cout : String
  file : Option (String × String)
deriving DecidableEq

/-- The text the `catch` handler of `main` writes to `std::cout`. -/
def writeError (cout : String) (what : String) : String :=
  cout ++ "Error: " ++ what ++ "\n"
    ++ "\n"
    ++ "Usage: vcppgen <name> <toolset> -c <configuration> <platform> -dll <dll path>... - lib <lib - path>... - c ..." ++ "\n"
    ++ "Example: vcppgen test vc141 -c Debug x64 -dll Debug\\test.dll -lib Debug\\test.lib -c Release x64 -dll Release\\test.dll -lib Release\\test.lib" ++ "\n"

/-- Source `main`. `file` is the file written, as (name relative to the working
directory, contents). Neither branch has a `return` statement, so control
reaches the end of `main`, which in C++ returns `0`. The result is `none` only
if a loop counter of the model ran out. -/
def main (fs : String → FileTest) (argv : List String) : Option Run :=
  match parse fs argv with
  | (cout, .ok project) =>
    some { exitCode := 0, cout := cout, file := some (project.name ++ ".vcxproj", emit project) }
  | (cout, .thrown what) =>
    some { exitCode := 0, cout := writeError cout what, file := none }
  | (cout, .filesystemError what) =>
    some { exitCode := 0, cout := writeError cout what, file := none }
  | (_, .noFuel) => none

/-! ## The command-line grammar `name toolset (-c cfg arch ((-dll|-lib) path)*)*` -/

/-- The kind of an artifact pair: `-dll path` or `-lib path`. -/
inductive ArtifactKind where
  | dll
  | lib
deriving DecidableEq

/-- One configuration as written on the command line: its name, its
architecture and its artifact pairs in the order given. -/
structure ConfigSpec where
  name : String
  architecture : String
  artifacts : List (ArtifactKind × String)
deriving DecidableEq

/-- The switch token of an artifact kind. -/
def switchOf : ArtifactKind → String
  | .dll => "-dll"
  | .lib => "-lib"

/-- The tokens of a list of artifact pairs. -/
def flattenArtifacts : List (ArtifactKind × String) → List String
  | [] => []
  | (kind, path) :: rest => switchOf kind :: path :: flattenArtifacts rest

/-- The tokens of a list of configurations. -/
def flattenConfigs : List ConfigSpec → List String
  | [] => []
  | c :: rest =>
    "-c" :: c.name :: c.architecture :: (flattenArtifacts c.artifacts ++ flattenConfigs rest)

/-- The paths of the pairs of one kind, in the order given. -/
def pathsOf (kind : ArtifactKind) : List (ArtifactKind × String) → List String
  | [] => []
  | (k, path) :: rest => if k = kind then path :: pathsOf kind rest else pathsOf kind rest

/-- The configuration the grammar describes: artifacts bucketed by kind. -/
def ConfigSpec.toConfiguration (c : ConfigSpec) : Configuration :=
  { name := c.name, architecture := c.architecture,
    libraries := pathsOf .lib c.artifacts, binaries := pathsOf .dll c.artifacts }

/-- Every artifact path of the configurations is a regular file. -/
def AllExist (fs : String → FileTest) (cfgs : List ConfigSpec) : Prop :=
  ∀ c ∈ cfgs, ∀ a ∈ c.artifacts, fs a.2 = .returns true

/-- The project the grammar describes. -/
def projectOf (name toolset : String) (cfgs : List ConfigSpec) : Project :=
  { name := name, toolset := toolset,
    hasBinaries := cfgs.any (fun c => !(pathsOf .dll c.artifacts).isEmpty),
    hasLibraries := cfgs.any (fun c => !(pathsOf .lib c.artifacts).isEmpty),
    configurations := cfgs.map ConfigSpec.toConfiguration }

/-- The message thrown for an artifact path that is not a regular file. -/
def notFoundMessage : ArtifactKind → String → String
  | .dll, p => "DLL file not found: '" ++ p ++ "'"
  | .lib, p => "lib file not found: '" ++ p ++ "'"

/-! ## The state of the parser after grammatical input -/

/-- The project after the artifact loop has consumed `arts`. -/
def projectAfter (project : Project) (arts : List (ArtifactKind × String)) : Project :=
  { project with
    hasBinaries := project.hasBinaries || !(pathsOf .dll arts).isEmpty,
    hasLibraries := project.hasLibraries || !(pathsOf .lib arts).isEmpty }

/-- The configuration after the artifact loop has consumed `arts`. -/
def configurationAfter (configuration : Configuration) (arts : List (ArtifactKind × String)) :
    Configuration :=
  { configuration with
    libraries := configuration.libraries ++ pathsOf .lib arts,
    binaries := configuration.binaries ++ pathsOf .dll arts }

/-- The project after the configuration loop has consumed `cfgs`. -/
def projectAfterConfigs (project : Project) (cfgs : List ConfigSpec) : Project :=
  { project with
    hasBinaries := project.hasBinaries || cfgs.any (fun c => !(pathsOf .dll c.artifacts).isEmpty),
    hasLibraries := project.hasLibraries || cfgs.any (fun c => !(pathsOf .lib c.artifacts).isEmpty),
    configurations := project.configurations ++ cfgs.map ConfigSpec.toConfiguration }

/-- What `std::cout` holds after the configuration loop has consumed `cfgs`. -/
def coutAfterConfigs (cout : String) (cfgs : List ConfigSpec) : String :=
  cfgs.foldl (fun cout c => writeWarnings cout c.toConfiguration) cout

/-! ## The parts of the document -/

/-- The `ProjectConfiguration` element of a configuration name and an
architecture. -/
def projectConfigurationElement (name architecture : String) : String :=
  "<ProjectConfiguration Include=\"" ++ name ++ "|" ++ architecture
    ++ "\">\r\n<Configuration>" ++ name
    ++ "</Configuration>\r\n<Platform>" ++ architecture
    ++ "</Platform>\r\n</ProjectConfiguration>\r\n"

/-- The `GetResolvedLinkLibs` target over a list of configurations: the
opening tags, one `Libs` element for each configuration of the list in order,
and the closing tags. -/
def libraryTarget (configurations : List Configuration) : String :=
  "<Target Name=\"GetResolvedLinkLibs\" Returns = \"@(Libs)\">\r\n<ItemGroup>\r\n"
    ++ String.join (configurations.map (fun c => writeLibraries "" c))
    ++ "</ItemGroup>\r\n</Target>\r\n"

/-- The `CopyBinaryFiles` target over a list of configurations, followed by
the `Build` target that depends on it: one `NativeTargetPath` row for each
binary of each configuration, in order, then the `Copy` task. -/
def copyTarget (configurations : List Configuration) : String :=
  "\t<Target Name=\"CopyBinaryFiles\">\r\n\t\t<ItemGroup>\r\n"
    ++ String.join (configurations.map (fun c => String.join (c.binaries.map (fun binary =>
        "<NativeTargetPath " ++ writeCondition "" c ++ " Include=\"$(ProjectDir)" ++ binary
          ++ "\" />\r\n"))))
    ++ "</ItemGroup>\r\n<Copy SourceFiles=\"@(NativeTargetPath)\" DestinationFolder=\"$(OutDir)\" />\r\n</Target>\r\n<Target Name=\"Build\" DependsOnTargets=\"CopyBinaryFiles\"/>"

/-- The part of the emission block of `main` that precedes the call of
`writeLibraryTarget`: everything up to the end of the second `GetTargetPath`
target. -/
def emitHead (project : Project) : String :=
  let os := ""
  let os := os ++ "<?xml version=\"1.0\" encoding=\"utf-8\"?>\r\n<Project DefaultTargets=\"Build\" ToolsVersion=\"15.0\" xmlns=\"http://schemas.microsoft.com/developer/msbuild/2003\">\r\n"
  let os := writeConfigurations os project
  let os := writeGlobals os project
  let os := os ++ "<Import Project=\"$(VCTargetsPath)\\Microsoft.Cpp.Default.props\"/>\r\n<Import Project=\"$(VCTargetsPath)\\Microsoft.Cpp.props\"/>\r\n<Import Project=\"$(VCTargetsPath)\\Microsoft.Cpp.targets\"/>\r\n"
  let os := os ++ "\t<Target Name=\"GetTargetPath\" DependsOnTargets=\"GetNativeTargetPath\" Returns=\"@(NativeTargetPath)\">\r\n\t</Target>\r\n"
  let os := os ++ "\t<Target Name=\"GetTargetPath\" Returns=\"@(NativeTargetPath)\">\r\n\t\t<ItemGroup>\r\n"
  let os := project.configurations.foldl (fun os configuration =>
    writeTargets os configuration) os
  os ++ "\t\t</ItemGroup>\r\n\t</Target>\r\n"

/-! ## Sample command lines -/

/-- A sample command line: one configuration with interleaved artifacts, and a
second one with the same name and architecture and no artifacts. -/
def sampleConfigs : List ConfigSpec :=
  [{ name := "Debug", architecture := "x64",
      artifacts := [(.lib, "a.lib"), (.dll, "a.dll"), (.lib, "b.lib")] },
    { name := "Debug", architecture := "x64", artifacts := [] }]

/-- A sample file test: `missing.dll` is no regular file, the status of a name
of more than 255 characters cannot be determined (the call throws; the text is
the library's), every other path is a regular file. -/
def statusFs (p : String) : FileTest :=
  if p.length > 255 then .throws "filesystem error: status: File name too long"
  else if p = "missing.dll" then .returns false
  else .returns true

/-- A file name of 300 characters. -/
def longName : String :=
  String.mk (List.replicate 300 'a')

/-- A command line whose only artifact path is `longName`. -/
def longNameArgv : List String :=
  ["vcppgen", "foo", "v141", "-c", "Debug", "x64", "-dll", longName]


/-- The sample command line of a run that fails: the file of the only
artifact pair does not exist. -/
def missingDllArgv : List String :=
  ["vcppgen", "foo", "v141", "-c", "Debug", "x64", "-dll", "missing.dll"]

/-- The command line of a project whose first configuration has a binary and no
library and whose second configuration has both. -/
def releaseLibArgv : List String :=
  ["vcppgen", "foo", "v141", "-c", "Debug", "x64", "-dll", "Debug\\foo.dll",
    "-c", "Release", "x64", "-dll", "Release\\foo.dll", "-lib", "Release\\foo.lib"]

/-- The project `releaseLibArgv` parses to when its three files exist. -/
def releaseLibProject : Project :=
  { name := "foo", toolset := "v141", hasBinaries := true, hasLibraries := true,
    configurations :=
      [{ name := "Debug", architecture := "x64", libraries := [],
          binaries := ["Debug\\foo.dll"] },
        { name := "Release", architecture := "x64", libraries := ["Release\\foo.lib"],
          binaries := ["Release\\foo.dll"] }] }

/-! ## The rows of the two `NativeTargetPath` item groups -/

/-- The `NativeTargetPath` row of the second `GetTargetPath` target for one
artifact path of the configuration `name|architecture`. -/
def designTimeRow (name architecture path : String) : String :=
  "\t\t\t<NativeTargetPath Condition=\"'$(Configuration)|$(Platform)'=='"
    ++ name ++ "|" ++ architecture
    ++ "' and '$(DesignTimeBuild)'=='true'\" Include=\"$(ProjectDir)" ++ path ++ "\" />\r\n"

/-- The `NativeTargetPath` row of the `CopyBinaryFiles` target for one binary
of the configuration `name|architecture`. -/
def copyRow (name architecture binary : String) : String :=
  "<NativeTargetPath Condition=\"'$(Configuration)|$(Platform)'=='"
    ++ name ++ "|" ++ architecture
    ++ "'\" Include=\"$(ProjectDir)" ++ binary ++ "\" />\r\n"

/-! ## Warnings -/

/-- The warning lines of one configuration: `has no libs` when its library
list is empty, then `has no DLLs` when its binary list is empty. -/
def warningLines (c : Configuration) : String :=
  (if c.libraries.isEmpty then
    "Warning: Configuration '" ++ c.name ++ "|" ++ c.architecture ++ "' has no libs\n"
  else "")
  ++ (if c.binaries.isEmpty then
    "Warning: Configuration '" ++ c.name ++ "|" ++ c.architecture ++ "' has no DLLs\n"
  else "")

/-! ## Messages -/

/-- The message thrown when the input ends right after an artifact switch. -/
def missingPathMessage : ArtifactKind → String
  | .dll => "Expected DLL path"
  | .lib => "Expected lib path"

/-- The messages `main` passes to `requireFn` and `requireSwitchFn`: what is
thrown when a required token is missing. -/
def missingTokenMessages : List String :=
  ["Expected project name", "Expected toolset (e.g. vs141, vs140)", "Expected -c",
    "Expected configurations name", "Expected platform (e.g. x86, x64)",
    "Expected DLL path", "Expected lib path"]

/-! ## The slots of the grammar -/

/-- The place of a token in the grammar
`name toolset (-c cfg arch ((-dll|-lib) path)*)*`. -/
inductive Slot where
  | name
  | toolset
  | configSwitch
  | configName
  | architecture
  | artifactSwitch (kind : ArtifactKind)
  | path
deriving DecidableEq

/-- The slots of the tokens of a list of artifact pairs. -/
def slotsOfArtifacts : List (ArtifactKind × String) → List Slot
  | [] => []
  | (kind, _) :: rest => .artifactSwitch kind :: .path :: slotsOfArtifacts rest

/-- The slots of the tokens of a list of configurations. -/
def slotsOfConfigs : List ConfigSpec → List Slot
  | [] => []
  | c :: rest =>
    .configSwitch :: .configName :: .architecture ::
      (slotsOfArtifacts c.artifacts ++ slotsOfConfigs rest)

/-- What the first missing slot is called when the input ends right after a
token of the given slot (`none`: before the first token); `none` as result
says that the input ends at a production boundary. -/
def messageAfter : Option Slot → Option String
  | none => some "Expected project name"
  | some .name => some "Expected toolset (e.g. vs141, vs140)"
  | some .toolset => none
  | some .configSwitch => some "Expected configurations name"
  | some .configName => some "Expected platform (e.g. x86, x64)"
  | some .architecture => none
  | some (.artifactSwitch .dll) => some "Expected DLL path"
  | some (.artifactSwitch .lib) => some "Expected lib path"
  | some .path => none

/-- The shapes of an unfinished configuration at the end of a truncated
command line, as tokens and as slots: nothing, `-c`, `-c cfg`, or a header and
artifact pairs followed by a switch without its path. -/
def TailShape (fs : String → FileTest) (tail : List String) (tailSlots : List Slot) : Prop :=
  (tail = [] ∧ tailSlots = []) ∨
  (tail = ["-c"] ∧ tailSlots = [.configSwitch]) ∨
  (∃ cname, tail = ["-c", cname] ∧ tailSlots = [.configSwitch, .configName]) ∨
  (∃ (cname arch : String) (arts : List (ArtifactKind × String)) (kind : ArtifactKind),
    (∀ a ∈ arts, fs a.2 = .returns true) ∧
    tail = "-c" :: cname :: arch :: (flattenArtifacts arts ++ [switchOf kind]) ∧
    tailSlots = .configSwitch :: .configName :: .architecture ::
      (slotsOfArtifacts arts ++ [.artifactSwitch kind]))

/-! ## The order of the document -/

/-- Whether the text `s` starts with the text `p`. -/
def startsWith (p s : String) : Bool :=
  p.data.isPrefixOf s.data

/-- The parts of the document of a project, in order: the XML declaration, the
root tag, the `ProjectConfigurations` item group, the `Configuration` property
group, the `Globals` property group, the three imports, the empty
`GetTargetPath` target, the `GetTargetPath` target with the `NativeTargetPath`
item group, the `GetResolvedLinkLibs` target when `hasLibraries` is set, the
`CopyBinaryFiles` target and the `Build` target when `hasBinaries` is set, and
the closing tag. -/
def documentParts (project : Project) : List String :=
  ["<?xml version=\"1.0\" encoding=\"utf-8\"?>\r\n",
    "<Project DefaultTargets=\"Build\" ToolsVersion=\"15.0\" xmlns=\"http://schemas.microsoft.com/developer/msbuild/2003\">\r\n",
    "<ItemGroup Label=\"ProjectConfigurations\">\r\n"
      ++ String.join (project.configurations.map (fun c =>
          projectConfigurationElement c.name c.architecture))
      ++ "</ItemGroup>\r\n",
    "<PropertyGroup Label=\"Configuration\">\r\n<PlatformToolset>" ++ project.toolset
      ++ "</PlatformToolset>\r\n</PropertyGroup>\r\n",
    "<PropertyGroup Label=\"Globals\">\r\n<Keyword>Win32Proj</Keyword><RootNamespace>"
      ++ project.name ++ "</RootNamespace>\r\n</PropertyGroup>\r\n",
    "<Import Project=\"$(VCTargetsPath)\\Microsoft.Cpp.Default.props\"/>\r\n",
    "<Import Project=\"$(VCTargetsPath)\\Microsoft.Cpp.props\"/>\r\n",
    "<Import Project=\"$(VCTargetsPath)\\Microsoft.Cpp.targets\"/>\r\n",
    "\t<Target Name=\"GetTargetPath\" DependsOnTargets=\"GetNativeTargetPath\" Returns=\"@(NativeTargetPath)\">\r\n\t</Target>\r\n",
    "\t<Target Name=\"GetTargetPath\" Returns=\"@(NativeTargetPath)\">\r\n\t\t<ItemGroup>\r\n"
      ++ String.join (project.configurations.map (fun c =>
          String.join (c.binaries.map (designTimeRow c.name c.architecture))
            ++ String.join (c.libraries.map (designTimeRow c.name c.architecture))))
      ++ "\t\t</ItemGroup>\r\n\t</Target>\r\n"]
  ++ (if project.hasLibraries then
      ["<Target Name=\"GetResolvedLinkLibs\" Returns = \"@(Libs)\">\r\n<ItemGroup>\r\n"
        ++ String.join (project.configurations.map (fun c => writeLibraries "" c))
        ++ "</ItemGroup>\r\n</Target>\r\n"]
    else [])
  ++ (if project.hasBinaries then
      ["\t<Target Name=\"CopyBinaryFiles\">\r\n\t\t<ItemGroup>\r\n"
        ++ String.join (project.configurations.map (fun c =>
            c.binaries.map (copyRow c.name c.architecture))).flatten
        ++ "</ItemGroup>\r\n"
        ++ "<Copy SourceFiles=\"@(NativeTargetPath)\" DestinationFolder=\"$(OutDir)\" />\r\n"
        ++ "</Target>\r\n",
        "<Target Name=\"Build\" DependsOnTargets=\"CopyBinaryFiles\"/>"]
    else [])
  ++ ["</Project>\r\n"]

/-! ## Line terminators -/

/-- Every line feed of the text is immediately preceded by a carriage return:
wherever the text splits around a line feed, what stands before it ends with a
carriage return. -/
def CrlfTerminated (s : String) : Prop :=
  ∀ pre post : List Char, s.data = pre ++ '\n' :: post → ∃ pre2, pre = pre2 ++ ['\r']

/-- The same test as a computation over the characters; the flag says whether
the character before the list is a carriage return. -/
def crlfOnly : Bool → List Char → Bool
  | _, [] => true
  | prevCR, c :: rest => (c != '\n' || prevCR) && crlfOnly (c == '\r') rest

/-- Every string of the project has each of its line feeds preceded by a
carriage return (so, in particular, when none of them has a line feed). -/
def StringsCrlfTerminated (project : Project) : Prop :=
  CrlfTerminated project.name ∧ CrlfTerminated project.toolset ∧
  ∀ c ∈ project.configurations,
    CrlfTerminated c.name ∧ CrlfTerminated c.architecture ∧
    (∀ p ∈ c.libraries, CrlfTerminated p) ∧ (∀ p ∈ c.binaries, CrlfTerminated p)

/-- A command line whose project name holds a line feed. -/
def lineFeedArgv : List String :=
  ["vcppgen", "a\nb", "v141"]

/-- The project `lineFeedArgv` parses to. -/
def lineFeedProject : Project :=
  { name := "a\nb", toolset := "v141", hasBinaries := false, hasLibraries := false,
    configurations := [] }

/-! ## Well-formed XML

A checker for the well-formedness of an XML 1.0 document that has no document
type declaration (Extensible Markup Language 1.0, Fifth Edition; the numbers
are those of its productions). The XML declaration is checked first; the rest
of the document is read one character at a time by `step`, with the names of
the open elements on a stack. -/

/-- The code points of production [2] `Char`. -/
def isXmlCode (n : Nat) : Bool :=
  n == 0x9 || n == 0xA || n == 0xD || (0x20 ≤ n && n ≤ 0xD7FF)
    || (0xE000 ≤ n && n ≤ 0xFFFD) || (0x10000 ≤ n && n ≤ 0x10FFFF)

/-- Production [2] `Char`. -/
def isXmlChar (c : Char) : Bool :=
  isXmlCode c.toNat

/-- Production [3] `S`, one character of white space. -/
def isSpace (c : Char) : Bool :=
  c == ' ' || c == '\t' || c == '\r' || c == '\n'

/-- Production [4] `NameStartChar`. -/
def isNameStart (c : Char) : Bool :=
  c == ':' || c == '_' || (0x41 ≤ c.toNat && c.toNat ≤ 0x5A)
    || (0x61 ≤ c.toNat && c.toNat ≤ 0x7A) || (0xC0 ≤ c.toNat && c.toNat ≤ 0xD6)
    || (0xD8 ≤ c.toNat && c.toNat ≤ 0xF6) || (0xF8 ≤ c.toNat && c.toNat ≤ 0x2FF)
    || (0x370 ≤ c.toNat && c.toNat ≤ 0x37D) || (0x37F ≤ c.toNat && c.toNat ≤ 0x1FFF)
    || (0x200C ≤ c.toNat && c.toNat ≤ 0x200D) || (0x2070 ≤ c.toNat && c.toNat ≤ 0x218F)
    || (0x2C00 ≤ c.toNat && c.toNat ≤ 0x2FEF) || (0x3001 ≤ c.toNat && c.toNat ≤ 0xD7FF)
    || (0xF900 ≤ c.toNat && c.toNat ≤ 0xFDCF) || (0xFDF0 ≤ c.toNat && c.toNat ≤ 0xFFFD)
    || (0x10000 ≤ c.toNat && c.toNat ≤ 0xEFFFF)

/-- Production [4a] `NameChar`. -/
def isNameChar (c : Char) : Bool :=
  isNameStart c || c == '-' || c == '.' || (0x30 ≤ c.toNat && c.toNat ≤ 0x39)
    || c.toNat == 0xB7 || (0x300 ≤ c.toNat && c.toNat ≤ 0x36F)
    || (0x203F ≤ c.toNat && c.toNat ≤ 0x2040)

/-- The value of a decimal digit. -/
def decDigit (c : Char) : Option Nat :=
  if 0x30 ≤ c.toNat && c.toNat ≤ 0x39 then some (c.toNat - 0x30) else none

/-- The value of a hexadecimal digit. -/
def hexDigit (c : Char) : Option Nat :=
  if 0x30 ≤ c.toNat && c.toNat ≤ 0x39 then some (c.toNat - 0x30)
  else if 0x41 ≤ c.toNat && c.toNat ≤ 0x46 then some (c.toNat - 0x41 + 10)
  else if 0x61 ≤ c.toNat && c.toNat ≤ 0x66 then some (c.toNat - 0x61 + 10)
  else none

/-- Where the reader is inside the markup. A reference remembers in `ret` the
attribute value it stands in (`none`: it stands in content). -/
inductive Mode where
  /-- Outside markup: character data of the innermost open element, or the
  white space around the root element; `brackets` counts the `]` just read. -/
  | text (brackets : Nat)
  /-- After `<`. -/
  | lt
  /-- In the name of a start tag. -/
  | startName (name : List Char)
  /-- In a start tag, after its name or after an attribute; `attrs` are the
  attribute names read so far, `spaced` says that white space was just read. -/
  | inTag (name : List Char) (attrs : List (List Char)) (spaced : Bool)
  /-- In the name of an attribute. -/
  | attrName (name : List Char) (attrs : List (List Char)) (attr : List Char)
  /-- After an attribute name and white space, before `=`. -/
  | attrEq (name : List Char) (attrs : List (List Char))
  /-- After `=`, before the opening quote. -/
  | attrQuote (name : List Char) (attrs : List (List Char))
  /-- In an attribute value opened by `quote`. -/
  | attrValue (name : List Char) (attrs : List (List Char)) (quote : Char)
  /-- After the `/` of an empty-element tag. -/
  | emptyEnd
  /-- After `</`, in the name of an end tag. -/
  | endName (name : List Char)
  /-- After the name of an end tag and white space. -/
  | endSpace (name : List Char)
  /-- After `<!`. -/
  | bang
  /-- After `<!-`. -/
  | commentStart
  /-- In a comment; `dashes` counts the `-` just read. -/
  | comment (dashes : Nat)
  /-- After `<!` and the first `matched` characters of `[CDATA[`. -/
  | cdataStart (matched : Nat)
  /-- In a CDATA section; `brackets` counts the `]` just read. -/
  | cdata (brackets : Nat)
  /-- After `<?`, in the target of a processing instruction. -/
  | piTarget (name : List Char)
  /-- After the target of a processing instruction and a `?`. -/
  | piEnd
  /-- In the text of a processing instruction; `question` says that `?` was
  just read. -/
  | piText (question : Bool)
  /-- After `&`. -/
  | refStart (ret : Option (List Char × List (List Char) × Char))
  /-- In the name of an entity reference. -/
  | entityRef (ret : Option (List Char × List (List Char) × Char)) (name : List Char)
  /-- After `&#`. -/
  | charRefStart (ret : Option (List Char × List (List Char) × Char))
  /-- In a decimal character reference with the value read so far. -/
  | charRefDec (ret : Option (List Char × List (List Char) × Char)) (value : Nat)
  /-- In a hexadecimal character reference; `value` is `none` before the
  first digit. -/
  | charRefHex (ret : Option (List Char × List (List Char) × Char)) (value : Option Nat)
deriving DecidableEq

/-- The state of the reader: the names of the open elements, innermost first,
whether the root element has started, and the mode. -/
structure XmlState where
  stack : List (List Char)
  rootSeen : Bool
  mode : Mode
deriving DecidableEq

/-- The state before the first character (after the XML declaration). -/
def xmlStart : XmlState :=
  { stack := [], rootSeen := false, mode := .text 0 }

/-- The reader may stop here: the root element has been read and closed and
no markup is open. -/
def xmlFinal (st : XmlState) : Bool :=
  st.stack.isEmpty && st.rootSeen &&
    (match st.mode with
      | .text _ => true
      | _ => false)

/-- The end of an end tag `</name>`: the name is that of the innermost open
element, which is closed (well-formedness constraint: element type match). -/
def closeElement (st : XmlState) (name : List Char) : Option XmlState :=
  match st.stack with
  | [] => none
  | top :: rest =>
    if top = name then some { stack := rest, rootSeen := st.rootSeen, mode := .text 0 }
    else none

/-- The end of a reference: back to the content or to the attribute value. -/
def resume (st : XmlState) (ret : Option (List Char × List (List Char) × Char)) : XmlState :=
  match ret with
  | none => { st with mode := .text 0 }
  | some (name, attrs, quote) => { st with mode := .attrValue name attrs quote }

/-- The names of the predefined entities; without a document type declaration
no other entity is declared (well-formedness constraint: entity declared). -/
def predefinedEntities : List (List Char) :=
  ["amp".data, "lt".data, "gt".data, "apos".data, "quot".data]

/-- Whether a processing-instruction target is the reserved name `xml` in any
case (production [17]). -/
def isReservedTarget (name : List Char) : Bool :=
  name.map Char.toLower == "xml".data

/-- One character of the document after the XML declaration; `none` when the
character is not allowed where it stands. -/
def step (st : XmlState) (c : Char) : Option XmlState :=
  match st.mode with
  | .text brackets =>
    if c = '<' then some { st with mode := .lt }
    else if st.stack.isEmpty then
      (if isSpace c then some { st with mode := .text 0 } else none)
    else if c = '&' then some { st with mode := .refStart none }
    else if c = ']' then some { st with mode := .text (min (brackets + 1) 2) }
    else if c = '>' then
      (if 2 ≤ brackets then none else some { st with mode := .text 0 })
    else if isXmlChar c then some { st with mode := .text 0 }
    else none
  | .lt =>
    if c = '/' then some { st with mode := .endName [] }
    else if c = '!' then some { st with mode := .bang }
    else if c = '?' then some { st with mode := .piTarget [] }
    else if isNameStart c && !(st.stack.isEmpty && st.rootSeen) then
      some { st with mode := .startName [c] }
    else none
  | .startName name =>
    if isNameChar c then some { st with mode := .startName (name ++ [c]) }
    else if isSpace c then some { st with mode := .inTag name [] true }
    else if c = '>' then some { stack := name :: st.stack, rootSeen := true, mode := .text 0 }
    else if c = '/' then some { st with mode := .emptyEnd }
    else none
  | .inTag name attrs spaced =>
    if isSpace c then some { st with mode := .inTag name attrs true }
    else if c = '>' then some { stack := name :: st.stack, rootSeen := true, mode := .text 0 }
    else if c = '/' then some { st with mode := .emptyEnd }
    else if spaced && isNameStart c then some { st with mode := .attrName name attrs [c] }
    else none
  | .attrName name attrs attr =>
    if isNameChar c then some { st with mode := .attrName name attrs (attr ++ [c]) }
    else if attrs.contains attr then none
    else if c = '=' then some { st with mode := .attrQuote name (attr :: attrs) }
    else if isSpace c then some { st with mode := .attrEq name (attr :: attrs) }
    else none
  | .attrEq name attrs =>
    if isSpace c then some st
    else if c = '=' then some { st with mode := .attrQuote name attrs }
    else none
  | .attrQuote name attrs =>
    if isSpace c then some st
    else if c = '"' || c = '\x27' then some { st with mode := .attrValue name attrs c }
    else none
  | .attrValue name attrs quote =>
    if c = quote then some { st with mode := .inTag name attrs false }
    else if c = '<' then none
    else if c = '&' then some { st with mode := .refStart (some (name, attrs, quote)) }
    else if isXmlChar c then some st
    else none
  | .emptyEnd =>
    if c = '>' then some { st with rootSeen := true, mode := .text 0 } else none
  | .endName name =>
    if name.isEmpty then
      (if isNameStart c then some { st with mode := .endName [c] } else none)
    else if isNameChar c then some { st with mode := .endName (name ++ [c]) }
    else if isSpace c then some { st with mode := .endSpace name }
    else if c = '>' then closeElement st name
    else none
  | .endSpace name =>
    if isSpace c then some st
    else if c = '>' then closeElement st name
    else none
  | .bang =>
    if c = '-' then some { st with mode := .commentStart }
    else if c = '[' && !st.stack.isEmpty then some { st with mode := .cdataStart 1 }
    else none
  | .commentStart =>
    if c = '-' then some { st with mode := .comment 0 } else none
  | .comment dashes =>
    if 2 ≤ dashes then (if c = '>' then some { st with mode := .text 0 } else none)
    else if c = '-' then some { st with mode := .comment (dashes + 1) }
    else if isXmlChar c then some { st with mode := .comment 0 }
    else none
  | .cdataStart matched =>
    if "[CDATA[".data.get? matched = some c then
      (if matched = 6 then some { st with mode := .cdata 0 }
        else some { st with mode := .cdataStart (matched + 1) })
    else none
  | .cdata brackets =>
    if c = ']' then some { st with mode := .cdata (min (brackets + 1) 2) }
    else if c = '>' && 2 ≤ brackets then some { st with mode := .text 0 }
    else if isXmlChar c then some { st with mode := .cdata 0 }
    else none
  | .piTarget name =>
    if name.isEmpty then
      (if isNameStart c then some { st with mode := .piTarget [c] } else none)
    else if isNameChar c then some { st with mode := .piTarget (name ++ [c]) }
    else if isReservedTarget name then none
    else if c = '?' then some { st with mode := .piEnd }
    else if isSpace c then some { st with mode := .piText false }
    else none
  | .piEnd =>
    if c = '>' then some { st with mode := .text 0 } else none
  | .piText question =>
    if c = '>' && question then some { st with mode := .text 0 }
    else if c = '?' then some { st with mode := .piText true }
    else if isXmlChar c then some { st with mode := .piText false }
    else none
  | .refStart ret =>
    if c = '#' then some { st with mode := .charRefStart ret }
    else if isNameStart c then some { st with mode := .entityRef ret [c] }
    else none
  | .entityRef ret name =>
    if isNameChar c then some { st with mode := .entityRef ret (name ++ [c]) }
    else if c = ';' && predefinedEntities.contains name then some (resume st ret)
    else none
  | .charRefStart ret =>
    if c = 'x' then some { st with mode := .charRefHex ret none }
    else
      match decDigit c with
      | some d => some { st with mode := .charRefDec ret d }
      | none => none
  | .charRefDec ret value =>
    match decDigit c with
    | some d => some { st with mode := .charRefDec ret (value * 10 + d) }
    | none => if c = ';' && isXmlCode value then some (resume st ret) else none
  | .charRefHex ret value =>
    match hexDigit c with
    | some d => some { st with mode := .charRefHex ret (some (value.getD 0 * 16 + d)) }
    | none =>
      match value with
      | some v => if c = ';' && isXmlCode v then some (resume st ret) else none
      | none => none

/-- The reader over a list of characters. -/
def run : XmlState → List Char → Option XmlState
  | st, [] => some st
  | st, c :: rest =>
    match step st c with
    | some st2 => run st2 rest
    | none => none

/-- The characters after a given prefix; `none` when the prefix is not there. -/
def dropPrefix : List Char → List Char → Option (List Char)
  | [], s => some s
  | _ :: _, [] => none
  | p :: prefixRest, c :: rest => if p = c then dropPrefix prefixRest rest else none

/-- The characters after leading white space (`S?`). -/
def dropSpaces : List Char → List Char
  | [] => []
  | c :: rest => if isSpace c then dropSpaces rest else c :: rest

/-- The characters after at least one character of white space (`S`). -/
def dropSpaces1 : List Char → Option (List Char)
  | [] => none
  | c :: rest => if isSpace c then some (dropSpaces rest) else none

/-- Production [25] `Eq`: `S? '=' S?`. -/
def dropEq (s : List Char) : Option (List Char) :=
  match dropSpaces s with
  | '=' :: rest => some (dropSpaces rest)
  | _ => none

/-- The characters after leading characters that satisfy `p`. -/
def dropWhileChar (p : Char → Bool) : List Char → List Char
  | [] => []
  | c :: rest => if p c then dropWhileChar p rest else c :: rest

/-- A value between two equal quotes, `item` reading the value. -/
def dropQuoted (item : List Char → Option (List Char)) : List Char → Option (List Char)
  | [] => none
  | quote :: rest =>
    if quote = '"' || quote = '\x27' then
      match item rest with
      | some (c :: rest2) => if c = quote then some rest2 else none
      | _ => none
    else none

/-- Production [26] `VersionNum`: `1.` and at least one digit. -/
def dropVersionNum (s : List Char) : Option (List Char) :=
  match dropPrefix "1.".data s with
  | some (c :: rest) =>
    if (decDigit c).isSome then some (dropWhileChar (fun d => (decDigit d).isSome) rest)
    else none
  | _ => none

/-- Production [81] `EncName`: a Latin letter, then Latin letters, digits,
`.`, `_` and `-`. -/
def dropEncName : List Char → Option (List Char)
  | [] => none
  | c :: rest =>
    if (0x41 ≤ c.toNat && c.toNat ≤ 0x5A) || (0x61 ≤ c.toNat && c.toNat ≤ 0x7A) then
      some (dropWhileChar (fun d =>
        (0x41 ≤ d.toNat && d.toNat ≤ 0x5A) || (0x61 ≤ d.toNat && d.toNat ≤ 0x7A)
          || (decDigit d).isSome || d == '.' || d == '_' || d == '-') rest)
    else none

/-- The value `yes` or `no` of the standalone declaration. -/
def dropYesNo (s : List Char) : Option (List Char) :=
  match dropPrefix "yes".data s with
  | some rest => some rest
  | none => dropPrefix "no".data s

/-- A pseudo-attribute of the XML declaration: `S name Eq quoted-value`. -/
def dropDeclAttr (name : String) (item : List Char → Option (List Char))
    (s : List Char) : Option (List Char) :=
  match dropSpaces1 s with
  | none => none
  | some s1 =>
    match dropPrefix name.data s1 with
    | none => none
    | some s2 =>
      match dropEq s2 with
      | none => none
      | some s3 => dropQuoted item s3

/-- Production [23] `XMLDecl` after its first five characters `<?xml`: the
version, then optionally the encoding, then optionally the standalone
declaration, then `S? '?>'`. The result is what follows the declaration. -/
def dropXmlDecl (s : List Char) : Option (List Char) :=
  match dropDeclAttr "version" dropVersionNum s with
  | none => none
  | some s1 =>
    let s2 := (dropDeclAttr "encoding" dropEncName s1).getD s1
    let s3 := (dropDeclAttr "standalone" dropYesNo s2).getD s2
    dropPrefix "?>".data (dropSpaces s3)

/-- Whether the reader accepts the characters as the document after the XML
declaration: production [1] `document` without production [23]. -/
def acceptsBody (s : List Char) : Bool :=
  match run xmlStart s with
  | some st => xmlFinal st
  | none => false

/-- Whether the text is a well-formed XML document without a document type
declaration. A text that starts with `<?xml` and white space starts with an
XML declaration. -/
def wellFormedXml (s : String) : Bool :=
  match dropPrefix "<?xml".data s.data with
  | some (c :: rest) =>
    if isSpace c then
      match dropXmlDecl (c :: rest) with
      | some body => acceptsBody body
      | none => false
    else acceptsBody s.data
  | _ => acceptsBody s.data

/-- The reader, started in `st`, reads the text `s` and stands in `st2`
before whatever follows. -/
def Reads (st st2 : XmlState) (s : String) : Prop :=
  ∀ rest : List Char, run st (s.data ++ rest) = run st2 rest

/-- The state of the reader after a text (`st` itself when it stops inside). -/
def stateAfter (st : XmlState) (s : String) : XmlState :=
  (run st s.data).getD st

/-- The reader stands in an attribute value opened by a double quote. -/
def inDoubleQuotes (st : XmlState) : Bool :=
  match st.mode with
  | .attrValue _ _ quote => quote == '"'
  | _ => false

/-- The reader stands in the character data of an open element. -/
def inContent (st : XmlState) : Bool :=
  !st.stack.isEmpty &&
    (match st.mode with
      | .text _ => true
      | _ => false)

/-- A text that may stand verbatim in character data and in a double-quoted
attribute value: legal XML characters other than `<`, `&`, `>` and `"`. -/
def XmlSafe (s : String) : Prop :=
  ∀ c ∈ s.data, isXmlChar c = true ∧ c ≠ '<' ∧ c ≠ '&' ∧ c ≠ '>' ∧ c ≠ '"'

/-- Every string of the project is `XmlSafe`. -/
def StringsXmlSafe (project : Project) : Prop :=
  XmlSafe project.name ∧ XmlSafe project.toolset ∧
  ∀ c ∈ project.configurations,
    XmlSafe c.name ∧ XmlSafe c.architecture ∧
    (∀ p ∈ c.libraries, XmlSafe p) ∧ (∀ p ∈ c.binaries, XmlSafe p)

/-- A command line whose project name holds a `<`. -/
def markupArgv : List String :=
  ["vcppgen", "a<b", "v141"]

/-- The project `markupArgv` parses to. -/
def markupProject : Project :=
  { name := "a<b", toolset := "v141", hasBinaries := false, hasLibraries := false,
    configurations := [] }

/-- The reader inside the root element `Project`. -/
def xmlInProject : XmlState :=
  { stack := ["Project".data], rootSeen := true, mode := .text 0 }

/-- The reader inside the `ProjectConfigurations` item group. -/
def xmlInItemGroup : XmlState :=
  { stack := ["ItemGroup".data, "Project".data], rootSeen := true, mode := .text 0 }

/-- The reader inside the item group of a target. -/
def xmlInTargetItemGroup : XmlState :=
  { stack := ["ItemGroup".data, "Target".data, "Project".data], rootSeen := true,
    mode := .text 0 }

/-- The reader after the end of the root element. -/
def xmlDone : XmlState :=
  { stack := [], rootSeen := true, mode := .text 0 }

/-! ## Index facts -/

theorem drop_eq_cons {argv : List String} {i : Nat} {t : String} {rest : List String}
    (h : argv.drop i = t :: rest) :
    i < argv.length ∧ argv.getD i "" = t ∧ argv.drop (i + 1) = rest := by
  have hi : i < argv.length := by
    by_contra hc
    rw [List.drop_eq_nil_of_le (by omega)] at h
    exact absurd h (by simp)
  rw [List.drop_eq_getElem_cons hi] at h
  injection h with h1 h2
  refine ⟨hi, ?_, h2⟩
  rw [List.getD_eq_getElem _ _ hi]
  exact h1

theorem drop_eq_nil_length {argv : List String} {i : Nat} (h : argv.drop i = []) :
    ¬ i < argv.length := by
  have := List.drop_eq_nil_iff.mp h
  omega

/-! ## The parser on grammatical input -/

theorem length_flattenArtifacts (arts : List (ArtifactKind × String)) :
    (flattenArtifacts arts).length = 2 * arts.length := by
  induction arts with
  | nil => rfl
  | cons a l ih =>
    obtain ⟨k, q⟩ := a
    simp only [flattenArtifacts, List.length_cons, ih]
    omega

theorem artifactLoop_prefix (fs : String → FileTest) (argv : List String) :
    ∀ (arts : List (ArtifactKind × String)) (rest : List String) (fuel i : Nat)
      (project : Project) (configuration : Configuration),
      argv.drop i = flattenArtifacts arts ++ rest →
      (∀ a ∈ arts, fs a.2 = .returns true) →
      argv.length ≤ i + fuel →
      ∃ fuel2, argv.length ≤ (i + 2 * arts.length) + fuel2 ∧
        argv.drop (i + 2 * arts.length) = rest ∧
        artifactLoop fs argv fuel i project configuration =
          artifactLoop fs argv fuel2 (i + 2 * arts.length)
            (projectAfter project arts) (configurationAfter configuration arts) := by
  intro arts
  induction arts with
  | nil =>
    intro rest fuel i project configuration h _ hf
    refine ⟨fuel, by simpa using hf, by simpa [flattenArtifacts] using h, ?_⟩
    simp [projectAfter, configurationAfter, pathsOf]
  | cons a arts ih =>
    intro rest fuel i project configuration h hfs hf
    obtain ⟨kind, path⟩ := a
    simp only [flattenArtifacts, List.cons_append] at h
    obtain ⟨hi, hsw, h1⟩ := drop_eq_cons h
    obtain ⟨hi1, hpath, h2⟩ := drop_eq_cons h1
    have hex : fs path = .returns true := hfs (kind, path) (by simp)
    obtain ⟨fuel, rfl⟩ : ∃ f, fuel = f + 1 := ⟨fuel - 1, by omega⟩
    have hidx : i + 1 + 1 + 2 * arts.length = i + 2 * (arts.length + 1) := by omega
    cases kind with
    | dll =>
      obtain ⟨fuel2, hf2, hd2, heq⟩ := ih rest fuel (i + 1 + 1)
        { project with hasBinaries := true }
        { configuration with binaries := configuration.binaries ++ [path] }
        h2 (fun a ha => hfs a (by simp [ha])) (by omega)
      rw [hidx] at hf2 hd2 heq
      refine ⟨fuel2, by simpa using hf2, by simpa using hd2, ?_⟩
      simp only [artifactLoop, hi, if_true, hsw, switchOf, requireFn, ge_iff_le,
        Nat.not_le.mpr hi1, if_false, hpath, hex, List.length_cons]
      simp [heq, projectAfter, configurationAfter, pathsOf]
    | lib =>
      obtain ⟨fuel2, hf2, hd2, heq⟩ := ih rest fuel (i + 1 + 1)
        { project with hasLibraries := true }
        { configuration with libraries := configuration.libraries ++ [path] }
        h2 (fun a ha => hfs a (by simp [ha])) (by omega)
      rw [hidx] at hf2 hd2 heq
      refine ⟨fuel2, by simpa using hf2, by simpa using hd2, ?_⟩
      simp only [artifactLoop, hi, if_true, hsw, switchOf, requireFn, ge_iff_le,
        Nat.not_le.mpr hi1, if_false, hpath, hex, List.length_cons]
      simp [heq, projectAfter, configurationAfter, pathsOf]

/-- The artifact loop stops without consuming anything at the end of the
input and at a `-c`. -/
theorem artifactLoop_stop (fs : String → FileTest) (argv : List String) (fuel i : Nat)
    (project : Project) (configuration : Configuration) (rest : List String)
    (h : argv.drop i = rest) (hr : rest = [] ∨ ∃ r, rest = "-c" :: r)
    (hf : argv.length ≤ i + fuel) :
    artifactLoop fs argv fuel i project configuration = .ok (i, project, configuration) := by
  rcases hr with rfl | ⟨r, rfl⟩
  · have hi := drop_eq_nil_length h
    cases fuel <;> simp [artifactLoop, hi]
  · obtain ⟨hi, hsw, -⟩ := drop_eq_cons h
    obtain ⟨fuel, rfl⟩ : ∃ f, fuel = f + 1 := ⟨fuel - 1, by omega⟩
    simp only [artifactLoop, hi, hsw, if_true]

/-- On a run of artifact pairs whose files all exist, followed by the end of
the input or a `-c`, the artifact loop returns the bucketed configuration. -/
theorem artifactLoop_grammar (fs : String → FileTest) (argv : List String)
    (arts : List (ArtifactKind × String)) (rest : List String) (fuel i : Nat)
    (project : Project) (configuration : Configuration)
    (h : argv.drop i = flattenArtifacts arts ++ rest)
    (hr : rest = [] ∨ ∃ r, rest = "-c" :: r)
    (hfs : ∀ a ∈ arts, fs a.2 = .returns true) (hf : argv.length ≤ i + fuel) :
    argv.drop (i + 2 * arts.length) = rest ∧
    artifactLoop fs argv fuel i project configuration =
      .ok (i + 2 * arts.length, projectAfter project arts,
        configurationAfter configuration arts) := by
  obtain ⟨fuel2, hf2, hd2, heq⟩ :=
    artifactLoop_prefix fs argv arts rest fuel i project configuration h hfs hf
  exact ⟨hd2, heq.trans (artifactLoop_stop fs argv fuel2 _ _ _ rest hd2 hr hf2)⟩

theorem flattenConfigs_stop (cfgs : List ConfigSpec) (rest : List String)
    (hr : rest = [] ∨ ∃ r, rest = "-c" :: r) :
    flattenConfigs cfgs ++ rest = [] ∨ ∃ r, flattenConfigs cfgs ++ rest = "-c" :: r := by
  cases cfgs with
  | nil => simpa [flattenConfigs] using hr
  | cons c cs =>
    exact Or.inr ⟨c.name :: c.architecture ::
      (flattenArtifacts c.artifacts ++ flattenConfigs cs ++ rest), by simp [flattenConfigs]⟩

theorem configLoop_prefix (fs : String → FileTest) (argv : List String) :
    ∀ (cfgs : List ConfigSpec) (rest : List String) (fuel i : Nat)
      (project : Project) (cout : String),
      argv.drop i = flattenConfigs cfgs ++ rest →
      (rest = [] ∨ ∃ r, rest = "-c" :: r) →
      AllExist fs cfgs →
      argv.length ≤ i + fuel →
      ∃ fuel2, argv.length ≤ (i + (flattenConfigs cfgs).length) + fuel2 ∧
        argv.drop (i + (flattenConfigs cfgs).length) = rest ∧
        configLoop fs argv fuel i project cout =
          configLoop fs argv fuel2 (i + (flattenConfigs cfgs).length)
            (projectAfterConfigs project cfgs) (coutAfterConfigs cout cfgs) := by
  intro cfgs
  induction cfgs with
  | nil =>
    intro rest fuel i project cout h _ _ hf
    refine ⟨fuel, by simpa [flattenConfigs] using hf, by simpa [flattenConfigs] using h, ?_⟩
    simp [projectAfterConfigs, coutAfterConfigs, flattenConfigs]
  | cons c cs ih =>
    intro rest fuel i project cout h hr hfs hf
    simp only [flattenConfigs, List.cons_append, List.append_assoc] at h
    obtain ⟨hi, hsw, h1⟩ := drop_eq_cons h
    obtain ⟨hi1, hname, h2⟩ := drop_eq_cons h1
    obtain ⟨hi2, harch, h3⟩ := drop_eq_cons h2
    obtain ⟨fuel, rfl⟩ : ∃ f, fuel = f + 1 := ⟨fuel - 1, by omega⟩
    obtain ⟨hd, hloop⟩ := artifactLoop_grammar fs argv c.artifacts (flattenConfigs cs ++ rest)
      argv.length (i + 1 + 1 + 1) project
      { name := c.name, architecture := c.architecture, libraries := [], binaries := [] }
      h3 (flattenConfigs_stop cs rest hr) (fun a ha => hfs c (by simp) a ha) (by omega)
    have hlen : argv.length = i + 1 + 1 + 1 + 2 * c.artifacts.length
        + (flattenConfigs cs ++ rest).length := by
      have := congrArg List.length h3
      simp only [List.length_drop, List.length_append, length_flattenArtifacts] at this
      simp only [List.length_append]
      omega
    obtain ⟨fuel2, hf2, hd2, heq⟩ := ih rest fuel (i + 1 + 1 + 1 + 2 * c.artifacts.length)
      { projectAfter project c.artifacts with
        configurations := (projectAfter project c.artifacts).configurations ++
          [configurationAfter
            { name := c.name, architecture := c.architecture, libraries := [], binaries := [] }
            c.artifacts] }
      (writeWarnings cout (configurationAfter
        { name := c.name, architecture := c.architecture, libraries := [], binaries := [] }
        c.artifacts))
      hd hr (fun c2 hc2 => hfs c2 (by simp [hc2])) (by omega)
    have hidx : i + 1 + 1 + 1 + 2 * c.artifacts.length + (flattenConfigs cs).length
        = i + (flattenConfigs (c :: cs)).length := by
      simp [flattenConfigs, length_flattenArtifacts]; omega
    rw [hidx] at hf2 hd2 heq
    refine ⟨fuel2, hf2, hd2, ?_⟩
    simp only [configLoop, hi, if_true, requireSwitchFn, requireFn, ge_iff_le,
      Nat.not_le.mpr hi, Nat.not_le.mpr hi1, Nat.not_le.mpr hi2, if_false, hsw, hname, harch,
      ne_eq, not_true_eq_false, hloop]
    rw [heq]
    simp [projectAfterConfigs, projectAfter, configurationAfter, ConfigSpec.toConfiguration,
      coutAfterConfigs, Bool.or_assoc]

/-- One round of the configuration loop on a header `-c cfg arch`. -/
theorem configLoop_header (fs : String → FileTest) (argv : List String) (fuel i : Nat)
    (project : Project) (cout cname arch : String) (rest : List String)
    (h : argv.drop i = "-c" :: cname :: arch :: rest) :
    configLoop fs argv (fuel + 1) i project cout =
      match artifactLoop fs argv argv.length (i + 1 + 1 + 1) project
          { name := cname, architecture := arch, libraries := [], binaries := [] } with
      | .thrown what => (cout, .thrown what)
      | .filesystemError what => (cout, .filesystemError what)
      | .noFuel => (cout, .noFuel)
      | .ok (i, project, configuration) =>
        configLoop fs argv fuel i
          { project with configurations := project.configurations ++ [configuration] }
          (writeWarnings cout configuration) := by
  obtain ⟨hi, hsw, h1⟩ := drop_eq_cons h
  obtain ⟨hi1, hname, h2⟩ := drop_eq_cons h1
  obtain ⟨hi2, harch, -⟩ := drop_eq_cons h2
  simp only [configLoop, hi, if_true, requireSwitchFn, requireFn, ge_iff_le,
    Nat.not_le.mpr hi, Nat.not_le.mpr hi1, Nat.not_le.mpr hi2, if_false, hsw, hname, harch,
    ne_eq, not_true_eq_false]

/-- The two positional tokens: parsing continues with the configuration loop
at index `3` on a project that has the name and the toolset. -/
theorem parse_positional (fs : String → FileTest) (exe name toolset : String)
    (tokens : List String) :
    parse fs (exe :: name :: toolset :: tokens) =
      configLoop fs (exe :: name :: toolset :: tokens) (tokens.length + 3) 3
        { name := name, toolset := toolset, hasBinaries := false, hasLibraries := false,
          configurations := [] } "" := by
  simp [parse, requireFn]

/-- The parser on a complete grammatical command line whose files all exist. -/
theorem parse_grammar (fs : String → FileTest) (exe name toolset : String)
    (cfgs : List ConfigSpec) (h : AllExist fs cfgs) :
    parse fs (exe :: name :: toolset :: flattenConfigs cfgs) =
      (coutAfterConfigs "" cfgs, .ok (projectOf name toolset cfgs)) := by
  rw [parse_positional]
  obtain ⟨fuel2, -, hd, heq⟩ := configLoop_prefix fs (exe :: name :: toolset :: flattenConfigs cfgs)
    cfgs [] ((flattenConfigs cfgs).length + 3) 3
    { name := name, toolset := toolset, hasBinaries := false, hasLibraries := false,
      configurations := [] } "" (by simp) (Or.inl rfl) h (by simp)
  rw [heq]
  have hi := drop_eq_nil_length hd
  cases fuel2 <;> simp only [configLoop, hi, if_false] <;> simp [projectAfterConfigs, projectOf]

/-- C1: for every name, toolset and ordered list of configurations whose
artifact paths are all existing regular files, parsing the flattened token
sequence `name toolset (-c cfg arch ((-dll|-lib) path)*)*` (after the program
name, whatever it is) succeeds and yields
the project with that name and toolset whose configurations are the given ones
in the given order and count, each with `binaries` the subsequence of its
`-dll` paths and `libraries` the subsequence of its `-lib` paths. -/
theorem parse_flatten_project (fs : String → FileTest) (exe name toolset : String)
    (cfgs : List ConfigSpec) (h : AllExist fs cfgs) :
    ∃ project, (parse fs (exe :: name :: toolset :: flattenConfigs cfgs)).2 = .ok project ∧
      project.name = name ∧ project.toolset = toolset ∧
      project.configurations = cfgs.map (fun c =>
        { name := c.name, architecture := c.architecture,
          libraries := pathsOf .lib c.artifacts, binaries := pathsOf .dll c.artifacts }) := by
  refine ⟨projectOf name toolset cfgs, ?_, rfl, rfl, rfl⟩
  rw [parse_grammar fs exe name toolset cfgs h]

theorem parse_flatten_project_witness :
    AllExist (fun _ => .returns true) sampleConfigs ∧
      ∃ project, (parse (fun _ => .returns true)
          ("vcppgen" :: "foo" :: "v141" :: flattenConfigs sampleConfigs)).2 = .ok project ∧
        project.name = "foo" ∧ project.toolset = "v141" ∧
        project.configurations = sampleConfigs.map (fun c =>
          { name := c.name, architecture := c.architecture,
            libraries := pathsOf .lib c.artifacts, binaries := pathsOf .dll c.artifacts }) :=
  ⟨fun _ _ _ _ => rfl,
    parse_flatten_project (fun _ => .returns true) "vcppgen" "foo" "v141" sampleConfigs
      (fun _ _ _ _ => rfl)⟩

/-- The artifact loop at a pair for whose path the file test returns `false`. -/
theorem artifactLoop_missing (fs : String → FileTest) (argv : List String)
    (fuel i : Nat) (project : Project) (configuration : Configuration) (kind : ArtifactKind)
    (p : String) (rest : List String) (h : argv.drop i = switchOf kind :: p :: rest)
    (hp : fs p = .returns false) :
    artifactLoop fs argv (fuel + 1) i project configuration =
      .thrown (notFoundMessage kind p) := by
  obtain ⟨hi, hsw, h1⟩ := drop_eq_cons h
  obtain ⟨hi1, hpath, -⟩ := drop_eq_cons h1
  cases kind <;>
    simp [artifactLoop, hi, hsw, switchOf, requireFn, Nat.not_le.mpr hi1, hpath, hp,
      notFoundMessage, -List.getD_eq_getElem?_getD]

/-- The artifact loop at a pair for whose path the file test throws. -/
theorem artifactLoop_test_throws (fs : String → FileTest) (argv : List String)
    (fuel i : Nat) (project : Project) (configuration : Configuration) (kind : ArtifactKind)
    (p : String) (rest : List String) (what : String)
    (h : argv.drop i = switchOf kind :: p :: rest) (hp : fs p = .throws what) :
    artifactLoop fs argv (fuel + 1) i project configuration = .filesystemError what := by
  obtain ⟨hi, hsw, h1⟩ := drop_eq_cons h
  obtain ⟨hi1, hpath, -⟩ := drop_eq_cons h1
  cases kind <;>
    simp [artifactLoop, hi, hsw, switchOf, requireFn, Nat.not_le.mpr hi1, hpath, hp,
      -List.getD_eq_getElem?_getD]

/-- C2, as the code has it: when the tokens are grammatical up to and
including an artifact pair `-dll p` (respectively `-lib p`) and every earlier
artifact path is an existing regular file, then, whatever tokens follow: if
the file test returns `false` for `p`, parsing fails with exactly the message
`DLL file not found: 'p'` (respectively `lib file not found: 'p'`); if the
file test itself throws a filesystem error for `p`, parsing fails with that
error and its message. -/
theorem parse_missing_file (fs : String → FileTest) (exe name toolset : String)
    (cfgs : List ConfigSpec) (cname arch : String) (arts : List (ArtifactKind × String))
    (kind : ArtifactKind) (p : String) (rest : List String)
    (hcfgs : AllExist fs cfgs) (harts : ∀ a ∈ arts, fs a.2 = .returns true) :
    (fs p = .returns false →
      (parse fs (exe :: name :: toolset :: (flattenConfigs cfgs ++
        "-c" :: cname :: arch :: (flattenArtifacts arts ++ switchOf kind :: p :: rest)))).2 =
      .thrown (notFoundMessage kind p)) ∧
    (∀ what, fs p = .throws what →
      (parse fs (exe :: name :: toolset :: (flattenConfigs cfgs ++
        "-c" :: cname :: arch :: (flattenArtifacts arts ++ switchOf kind :: p :: rest)))).2 =
      .filesystemError what) := by
  generalize htok : flattenConfigs cfgs ++
    "-c" :: cname :: arch :: (flattenArtifacts arts ++ switchOf kind :: p :: rest) = tokens
  rw [parse_positional]
  generalize hargv : exe :: name :: toolset :: tokens = argv
  have hdrop : argv.drop 3 = tokens := by rw [← hargv]; rfl
  have hlen : argv.length = tokens.length + 3 := by rw [← hargv]; rfl
  obtain ⟨fuel2, hf2, hd2, heq⟩ := configLoop_prefix fs argv cfgs
    ("-c" :: cname :: arch :: (flattenArtifacts arts ++ switchOf kind :: p :: rest))
    (tokens.length + 3) 3 ⟨name, toolset, false, false, []⟩ "" (by rw [hdrop, htok])
    (Or.inr ⟨_, rfl⟩) hcfgs (by omega)
  rw [heq]
  obtain ⟨hi, -, -⟩ := drop_eq_cons hd2
  obtain ⟨fuel2, rfl⟩ : ∃ f, fuel2 = f + 1 := ⟨fuel2 - 1, by omega⟩
  rw [configLoop_header fs argv fuel2 _ _ _ cname arch _ hd2]
  have hd3 : argv.drop (3 + (flattenConfigs cfgs).length + 1 + 1 + 1) =
      flattenArtifacts arts ++ switchOf kind :: p :: rest :=
    (drop_eq_cons (drop_eq_cons (drop_eq_cons hd2).2.2).2.2).2.2
  obtain ⟨fuel3, hf3, hd4, heq3⟩ := artifactLoop_prefix fs argv arts _ argv.length _
    (projectAfterConfigs ⟨name, toolset, false, false, []⟩ cfgs) ⟨cname, arch, [], []⟩
    hd3 harts (by omega)
  rw [heq3]
  obtain ⟨hi4, -, -⟩ := drop_eq_cons hd4
  obtain ⟨fuel3, rfl⟩ : ∃ f, fuel3 = f + 1 := ⟨fuel3 - 1, by omega⟩
  constructor
  · intro hp
    rw [artifactLoop_missing fs argv fuel3 _ _ _ kind p rest hd4 hp]
  · intro what hp
    rw [artifactLoop_test_throws fs argv fuel3 _ _ _ kind p rest what hd4 hp]

theorem parse_missing_file_witness :
    AllExist statusFs [⟨"Debug", "x64", [(.dll, "Debug\\foo.dll")]⟩] ∧
    (∀ a ∈ [(ArtifactKind.lib, "Release\\foo.lib")], statusFs a.2 = .returns true) ∧
    statusFs "missing.dll" = .returns false ∧
    (parse statusFs ("vcppgen" :: "foo" :: "v141" ::
      (flattenConfigs [⟨"Debug", "x64", [(.dll, "Debug\\foo.dll")]⟩] ++
        "-c" :: "Release" :: "x64" :: (flattenArtifacts [(.lib, "Release\\foo.lib")] ++
          switchOf .dll :: "missing.dll" :: ["-x"])))).2 =
      .thrown "DLL file not found: 'missing.dll'" ∧
    ((statusFs "missing.dll" = .returns false →
      (parse statusFs ("vcppgen" :: "foo" :: "v141" ::
        (flattenConfigs [⟨"Debug", "x64", [(.dll, "Debug\\foo.dll")]⟩] ++
          "-c" :: "Release" :: "x64" :: (flattenArtifacts [(.lib, "Release\\foo.lib")] ++
            switchOf .dll :: "missing.dll" :: ["-x"])))).2 =
        .thrown (notFoundMessage .dll "missing.dll")) ∧
    (∀ what, statusFs "missing.dll" = .throws what →
      (parse statusFs ("vcppgen" :: "foo" :: "v141" ::
        (flattenConfigs [⟨"Debug", "x64", [(.dll, "Debug\\foo.dll")]⟩] ++
          "-c" :: "Release" :: "x64" :: (flattenArtifacts [(.lib, "Release\\foo.lib")] ++
            switchOf .dll :: "missing.dll" :: ["-x"])))).2 =
        .filesystemError what)) :=
  ⟨by unfold AllExist; decide, by decide, by decide, by decide,
    parse_missing_file statusFs "vcppgen" "foo" "v141"
      [⟨"Debug", "x64", [(.dll, "Debug\\foo.dll")]⟩] "Release" "x64"
      [(.lib, "Release\\foo.lib")] .dll "missing.dll" ["-x"] (by unfold AllExist; decide)
      (by decide)⟩

set_option maxRecDepth 100000 in
/-- C2, counterexample: the command line is grammatical up to and including
the pair `-dll p`, where `p` is a name of 300 characters and the first
artifact path of the command line; `p` is not an existing regular file (the
file test does not return `true` for it), yet parsing does not fail with
`DLL file not found: 'p'`: the file test throws, and what reaches the handler
is its filesystem error. -/
theorem parse_longName_not_notFound :
    statusFs longName ≠ .returns true ∧
    (parse statusFs longNameArgv).2 =
      .filesystemError "filesystem error: status: File name too long" ∧
    (parse statusFs longNameArgv).2 ≠ .thrown (notFoundMessage .dll longName) := by
  decide


/-! ## What the parser accepts -/

theorem drop_eq_getD_cons {argv : List String} {i : Nat} (hi : i < argv.length) :
    argv.drop i = argv.getD i "" :: argv.drop (i + 1) := by
  rw [List.drop_eq_getElem_cons hi, List.getD_eq_getElem _ _ hi]

theorem requireFn_ok {argv : List String} {i : Nat} (hi : i < argv.length) (str : String) :
    requireFn argv i str = .ok (argv.getD i "", i + 1) := by
  simp only [requireFn, ge_iff_le, Nat.not_le.mpr hi, if_false]

theorem requireFn_error {argv : List String} {i : Nat} (hi : ¬ i < argv.length) (str : String) :
    requireFn argv i str = .error str := by
  simp only [requireFn, ge_iff_le, Nat.not_lt.mp hi, if_true]

theorem projectAfter_cons_dll (project : Project) (path : String)
    (arts : List (ArtifactKind × String)) :
    projectAfter { project with hasBinaries := true } arts =
      projectAfter project ((.dll, path) :: arts) := by
  simp [projectAfter, pathsOf]

theorem projectAfter_cons_lib (project : Project) (path : String)
    (arts : List (ArtifactKind × String)) :
    projectAfter { project with hasLibraries := true } arts =
      projectAfter project ((.lib, path) :: arts) := by
  simp [projectAfter, pathsOf]

theorem configurationAfter_cons_dll (configuration : Configuration) (path : String)
    (arts : List (ArtifactKind × String)) :
    configurationAfter { configuration with binaries := configuration.binaries ++ [path] } arts =
      configurationAfter configuration ((.dll, path) :: arts) := by
  simp [configurationAfter, pathsOf]

theorem configurationAfter_cons_lib (configuration : Configuration) (path : String)
    (arts : List (ArtifactKind × String)) :
    configurationAfter { configuration with libraries := configuration.libraries ++ [path] } arts =
      configurationAfter configuration ((.lib, path) :: arts) := by
  simp [configurationAfter, pathsOf]

/-- Whenever the artifact loop returns, it has consumed a run of artifact
pairs whose files exist and stands at the end of the input or at a `-c`. -/
theorem artifactLoop_ok_inv (fs : String → FileTest) (argv : List String) :
    ∀ (fuel i : Nat) (project : Project) (configuration : Configuration)
      (i2 : Nat) (project2 : Project) (configuration2 : Configuration),
      artifactLoop fs argv fuel i project configuration = .ok (i2, project2, configuration2) →
      ∃ arts : List (ArtifactKind × String),
        argv.drop i = flattenArtifacts arts ++ argv.drop i2 ∧
        (∀ a ∈ arts, fs a.2 = .returns true) ∧
        (argv.drop i2 = [] ∨ ∃ r, argv.drop i2 = "-c" :: r) ∧
        i2 = i + 2 * arts.length ∧
        project2 = projectAfter project arts ∧
        configuration2 = configurationAfter configuration arts := by
  have stop_end : ∀ (i : Nat) (project : Project) (configuration : Configuration),
      ¬ i < argv.length →
      ∃ arts : List (ArtifactKind × String),
        argv.drop i = flattenArtifacts arts ++ argv.drop i ∧
        (∀ a ∈ arts, fs a.2 = .returns true) ∧
        (argv.drop i = [] ∨ ∃ r, argv.drop i = "-c" :: r) ∧
        i = i + 2 * arts.length ∧
        project = projectAfter project arts ∧
        configuration = configurationAfter configuration arts := by
    intro i project configuration hi
    refine ⟨[], by simp [flattenArtifacts], by simp,
      Or.inl (List.drop_eq_nil_of_le (by omega)), by simp, ?_, ?_⟩
    · simp [projectAfter, pathsOf]
    · simp [configurationAfter, pathsOf]
  intro fuel
  induction fuel with
  | zero =>
    intro i project configuration i2 project2 configuration2 h
    simp only [artifactLoop] at h
    split at h
    · exact absurd h (by simp)
    · rename_i hi
      injection h with h
      injection h with h1 h
      injection h with h2 h3
      subst h1 h2 h3
      exact stop_end i project configuration hi
  | succ fuel ih =>
    intro i project configuration i2 project2 configuration2 h
    simp only [artifactLoop] at h
    split at h
    · rename_i hi
      split at h
      · rename_i hsw
        injection h with h
        injection h with h1 h
        injection h with h2 h3
        subst h1 h2 h3
        refine ⟨[], by simp [flattenArtifacts], by simp,
          Or.inr ⟨argv.drop (i + 1), ?_⟩, by simp, ?_, ?_⟩
        · rw [drop_eq_getD_cons hi, hsw]
        · simp [projectAfter, pathsOf]
        · simp [configurationAfter, pathsOf]
      · split at h
        · rename_i hsw
          by_cases hi1 : i + 1 < argv.length
          · rw [requireFn_ok hi1] at h
            simp only at h
            split at h
            · exact absurd h (by simp)
            · rename_i isRegular htest
              cases isRegular with
              | false => exact absurd h (by simp)
              | true =>
                simp only [Bool.not_true, Bool.false_eq_true, if_false] at h
                obtain ⟨arts, hd, hfs, hstop, hidx, hp, hc⟩ := ih _ _ _ _ _ _ h
                refine ⟨(.dll, argv.getD (i + 1) "") :: arts, ?_, ?_, hstop,
                  by simp only [List.length_cons]; omega, ?_, ?_⟩
                · rw [drop_eq_getD_cons hi, drop_eq_getD_cons hi1, hsw, hd]
                  simp [flattenArtifacts, switchOf]
                · intro a ha
                  rcases List.mem_cons.mp ha with rfl | ha
                  · exact htest
                  · exact hfs a ha
                · rw [hp, projectAfter_cons_dll]
                · rw [hc, configurationAfter_cons_dll]
          · rw [requireFn_error hi1] at h
            exact absurd h (by simp)
        · split at h
          · rename_i hsw
            by_cases hi1 : i + 1 < argv.length
            · rw [requireFn_ok hi1] at h
              simp only at h
              split at h
              · exact absurd h (by simp)
              · rename_i isRegular htest
                cases isRegular with
                | false => exact absurd h (by simp)
                | true =>
                  simp only [Bool.not_true, Bool.false_eq_true, if_false] at h
                  obtain ⟨arts, hd, hfs, hstop, hidx, hp, hc⟩ := ih _ _ _ _ _ _ h
                  refine ⟨(.lib, argv.getD (i + 1) "") :: arts, ?_, ?_, hstop,
                    by simp only [List.length_cons]; omega, ?_, ?_⟩
                  · rw [drop_eq_getD_cons hi, drop_eq_getD_cons hi1, hsw, hd]
                    simp [flattenArtifacts, switchOf]
                  · intro a ha
                    rcases List.mem_cons.mp ha with rfl | ha
                    · exact htest
                    · exact hfs a ha
                  · rw [hp, projectAfter_cons_lib]
                  · rw [hc, configurationAfter_cons_lib]
            · rw [requireFn_error hi1] at h
              exact absurd h (by simp)
          · exact absurd h (by simp)
    · rename_i hi
      injection h with h
      injection h with h1 h
      injection h with h2 h3
      subst h1 h2 h3
      exact stop_end i project configuration hi

theorem requireSwitchFn_ok {argv : List String} {i : Nat} (hi : i < argv.length)
    {val : String} (hsw : argv.getD i "" = val) (str : String) :
    requireSwitchFn argv i str val = .ok (i + 1) := by
  simp only [requireSwitchFn, ge_iff_le, Nat.not_le.mpr hi, if_false, hsw, ne_eq,
    not_true_eq_false]

theorem requireSwitchFn_error {argv : List String} {i : Nat} {val : String}
    (hsw : ¬ (i < argv.length ∧ argv.getD i "" = val)) (str : String) :
    requireSwitchFn argv i str val = .error str := by
  simp only [requireSwitchFn, ge_iff_le, ne_eq]
  by_cases hi : i < argv.length
  · have : ¬ argv.getD i "" = val := fun h => hsw ⟨hi, h⟩
    simp only [Nat.not_le.mpr hi, if_false, this, not_false_eq_true, if_true]
  · simp only [Nat.not_lt.mp hi, if_true]

theorem projectAfterConfigs_cons (project : Project) (c : ConfigSpec) (cfgs : List ConfigSpec) :
    projectAfterConfigs
      { projectAfter project c.artifacts with
        configurations := (projectAfter project c.artifacts).configurations ++
          [configurationAfter ⟨c.name, c.architecture, [], []⟩ c.artifacts] } cfgs =
      projectAfterConfigs project (c :: cfgs) := by
  simp [projectAfterConfigs, projectAfter, configurationAfter, ConfigSpec.toConfiguration,
    Bool.or_assoc]

theorem coutAfterConfigs_cons (cout : String) (c : ConfigSpec) (cfgs : List ConfigSpec) :
    coutAfterConfigs
      (writeWarnings cout (configurationAfter ⟨c.name, c.architecture, [], []⟩ c.artifacts)) cfgs =
      coutAfterConfigs cout (c :: cfgs) := by
  simp [coutAfterConfigs, configurationAfter, ConfigSpec.toConfiguration]

/-- Whenever the configuration loop returns a project, the tokens from its
start to the end of the input are a list of configurations whose files exist. -/
theorem configLoop_ok_inv (fs : String → FileTest) (argv : List String) :
    ∀ (fuel i : Nat) (project : Project) (cout cout2 : String) (project2 : Project),
      configLoop fs argv fuel i project cout = (cout2, .ok project2) →
      ∃ cfgs : List ConfigSpec,
        argv.drop i = flattenConfigs cfgs ∧ AllExist fs cfgs ∧
        project2 = projectAfterConfigs project cfgs ∧
        cout2 = coutAfterConfigs cout cfgs := by
  have stop_end : ∀ (i : Nat) (project : Project) (cout cout2 : String) (project2 : Project),
      ¬ i < argv.length → (cout, Outcome.ok project) = (cout2, Outcome.ok project2) →
      ∃ cfgs : List ConfigSpec,
        argv.drop i = flattenConfigs cfgs ∧ AllExist fs cfgs ∧
        project2 = projectAfterConfigs project cfgs ∧
        cout2 = coutAfterConfigs cout cfgs := by
    intro i project cout cout2 project2 hi h
    injection h with h1 h2
    injection h2 with h2
    subst h1 h2
    refine ⟨[], by simpa [flattenConfigs] using List.drop_eq_nil_of_le (by omega),
      fun _ hc => absurd hc (List.not_mem_nil _), ?_, ?_⟩
    · simp [projectAfterConfigs]
    · simp [coutAfterConfigs]
  intro fuel
  induction fuel with
  | zero =>
    intro i project cout cout2 project2 h
    simp only [configLoop] at h
    split at h
    · injection h with _ h2
      exact absurd h2 (by simp)
    · rename_i hi
      exact stop_end i project cout cout2 project2 hi h
  | succ fuel ih =>
    intro i project cout cout2 project2 h
    simp only [configLoop] at h
    split at h
    · rename_i hi
      by_cases hsw : argv.getD i "" = "-c"
      · rw [requireSwitchFn_ok hi hsw] at h
        simp only at h
        by_cases hi1 : i + 1 < argv.length
        · rw [requireFn_ok hi1] at h
          simp only at h
          by_cases hi2 : i + 1 + 1 < argv.length
          · rw [requireFn_ok hi2] at h
            simp only at h
            cases hloop : artifactLoop fs argv argv.length (i + 1 + 1 + 1) project
                ⟨argv.getD (i + 1) "", argv.getD (i + 1 + 1) "", [], []⟩ with
            | thrown what =>
              rw [hloop] at h
              injection h with _ h2
              exact absurd h2 (by simp)
            | filesystemError what =>
              rw [hloop] at h
              injection h with _ h2
              exact absurd h2 (by simp)
            | noFuel =>
              rw [hloop] at h
              injection h with _ h2
              exact absurd h2 (by simp)
            | ok val =>
              obtain ⟨i4, project4, configuration4⟩ := val
              rw [hloop] at h
              simp only at h
              obtain ⟨arts, hd, hfs, -, -, hp, hc⟩ := artifactLoop_ok_inv fs argv _ _ _ _ _ _ _ hloop
              obtain ⟨cfgs, hd2, hfs2, hp2, hc2⟩ := ih _ _ _ _ _ h
              refine ⟨⟨argv.getD (i + 1) "", argv.getD (i + 1 + 1) "", arts⟩ :: cfgs,
                ?_, ?_, ?_, ?_⟩
              · rw [drop_eq_getD_cons hi, drop_eq_getD_cons hi1, drop_eq_getD_cons hi2, hsw, hd,
                  hd2]
                simp [flattenConfigs]
              · intro c hcm
                rcases List.mem_cons.mp hcm with rfl | hcm
                · exact hfs
                · exact hfs2 c hcm
              · rw [hp2, hp, hc]
                exact projectAfterConfigs_cons project
                  ⟨argv.getD (i + 1) "", argv.getD (i + 1 + 1) "", arts⟩ cfgs
              · rw [hc2, hc]
                exact coutAfterConfigs_cons cout
                  ⟨argv.getD (i + 1) "", argv.getD (i + 1 + 1) "", arts⟩ cfgs
          · rw [requireFn_error hi2] at h
            injection h with _ h2
            exact absurd h2 (by simp)
        · rw [requireFn_error hi1] at h
          injection h with _ h2
          exact absurd h2 (by simp)
      · rw [requireSwitchFn_error (fun hc => hsw hc.2)] at h
        injection h with _ h2
        exact absurd h2 (by simp)
    · rename_i hi
      exact stop_end i project cout cout2 project2 hi h

/-- A successful parse determines the command line: it is a program name, a
name, a toolset and a list of configurations whose files all exist, and the
result is the project and the warnings of that list. -/
theorem parse_ok_inv (fs : String → FileTest) (argv : List String) (cout : String)
    (project : Project) (h : parse fs argv = (cout, .ok project)) :
    ∃ (exe name toolset : String) (cfgs : List ConfigSpec),
      argv = exe :: name :: toolset :: flattenConfigs cfgs ∧ AllExist fs cfgs ∧
      project = projectOf name toolset cfgs ∧ cout = coutAfterConfigs "" cfgs := by
  simp only [parse] at h
  by_cases hi1 : 1 < argv.length
  · rw [requireFn_ok hi1] at h
    simp only at h
    by_cases hi2 : 1 + 1 < argv.length
    · rw [requireFn_ok hi2] at h
      simp only at h
      obtain ⟨cfgs, hd, hfs, hp, hc⟩ := configLoop_ok_inv fs argv _ _ _ _ _ _ h
      match argv, hi2, hd, hp with
      | exe :: name :: toolset :: tokens, _, hd, hp =>
        refine ⟨exe, name, toolset, cfgs, ?_, hfs, ?_, hc⟩
        · simp only [List.drop_succ_cons, List.drop_zero] at hd
          rw [hd]
        · rw [hp]
          simp [projectAfterConfigs, projectOf]
    · rw [requireFn_error hi2] at h
      injection h with _ h2
      exact absurd h2 (by simp)
  · rw [requireFn_error hi1] at h
    injection h with _ h2
    exact absurd h2 (by simp)

/-! ## The loop counters never run out -/

theorem artifactLoop_ne_noFuel (fs : String → FileTest) (argv : List String) :
    ∀ (fuel i : Nat) (project : Project) (configuration : Configuration),
      argv.length ≤ i + fuel →
      artifactLoop fs argv fuel i project configuration ≠ .noFuel := by
  intro fuel
  induction fuel with
  | zero =>
    intro i project configuration hf
    have hi : ¬ i < argv.length := by omega
    simp only [artifactLoop, hi, if_false]
    exact fun h => by cases h
  | succ fuel ih =>
    intro i project configuration hf
    simp only [artifactLoop]
    split
    · rename_i hi
      split
      · exact fun h => by cases h
      · split
        · by_cases hi1 : i + 1 < argv.length
          · rw [requireFn_ok hi1]
            simp only
            split
            · exact fun h => by cases h
            · split
              · exact fun h => by cases h
              · exact ih _ _ _ (by omega)
          · rw [requireFn_error hi1]
            exact fun h => by cases h
        · split
          · by_cases hi1 : i + 1 < argv.length
            · rw [requireFn_ok hi1]
              simp only
              split
              · exact fun h => by cases h
              · split
                · exact fun h => by cases h
                · exact ih _ _ _ (by omega)
            · rw [requireFn_error hi1]
              exact fun h => by cases h
          · exact fun h => by cases h
    · exact fun h => by cases h

theorem configLoop_ne_noFuel (fs : String → FileTest) (argv : List String) :
    ∀ (fuel i : Nat) (project : Project) (cout : String),
      argv.length ≤ i + fuel →
      (configLoop fs argv fuel i project cout).2 ≠ .noFuel := by
  intro fuel
  induction fuel with
  | zero =>
    intro i project cout hf
    have hi : ¬ i < argv.length := by omega
    simp only [configLoop, hi, if_false]
    exact fun h => by cases h
  | succ fuel ih =>
    intro i project cout hf
    simp only [configLoop]
    split
    · rename_i hi
      by_cases hsw : argv.getD i "" = "-c"
      · rw [requireSwitchFn_ok hi hsw]
        simp only
        by_cases hi1 : i + 1 < argv.length
        · rw [requireFn_ok hi1]
          simp only
          by_cases hi2 : i + 1 + 1 < argv.length
          · rw [requireFn_ok hi2]
            simp only
            cases hloop : artifactLoop fs argv argv.length (i + 1 + 1 + 1) project
                ⟨argv.getD (i + 1) "", argv.getD (i + 1 + 1) "", [], []⟩ with
            | thrown what => exact fun h => by cases h
            | filesystemError what => exact fun h => by cases h
            | noFuel =>
              exact absurd hloop (artifactLoop_ne_noFuel fs argv _ _ _ _ (by omega))
            | ok val =>
              obtain ⟨i4, project4, configuration4⟩ := val
              obtain ⟨arts, -, -, -, hidx, -, -⟩ :=
                artifactLoop_ok_inv fs argv _ _ _ _ _ _ _ hloop
              exact ih _ _ _ (by omega)
          · rw [requireFn_error hi2]
            exact fun h => by cases h
        · rw [requireFn_error hi1]
          exact fun h => by cases h
      · rw [requireSwitchFn_error (fun hc => hsw hc.2)]
        exact fun h => by cases h
    · exact fun h => by cases h

/-- Parsing always ends: with a project, a thrown message or a filesystem error. -/
theorem parse_ne_noFuel (fs : String → FileTest) (argv : List String) :
    (parse fs argv).2 ≠ .noFuel := by
  simp only [parse]
  by_cases hi1 : 1 < argv.length
  · rw [requireFn_ok hi1]
    simp only
    by_cases hi2 : 1 + 1 < argv.length
    · rw [requireFn_ok hi2]
      exact configLoop_ne_noFuel fs argv _ _ _ _ (by omega)
    · rw [requireFn_error hi2]
      exact fun h => by cases h
  · rw [requireFn_error hi1]
    exact fun h => by cases h

/-- The run of `main` in terms of the outcome of parsing. -/
theorem main_eq (fs : String → FileTest) (argv : List String) :
    (∃ cout project, parse fs argv = (cout, .ok project) ∧
      main fs argv = some ⟨0, cout, some (project.name ++ ".vcxproj", emit project)⟩) ∨
    (∃ cout what,
      (parse fs argv = (cout, .thrown what) ∨ parse fs argv = (cout, .filesystemError what)) ∧
      main fs argv = some ⟨0, writeError cout what, none⟩) := by
  have hne := parse_ne_noFuel fs argv
  unfold main
  rcases hp : parse fs argv with ⟨cout, outcome⟩
  rw [hp] at hne
  cases outcome with
  | ok project => exact Or.inl ⟨cout, project, rfl, rfl⟩
  | thrown what => exact Or.inr ⟨cout, what, Or.inl rfl, rfl⟩
  | filesystemError what => exact Or.inr ⟨cout, what, Or.inr rfl, rfl⟩
  | noFuel => exact absurd rfl hne

set_option maxRecDepth 100000 in
/-- The text of the handler, in one piece. -/
theorem writeError_eq (cout what : String) :
    writeError cout what =
      cout ++ "Error: " ++ what ++ "\n\nUsage: vcppgen <name> <toolset> -c <configuration> <platform> -dll <dll path>... - lib <lib - path>... - c ...\nExample: vcppgen test vc141 -c Debug x64 -dll Debug\\test.dll -lib Debug\\test.lib -c Release x64 -dll Release\\test.dll -lib Release\\test.lib\n" := by
  simp only [writeError, String.append_assoc]
  rfl

/-- C3, as the code has it: for every token sequence and filesystem state the
run ends and the process exit code is zero, both when the run succeeds and
when a failure (a grammar error, a missing artifact file or a filesystem error
of the file test) reaches the top-level handler; on a failure the run writes no
file and its standard output is what parsing had written before, followed by
the line `Error: <message>`, an empty line and the two lines of the usage
synopsis. -/
theorem main_exitCode_zero (fs : String → FileTest) (argv : List String) :
    ∃ run, main fs argv = some run ∧ run.exitCode = 0 ∧
      ∀ what, (parse fs argv).2 = .thrown what ∨ (parse fs argv).2 = .filesystemError what →
        run.cout = (parse fs argv).1 ++ "Error: " ++ what ++ "\n\nUsage: vcppgen <name> <toolset> -c <configuration> <platform> -dll <dll path>... - lib <lib - path>... - c ...\nExample: vcppgen test vc141 -c Debug x64 -dll Debug\\test.dll -lib Debug\\test.lib -c Release x64 -dll Release\\test.dll -lib Release\\test.lib\n" ∧
        run.file = none := by
  rcases main_eq fs argv with ⟨cout, project, hp, hm⟩ | ⟨cout, what, hp, hm⟩
  · refine ⟨_, hm, rfl, ?_⟩
    intro what hw
    rw [hp] at hw
    rcases hw with hw | hw <;> cases hw
  · refine ⟨_, hm, rfl, ?_⟩
    intro what2 hw
    rcases hp with hp | hp <;> rw [hp] at hw ⊢ <;> rcases hw with hw | hw <;> cases hw <;>
      exact ⟨writeError_eq cout what, rfl⟩

set_option maxRecDepth 100000 in
/-- C3, counterexample: the missing-file run reaches the handler with
`DLL file not found: 'missing.dll'`, prints the error and the usage synopsis,
and the exit code is zero. -/
theorem main_failure_exitCode_zero :
    (parse (fun _ => .returns false) missingDllArgv).2 = .thrown "DLL file not found: 'missing.dll'" ∧
      main (fun _ => .returns false) missingDllArgv =
        some ⟨0, "Error: DLL file not found: 'missing.dll'\n\nUsage: vcppgen <name> <toolset> -c <configuration> <platform> -dll <dll path>... - lib <lib - path>... - c ...\nExample: vcppgen test vc141 -c Debug x64 -dll Debug\\test.dll -lib Debug\\test.lib -c Release x64 -dll Release\\test.dll -lib Release\\test.lib\n", none⟩ ∧
      Option.map Run.exitCode (main (fun _ => .returns false) missingDllArgv) = some 0 ∧
      ¬ (∀ run, main (fun _ => .returns false) missingDllArgv = some run → run.exitCode ≠ 0) := by
  have hexit : Option.map Run.exitCode (main (fun _ => .returns false) missingDllArgv) = some 0 := by
    decide
  refine ⟨by decide, by decide, hexit, ?_⟩
  intro h
  cases hm : main (fun _ => .returns false) missingDllArgv with
  | none =>
    rw [hm] at hexit
    cases hexit
  | some run =>
    rw [hm] at hexit
    exact h run hm (Option.some.inj hexit)

/-- C4: whenever argument parsing fails (a grammar error, a missing artifact
file or a filesystem error of the file test), the run ends without writing any
output file. -/
theorem main_failure_no_file (fs : String → FileTest) (argv : List String) (what : String)
    (h : (parse fs argv).2 = .thrown what ∨ (parse fs argv).2 = .filesystemError what) :
    ∃ run, main fs argv = some run ∧ run.file = none := by
  rcases main_eq fs argv with ⟨cout, project, hp, hm⟩ | ⟨cout, what2, hp, hm⟩
  · rw [hp] at h
    rcases h with h | h <;> cases h
  · exact ⟨_, hm, rfl⟩

theorem main_failure_no_file_witness :
    ((parse (fun _ => .returns false) ["vcppgen", "foo"]).2 =
        .thrown "Expected toolset (e.g. vs141, vs140)" ∨
      (parse (fun _ => .returns false) ["vcppgen", "foo"]).2 =
        .filesystemError "Expected toolset (e.g. vs141, vs140)") ∧
      ∃ run, main (fun _ => .returns false) ["vcppgen", "foo"] = some run ∧ run.file = none :=
  ⟨Or.inl (by decide), main_failure_no_file (fun _ => .returns false) ["vcppgen", "foo"]
    "Expected toolset (e.g. vs141, vs140)" (Or.inl (by decide))⟩

/-! ## Writers append to the stream -/

theorem join_cons (x : String) (xs : List String) :
    String.join (x :: xs) = x ++ String.join xs := by
  apply String.ext
  simp

theorem join_nil : String.join [] = "" := rfl

/-- A range-for loop whose body appends `f c` to the stream writes the
concatenation of the `f c`. -/
theorem foldl_stream {α : Type} (g : String → α → String) (f : α → String)
    (hg : ∀ os c, g os c = os ++ f c) :
    ∀ (l : List α) (os : String), l.foldl g os = os ++ String.join (l.map f) := by
  intro l
  induction l with
  | nil => intro os; simp [join_nil]
  | cons c l ih =>
    intro os
    rw [List.foldl_cons, ih, hg, List.map_cons, join_cons, String.append_assoc]

theorem writeCondition_eq (os : String) (c : Configuration) :
    writeCondition os c = os ++ writeCondition "" c := by
  simp only [writeCondition, String.append_assoc, String.empty_append]

theorem intercalate_go_append (sep : String) :
    ∀ (l : List String) (os acc : String),
      String.intercalate.go (os ++ acc) sep l = os ++ String.intercalate.go acc sep l := by
  intro l
  induction l with
  | nil => intro os acc; rfl
  | cons a l ih =>
    intro os acc
    simp only [String.intercalate.go]
    rw [← ih, String.append_assoc, String.append_assoc, String.append_assoc]

theorem writeLibrariesLoop_succ :
    ∀ (libraries : List String) (k : Nat) (os : String),
      writeLibrariesLoop (k + 1) libraries os =
        String.intercalate.go os ";" (libraries.map (fun l => "$(ProjectDir)" ++ l)) := by
  intro libraries
  induction libraries with
  | nil => intro k os; rfl
  | cons l rest ih =>
    intro k os
    simp only [writeLibrariesLoop, ne_eq, Nat.add_one_ne_zero, not_false_eq_true, if_true,
      List.map_cons, String.intercalate.go]
    rw [ih, String.append_assoc (os ++ ";")]

/-- The iterator loop of `writeLibraries` writes the entries joined by `;`. -/
theorem writeLibrariesLoop_zero (libraries : List String) (os : String) :
    writeLibrariesLoop 0 libraries os =
      os ++ String.intercalate ";" (libraries.map (fun l => "$(ProjectDir)" ++ l)) := by
  cases libraries with
  | nil => simp [writeLibrariesLoop, String.intercalate]
  | cons l rest =>
    simp only [writeLibrariesLoop, ne_eq, not_true_eq_false, if_false, List.map_cons,
      String.intercalate]
    rw [writeLibrariesLoop_succ, String.append_assoc, intercalate_go_append]

/-- The text of one `Libs` element. -/
theorem writeLibraries_eq (os : String) (c : Configuration) :
    writeLibraries os c =
      os ++ ("<Libs " ++ writeCondition "" c ++ " Include=\""
        ++ String.intercalate ";" (c.libraries.map (fun l => "$(ProjectDir)" ++ l))
        ++ "\">\r\n<ProjectType>"
        ++ (if c.binaries.isEmpty then "StaticLibrary" else "DynamicLibrary")
        ++ "</ProjectType>\r\n<FileType>lib</FileType>\r\n<ResolveableAssembly>false</ResolveableAssembly>\r\n</Libs>\r\n") := by
  simp only [writeLibraries, writeLibrariesLoop_zero]
  rw [writeCondition_eq]
  split <;> simp only [String.append_assoc]

theorem writeLibraries_stream (os : String) (c : Configuration) :
    writeLibraries os c = os ++ writeLibraries "" c := by
  rw [writeLibraries_eq os, writeLibraries_eq "", String.empty_append]

theorem writeLibraryTarget_eq (os : String) (project : Project) :
    writeLibraryTarget os project =
      if project.hasLibraries then os ++ libraryTarget project.configurations else os := by
  unfold writeLibraryTarget
  split
  · simp only [foldl_stream _ _ writeLibraries_stream, libraryTarget, String.append_assoc]
    rfl
  · rfl

theorem writeCopyTarget_eq (os : String) (project : Project) :
    writeCopyTarget os project =
      if project.hasBinaries then os ++ copyTarget project.configurations else os := by
  unfold writeCopyTarget
  split
  · have inner : ∀ (os : String) (c : Configuration),
        c.binaries.foldl (fun os binary =>
          writeCondition (os ++ "<NativeTargetPath ") c
            ++ " Include=\"$(ProjectDir)" ++ binary ++ "\" />\r\n") os =
        os ++ String.join (c.binaries.map (fun binary =>
          "<NativeTargetPath " ++ writeCondition "" c ++ " Include=\"$(ProjectDir)" ++ binary
            ++ "\" />\r\n")) := by
      intro os c
      apply foldl_stream
      intro os binary
      simp only [writeCondition_eq (os ++ "<NativeTargetPath "), String.append_assoc]
    dsimp only
    rw [foldl_stream _ _ inner]
    simp only [copyTarget, String.append_assoc]
    rfl
  · rfl

/-- The document is the head, then what the two gated writers add, then the
closing tag. -/
theorem emit_eq (project : Project) :
    emit project =
      emitHead project
        ++ (if project.hasLibraries then libraryTarget project.configurations else "")
        ++ (if project.hasBinaries then copyTarget project.configurations else "")
        ++ "</Project>\r\n" := by
  have h : emit project =
      writeCopyTarget (writeLibraryTarget (emitHead project) project) project
        ++ "</Project>\r\n" := rfl
  rw [h, writeCopyTarget_eq, writeLibraryTarget_eq]
  cases project.hasLibraries <;> cases project.hasBinaries <;> simp

/-- The flags of a parsed project are the derived ones. -/
theorem parse_flags (fs : String → FileTest) (argv : List String) (cout : String)
    (project : Project) (h : parse fs argv = (cout, .ok project)) :
    (project.hasLibraries = true ↔ ∃ c ∈ project.configurations, c.libraries ≠ []) ∧
    (project.hasBinaries = true ↔ ∃ c ∈ project.configurations, c.binaries ≠ []) := by
  obtain ⟨exe, name, toolset, cfgs, -, -, rfl, -⟩ := parse_ok_inv fs argv cout project h
  constructor <;>
    simp [projectOf, ConfigSpec.toConfiguration, List.isEmpty_iff]

theorem libraryTarget_length_pos (configurations : List Configuration) :
    0 < (libraryTarget configurations).length := by
  simp only [libraryTarget, String.length_append]
  have : 0 < ("</ItemGroup>\r\n</Target>\r\n" : String).length := by decide
  omega

theorem copyTarget_length_pos (configurations : List Configuration) :
    0 < (copyTarget configurations).length := by
  simp only [copyTarget, String.length_append]
  have : 0 < ("\t<Target Name=\"CopyBinaryFiles\">\r\n\t\t<ItemGroup>\r\n" : String).length := by
    decide
  omega

/-- C5, as the code has it: when `hasLibraries` is set, the
`GetResolvedLinkLibs` target holds one `Libs` element for every configuration
of the project, in model order; a configuration without libraries has its
`Libs` element too, with an empty `Include`. -/
theorem writeLibraryTarget_every_configuration (os : String) (project : Project)
    (h : project.hasLibraries = true) :
    writeLibraryTarget os project =
      os ++ "<Target Name=\"GetResolvedLinkLibs\" Returns = \"@(Libs)\">\r\n<ItemGroup>\r\n"
        ++ String.join (project.configurations.map (fun c => writeLibraries "" c))
        ++ "</ItemGroup>\r\n</Target>\r\n" ∧
    ∀ c ∈ project.configurations, c.libraries = [] →
      writeLibraries "" c =
        "<Libs " ++ writeCondition "" c ++ " Include=\"\">\r\n<ProjectType>"
          ++ (if c.binaries.isEmpty then "StaticLibrary" else "DynamicLibrary")
          ++ "</ProjectType>\r\n<FileType>lib</FileType>\r\n<ResolveableAssembly>false</ResolveableAssembly>\r\n</Libs>\r\n" := by
  constructor
  · rw [writeLibraryTarget_eq, if_pos h, libraryTarget]
    simp only [String.append_assoc]
  · intro c _ hc
    rw [writeLibraries_eq, hc]
    simp only [List.map_nil, String.intercalate, String.empty_append, String.append_empty,
      String.append_assoc]
    rfl

theorem writeLibraryTarget_every_configuration_witness :
    releaseLibProject.hasLibraries = true ∧
    (writeLibraryTarget "" releaseLibProject =
      "" ++ "<Target Name=\"GetResolvedLinkLibs\" Returns = \"@(Libs)\">\r\n<ItemGroup>\r\n"
        ++ String.join (releaseLibProject.configurations.map (fun c => writeLibraries "" c))
        ++ "</ItemGroup>\r\n</Target>\r\n" ∧
    ∀ c ∈ releaseLibProject.configurations, c.libraries = [] →
      writeLibraries "" c =
        "<Libs " ++ writeCondition "" c ++ " Include=\"\">\r\n<ProjectType>"
          ++ (if c.binaries.isEmpty then "StaticLibrary" else "DynamicLibrary")
          ++ "</ProjectType>\r\n<FileType>lib</FileType>\r\n<ResolveableAssembly>false</ResolveableAssembly>\r\n</Libs>\r\n") :=
  ⟨rfl, writeLibraryTarget_every_configuration "" releaseLibProject rfl⟩

set_option maxRecDepth 100000 in
/-- C5, counterexample: the command line
`foo v141 -c Debug x64 -dll Debug\foo.dll -c Release x64 -dll Release\foo.dll -lib Release\foo.lib`
parses to a project whose `Debug|x64` configuration has no libraries, and the
target written for it is not the one with `Libs` elements for the non-empty
library lists only: it is the one with a `Libs` element for both configurations. -/
theorem writeLibraryTarget_not_filtered :
    (parse (fun _ => .returns true) releaseLibArgv).2 = .ok releaseLibProject ∧
    writeLibraryTarget "" releaseLibProject ≠
      libraryTarget (releaseLibProject.configurations.filter (fun c => !c.libraries.isEmpty)) ∧
    writeLibraryTarget "" releaseLibProject = libraryTarget releaseLibProject.configurations := by
  refine ⟨by decide, ?_, ?_⟩
  · intro h
    have hl := congrArg String.length h
    revert hl
    decide
  · rw [writeLibraryTarget_eq]
    rfl

/-- C6: for a command line that parses, `hasLibraries` is set iff at least one
configuration has a non-empty library list, the emitted document is the one
with the `GetResolvedLinkLibs` target after the second `GetTargetPath` target
iff that is the case, and otherwise nothing stands between that target and
what `writeCopyTarget` writes. -/
theorem parse_libraryTarget_iff (fs : String → FileTest) (argv : List String) (cout : String)
    (project : Project) (h : parse fs argv = (cout, .ok project)) :
    (project.hasLibraries = true ↔ ∃ c ∈ project.configurations, c.libraries ≠ []) ∧
    (emit project =
        emitHead project ++ libraryTarget project.configurations
          ++ writeCopyTarget "" project ++ "</Project>\r\n" ↔
      ∃ c ∈ project.configurations, c.libraries ≠ []) ∧
    ((¬ ∃ c ∈ project.configurations, c.libraries ≠ []) →
      emit project = emitHead project ++ writeCopyTarget "" project ++ "</Project>\r\n") := by
  obtain ⟨hflag, -⟩ := parse_flags fs argv cout project h
  have hpos := libraryTarget_length_pos project.configurations
  refine ⟨hflag, ?_, ?_⟩
  · rw [← hflag, emit_eq, writeCopyTarget_eq]
    constructor
    · intro he
      have hl := congrArg String.length he
      cases hlib : project.hasLibraries with
      | true => rfl
      | false =>
        rw [hlib] at hl
        simp only [String.length_append, Bool.false_eq_true, if_false, String.empty_append,
          String.append_empty] at hl
        omega
    · intro hlib
      rw [hlib]
      simp
  · intro hno
    have hlib : project.hasLibraries = false := by
      cases hl : project.hasLibraries with
      | true => exact absurd (hflag.mp hl) hno
      | false => rfl
    rw [emit_eq, writeCopyTarget_eq, hlib]
    simp

theorem parse_libraryTarget_iff_witness :
    parse (fun _ => .returns true) releaseLibArgv =
        ("Warning: Configuration 'Debug|x64' has no libs\n", .ok releaseLibProject) ∧
    ((releaseLibProject.hasLibraries = true ↔
        ∃ c ∈ releaseLibProject.configurations, c.libraries ≠ []) ∧
      (emit releaseLibProject =
          emitHead releaseLibProject ++ libraryTarget releaseLibProject.configurations
            ++ writeCopyTarget "" releaseLibProject ++ "</Project>\r\n" ↔
        ∃ c ∈ releaseLibProject.configurations, c.libraries ≠ []) ∧
      ((¬ ∃ c ∈ releaseLibProject.configurations, c.libraries ≠ []) →
        emit releaseLibProject =
          emitHead releaseLibProject ++ writeCopyTarget "" releaseLibProject
            ++ "</Project>\r\n")) :=
  ⟨by decide, parse_libraryTarget_iff (fun _ => .returns true) releaseLibArgv
    "Warning: Configuration 'Debug|x64' has no libs\n" releaseLibProject (by decide)⟩

/-- C7: for a command line that parses, the emitted document is the one with
the `CopyBinaryFiles` target and the `Build` target that depends on it, right
before the closing tag, iff at least one configuration has a non-empty binary
list; otherwise it has neither: the closing tag follows what
`writeLibraryTarget` writes. -/
theorem parse_copyTarget_iff (fs : String → FileTest) (argv : List String) (cout : String)
    (project : Project) (h : parse fs argv = (cout, .ok project)) :
    (emit project =
        emitHead project ++ writeLibraryTarget "" project
          ++ copyTarget project.configurations ++ "</Project>\r\n" ↔
      ∃ c ∈ project.configurations, c.binaries ≠ []) ∧
    ((¬ ∃ c ∈ project.configurations, c.binaries ≠ []) →
      emit project = emitHead project ++ writeLibraryTarget "" project ++ "</Project>\r\n") := by
  obtain ⟨-, hflag⟩ := parse_flags fs argv cout project h
  have hpos := copyTarget_length_pos project.configurations
  refine ⟨?_, ?_⟩
  · rw [← hflag, emit_eq, writeLibraryTarget_eq]
    constructor
    · intro he
      have hl := congrArg String.length he
      cases hbin : project.hasBinaries with
      | true => rfl
      | false =>
        rw [hbin] at hl
        simp only [String.length_append, Bool.false_eq_true, if_false, String.empty_append,
          String.append_empty] at hl
        omega
    · intro hbin
      rw [hbin]
      simp
  · intro hno
    have hbin : project.hasBinaries = false := by
      cases hb : project.hasBinaries with
      | true => exact absurd (hflag.mp hb) hno
      | false => rfl
    rw [emit_eq, writeLibraryTarget_eq, hbin]
    simp

theorem parse_copyTarget_iff_witness :
    parse (fun _ => .returns true) releaseLibArgv =
        ("Warning: Configuration 'Debug|x64' has no libs\n", .ok releaseLibProject) ∧
    ((emit releaseLibProject =
          emitHead releaseLibProject ++ writeLibraryTarget "" releaseLibProject
            ++ copyTarget releaseLibProject.configurations ++ "</Project>\r\n" ↔
        ∃ c ∈ releaseLibProject.configurations, c.binaries ≠ []) ∧
      ((¬ ∃ c ∈ releaseLibProject.configurations, c.binaries ≠ []) →
        emit releaseLibProject =
          emitHead releaseLibProject ++ writeLibraryTarget "" releaseLibProject
            ++ "</Project>\r\n")) :=
  ⟨by decide, parse_copyTarget_iff (fun _ => .returns true) releaseLibArgv
    "Warning: Configuration 'Debug|x64' has no libs\n" releaseLibProject (by decide)⟩

/-! ## The `Libs` element -/

/-- Two texts that end the same stream agree on their last `k` characters. -/
theorem suffix_agree (p1 p2 t1 t2 : String) (k : Nat) (h : p1 ++ t1 = p2 ++ t2)
    (h1 : k ≤ t1.length) (h2 : k ≤ t2.length) :
    t1.data.reverse.take k = t2.data.reverse.take k := by
  have hd := congrArg (fun s : String => s.data.reverse.take k) h
  simp only [String.data_append, List.reverse_append] at hd
  rw [List.take_append_of_le_length (by simpa using h1),
    List.take_append_of_le_length (by simpa using h2)] at hd
  exact hd

set_option maxRecDepth 100000 in
/-- C8: the `Libs` element written for a configuration ends with the
`ProjectType` line `DynamicLibrary` (followed by the fixed `FileType`,
`ResolveableAssembly` and closing lines) iff the binary list of the
configuration is non-empty, and with the `ProjectType` line `StaticLibrary`
iff it is empty. -/
theorem writeLibraries_projectType (os : String) (c : Configuration) :
    ((∃ pre, writeLibraries os c = pre ++
        "<ProjectType>DynamicLibrary</ProjectType>\r\n<FileType>lib</FileType>\r\n<ResolveableAssembly>false</ResolveableAssembly>\r\n</Libs>\r\n") ↔
      c.binaries ≠ []) ∧
    ((∃ pre, writeLibraries os c = pre ++
        "<ProjectType>StaticLibrary</ProjectType>\r\n<FileType>lib</FileType>\r\n<ResolveableAssembly>false</ResolveableAssembly>\r\n</Libs>\r\n") ↔
      c.binaries = []) := by
  have hstatic : c.binaries = [] → ∃ pre, writeLibraries os c = pre ++
      "<ProjectType>StaticLibrary</ProjectType>\r\n<FileType>lib</FileType>\r\n<ResolveableAssembly>false</ResolveableAssembly>\r\n</Libs>\r\n" := by
    intro hb
    refine ⟨os ++ "<Libs " ++ writeCondition "" c ++ " Include=\""
      ++ String.intercalate ";" (c.libraries.map (fun l => "$(ProjectDir)" ++ l)) ++ "\">\r\n", ?_⟩
    rw [writeLibraries_eq, hb]
    simp only [List.isEmpty_nil, if_true, String.append_assoc]
    rfl
  have hdynamic : c.binaries ≠ [] → ∃ pre, writeLibraries os c = pre ++
      "<ProjectType>DynamicLibrary</ProjectType>\r\n<FileType>lib</FileType>\r\n<ResolveableAssembly>false</ResolveableAssembly>\r\n</Libs>\r\n" := by
    intro hb
    refine ⟨os ++ "<Libs " ++ writeCondition "" c ++ " Include=\""
      ++ String.intercalate ";" (c.libraries.map (fun l => "$(ProjectDir)" ++ l)) ++ "\">\r\n", ?_⟩
    have hne : c.binaries.isEmpty = false := by
      cases hc : c.binaries with
      | nil => exact absurd hc hb
      | cons _ _ => rfl
    rw [writeLibraries_eq, hne]
    simp only [Bool.false_eq_true, if_false, String.append_assoc]
    rfl
  have hclash : ∀ p1 p2 : String,
      p1 ++ "<ProjectType>DynamicLibrary</ProjectType>\r\n<FileType>lib</FileType>\r\n<ResolveableAssembly>false</ResolveableAssembly>\r\n</Libs>\r\n" =
        p2 ++ "<ProjectType>StaticLibrary</ProjectType>\r\n<FileType>lib</FileType>\r\n<ResolveableAssembly>false</ResolveableAssembly>\r\n</Libs>\r\n" →
      False := by
    intro p1 p2 h
    have := suffix_agree p1 p2 _ _ 111 h (by decide) (by decide)
    revert this
    decide
  refine ⟨⟨?_, hdynamic⟩, ⟨?_, hstatic⟩⟩
  · rintro ⟨pre, hpre⟩ hb
    obtain ⟨pre2, hpre2⟩ := hstatic hb
    exact hclash pre pre2 (hpre.symm.trans hpre2)
  · rintro ⟨pre, hpre⟩
    by_contra hb
    obtain ⟨pre2, hpre2⟩ := hdynamic hb
    exact hclash pre2 pre (hpre2.symm.trans hpre)

theorem writeLibrariesLoop_succ_length :
    ∀ (libraries : List String) (k : Nat) (os : String),
      (writeLibrariesLoop (k + 1) libraries os).length =
        os.length + (libraries.map (fun l => 13 + l.length)).sum + libraries.length := by
  intro libraries
  induction libraries with
  | nil => intro k os; simp [writeLibrariesLoop]
  | cons l rest ih =>
    intro k os
    simp only [writeLibrariesLoop, ne_eq, Nat.add_one_ne_zero, not_false_eq_true, if_true, ih,
      String.length_append, List.map_cons, List.sum_cons, List.length_cons]
    have h1 : (";" : String).length = 1 := rfl
    have h13 : ("$(ProjectDir)" : String).length = 13 := rfl
    omega

/-- C9: the `Include` value of the `Libs` element of a configuration with
libraries `l1..ln` is `$(ProjectDir)l1;...;$(ProjectDir)ln`: the entries in
list order joined by single semicolons, nothing before the first and nothing
after the last; besides the `13 + length` characters of each entry the loop
writes exactly `n - 1` characters, the separators (none for an empty list). -/
theorem writeLibraries_include (os : String) (c : Configuration) :
    writeLibrariesLoop 0 c.libraries os =
      os ++ String.intercalate ";" (c.libraries.map (fun l => "$(ProjectDir)" ++ l)) ∧
    writeLibraries os c =
      os ++ "<Libs " ++ writeCondition "" c ++ " Include=\""
        ++ String.intercalate ";" (c.libraries.map (fun l => "$(ProjectDir)" ++ l))
        ++ "\">\r\n<ProjectType>"
        ++ (if c.binaries.isEmpty then "StaticLibrary" else "DynamicLibrary")
        ++ "</ProjectType>\r\n<FileType>lib</FileType>\r\n<ResolveableAssembly>false</ResolveableAssembly>\r\n</Libs>\r\n" ∧
    (writeLibrariesLoop 0 c.libraries os).length =
      os.length + (c.libraries.map (fun l => 13 + l.length)).sum + (c.libraries.length - 1) := by
  refine ⟨writeLibrariesLoop_zero c.libraries os, ?_, ?_⟩
  · rw [writeLibraries_eq]
    simp only [String.append_assoc]
  · cases hl : c.libraries with
    | nil => simp [writeLibrariesLoop]
    | cons l rest =>
      simp only [writeLibrariesLoop, ne_eq, not_true_eq_false, if_false,
        writeLibrariesLoop_succ_length, String.length_append, List.map_cons, List.sum_cons,
        List.length_cons]
      have h13 : ("$(ProjectDir)" : String).length = 13 := rfl
      omega

/-! ## The head of the document -/

theorem writeTargets_stream (os : String) (c : Configuration) :
    writeTargets os c = os ++ writeTargets "" c := by
  have row : ∀ (os path : String),
      os ++ "\t\t\t<NativeTargetPath Condition=\"'$(Configuration)|$(Platform)'=='"
        ++ c.name ++ "|" ++ c.architecture
        ++ "' and '$(DesignTimeBuild)'=='true'\" Include=\"$(ProjectDir)" ++ path ++ "\" />\r\n" =
      os ++ ("\t\t\t<NativeTargetPath Condition=\"'$(Configuration)|$(Platform)'=='"
        ++ c.name ++ "|" ++ c.architecture
        ++ "' and '$(DesignTimeBuild)'=='true'\" Include=\"$(ProjectDir)" ++ path
        ++ "\" />\r\n") := by
    intro os path
    simp only [String.append_assoc]
  simp only [writeTargets]
  rw [foldl_stream _ _ row, foldl_stream _ _ row, foldl_stream _ _ row, foldl_stream _ _ row]
  simp only [String.append_assoc, String.empty_append]

theorem writeConfigurations_eq (os : String) (project : Project) :
    writeConfigurations os project =
      os ++ ("<ItemGroup Label=\"ProjectConfigurations\">\r\n"
        ++ String.join (project.configurations.map (fun c =>
            projectConfigurationElement c.name c.architecture))
        ++ "</ItemGroup>\r\n"
        ++ ("<PropertyGroup Label=\"Configuration\">\r\n<PlatformToolset>"
          ++ project.toolset ++ "</PlatformToolset>\r\n</PropertyGroup>\r\n")) := by
  have row : ∀ (os : String) (c : Configuration),
      os ++ "<ProjectConfiguration Include=\""
        ++ c.name ++ "|" ++ c.architecture ++ "\">\r\n<Configuration>"
        ++ c.name ++ "</Configuration>\r\n<Platform>"
        ++ c.architecture ++ "</Platform>\r\n</ProjectConfiguration>\r\n" =
      os ++ projectConfigurationElement c.name c.architecture := by
    intro os c
    simp only [projectConfigurationElement, String.append_assoc]
  simp only [writeConfigurations]
  rw [foldl_stream _ _ row]
  simp only [String.append_assoc]
  rfl

/-- The head of the document starts with the XML declaration, the root tag and
what `writeConfigurations` writes. -/
theorem emitHead_eq (project : Project) :
    emitHead project =
      "<?xml version=\"1.0\" encoding=\"utf-8\"?>\r\n<Project DefaultTargets=\"Build\" ToolsVersion=\"15.0\" xmlns=\"http://schemas.microsoft.com/developer/msbuild/2003\">\r\n"
        ++ writeConfigurations "" project
        ++ writeGlobals "" project
        ++ "<Import Project=\"$(VCTargetsPath)\\Microsoft.Cpp.Default.props\"/>\r\n<Import Project=\"$(VCTargetsPath)\\Microsoft.Cpp.props\"/>\r\n<Import Project=\"$(VCTargetsPath)\\Microsoft.Cpp.targets\"/>\r\n"
        ++ "\t<Target Name=\"GetTargetPath\" DependsOnTargets=\"GetNativeTargetPath\" Returns=\"@(NativeTargetPath)\">\r\n\t</Target>\r\n"
        ++ "\t<Target Name=\"GetTargetPath\" Returns=\"@(NativeTargetPath)\">\r\n\t\t<ItemGroup>\r\n"
        ++ String.join (project.configurations.map (fun c => writeTargets "" c))
        ++ "\t\t</ItemGroup>\r\n\t</Target>\r\n" := by
  simp only [emitHead]
  rw [foldl_stream _ _ writeTargets_stream, writeConfigurations_eq ("" ++ _),
    writeConfigurations_eq ""]
  simp only [writeGlobals, String.append_assoc, String.empty_append]

/-- C10: for a command line that parses, the tokens are a program name, a
name, a toolset and a list of `-c cfg arch` blocks, and the document starts
with the XML declaration, the root tag and the `ProjectConfigurations` item
group holding, for these blocks in their order and with their multiplicity,
one `ProjectConfiguration` element with `Include` value `cfg|arch`,
`Configuration` `cfg` and `Platform` `arch`. -/
theorem parse_projectConfigurations (fs : String → FileTest) (argv : List String) (cout : String)
    (project : Project) (h : parse fs argv = (cout, .ok project)) :
    ∃ (exe name toolset : String) (cfgs : List ConfigSpec),
      argv = exe :: name :: toolset :: flattenConfigs cfgs ∧
      ∃ rest, emit project =
        "<?xml version=\"1.0\" encoding=\"utf-8\"?>\r\n<Project DefaultTargets=\"Build\" ToolsVersion=\"15.0\" xmlns=\"http://schemas.microsoft.com/developer/msbuild/2003\">\r\n"
          ++ "<ItemGroup Label=\"ProjectConfigurations\">\r\n"
          ++ String.join (cfgs.map (fun c =>
              "<ProjectConfiguration Include=\"" ++ c.name ++ "|" ++ c.architecture
                ++ "\">\r\n<Configuration>" ++ c.name
                ++ "</Configuration>\r\n<Platform>" ++ c.architecture
                ++ "</Platform>\r\n</ProjectConfiguration>\r\n"))
          ++ "</ItemGroup>\r\n" ++ rest := by
  obtain ⟨exe, name, toolset, cfgs, hargv, -, rfl, -⟩ := parse_ok_inv fs argv cout project h
  refine ⟨exe, name, toolset, cfgs, hargv, ?_⟩
  rw [emit_eq, emitHead_eq, writeConfigurations_eq]
  simp only [projectOf, projectConfigurationElement, List.map_map, Function.comp_def,
    ConfigSpec.toConfiguration, String.append_assoc, String.empty_append]
  exact ⟨_, rfl⟩

theorem parse_projectConfigurations_witness :
    parse (fun _ => .returns true) releaseLibArgv =
        ("Warning: Configuration 'Debug|x64' has no libs\n", .ok releaseLibProject) ∧
    ∃ (exe name toolset : String) (cfgs : List ConfigSpec),
      releaseLibArgv = exe :: name :: toolset :: flattenConfigs cfgs ∧
      ∃ rest, emit releaseLibProject =
        "<?xml version=\"1.0\" encoding=\"utf-8\"?>\r\n<Project DefaultTargets=\"Build\" ToolsVersion=\"15.0\" xmlns=\"http://schemas.microsoft.com/developer/msbuild/2003\">\r\n"
          ++ "<ItemGroup Label=\"ProjectConfigurations\">\r\n"
          ++ String.join (cfgs.map (fun c =>
              "<ProjectConfiguration Include=\"" ++ c.name ++ "|" ++ c.architecture
                ++ "\">\r\n<Configuration>" ++ c.name
                ++ "</Configuration>\r\n<Platform>" ++ c.architecture
                ++ "</Platform>\r\n</ProjectConfiguration>\r\n"))
          ++ "</ItemGroup>\r\n" ++ rest :=
  ⟨by decide, parse_projectConfigurations (fun _ => .returns true) releaseLibArgv
    "Warning: Configuration 'Debug|x64' has no libs\n" releaseLibProject (by decide)⟩

/-! ## The two `NativeTargetPath` item groups -/

theorem join_append (l1 l2 : List String) :
    String.join (l1 ++ l2) = String.join l1 ++ String.join l2 := by
  induction l1 with
  | nil => simp [join_nil]
  | cons x l1 ih => rw [List.cons_append, join_cons, join_cons, ih, String.append_assoc]

theorem join_flatten (ls : List (List String)) :
    String.join ls.flatten = String.join (ls.map String.join) := by
  induction ls with
  | nil => rfl
  | cons l ls ih => rw [List.flatten_cons, join_append, List.map_cons, join_cons, ih]

theorem mem_pathsOf {kind : ArtifactKind} {p : String} {arts : List (ArtifactKind × String)}
    (h : (kind, p) ∈ arts) : p ∈ pathsOf kind arts := by
  induction arts with
  | nil => cases h
  | cons a arts ih =>
    obtain ⟨k, q⟩ := a
    rcases List.mem_cons.mp h with heq | hmem
    · injection heq with h1 h2
      subst h1 h2
      simp [pathsOf]
    · simp only [pathsOf]
      split
      · exact List.mem_cons_of_mem _ (ih hmem)
      · exact ih hmem

theorem occurs_left {x s : String} (a : String) (h : ∃ pre post, s = pre ++ x ++ post) :
    ∃ pre post, a ++ s = pre ++ x ++ post := by
  obtain ⟨pre, post, rfl⟩ := h
  exact ⟨a ++ pre, post, by simp only [String.append_assoc]⟩

theorem occurs_right {x s : String} (b : String) (h : ∃ pre post, s = pre ++ x ++ post) :
    ∃ pre post, s ++ b = pre ++ x ++ post := by
  obtain ⟨pre, post, rfl⟩ := h
  exact ⟨pre, post ++ b, by simp only [String.append_assoc]⟩

theorem occurs_trans {x y s : String} (h : ∃ pre post, s = pre ++ y ++ post)
    (hy : ∃ pre post, y = pre ++ x ++ post) : ∃ pre post, s = pre ++ x ++ post := by
  obtain ⟨pre, post, rfl⟩ := h
  exact occurs_right _ (occurs_left _ hy)

/-- An element of a list of texts stands in their concatenation. -/
theorem join_mem {x : String} {l : List String} (h : x ∈ l) :
    ∃ pre post, String.join l = pre ++ x ++ post := by
  obtain ⟨l1, l2, rfl⟩ := List.append_of_mem h
  exact ⟨String.join l1, String.join l2, by rw [join_append, join_cons, String.append_assoc]⟩

theorem writeTargets_eq (os : String) (c : Configuration) :
    writeTargets os c = os ++ String.join ((c.binaries ++ c.libraries).map (designTimeRow c.name c.architecture)) := by
  have row : ∀ (os path : String),
      os ++ "\t\t\t<NativeTargetPath Condition=\"'$(Configuration)|$(Platform)'=='"
        ++ c.name ++ "|" ++ c.architecture
        ++ "' and '$(DesignTimeBuild)'=='true'\" Include=\"$(ProjectDir)" ++ path ++ "\" />\r\n" =
      os ++ designTimeRow c.name c.architecture path := by
    intro os path
    simp only [designTimeRow, String.append_assoc]
  simp only [writeTargets]
  rw [foldl_stream _ _ row, foldl_stream _ _ row, List.map_append, join_append,
    String.append_assoc]

/-- C11: `writeTargets` writes, for a configuration, one `NativeTargetPath` row
for each binary in list order and then one for each library in list order,
each with the condition on `name|arch` and `DesignTimeBuild` and with
`Include` `$(ProjectDir)path`; the body of the second `GetTargetPath` target
of the document is these rows for the configurations in model order; hence
each binary of each configuration has its row in the document. -/
theorem emit_designTime_rows (project : Project) :
    (∀ (os : String) (c : Configuration), writeTargets os c =
      os ++ String.join (c.binaries.map (designTimeRow c.name c.architecture))
        ++ String.join (c.libraries.map (designTimeRow c.name c.architecture))) ∧
    emit project =
      "<?xml version=\"1.0\" encoding=\"utf-8\"?>\r\n<Project DefaultTargets=\"Build\" ToolsVersion=\"15.0\" xmlns=\"http://schemas.microsoft.com/developer/msbuild/2003\">\r\n"
        ++ writeConfigurations "" project
        ++ writeGlobals "" project
        ++ "<Import Project=\"$(VCTargetsPath)\\Microsoft.Cpp.Default.props\"/>\r\n<Import Project=\"$(VCTargetsPath)\\Microsoft.Cpp.props\"/>\r\n<Import Project=\"$(VCTargetsPath)\\Microsoft.Cpp.targets\"/>\r\n"
        ++ "\t<Target Name=\"GetTargetPath\" DependsOnTargets=\"GetNativeTargetPath\" Returns=\"@(NativeTargetPath)\">\r\n\t</Target>\r\n"
        ++ "\t<Target Name=\"GetTargetPath\" Returns=\"@(NativeTargetPath)\">\r\n\t\t<ItemGroup>\r\n"
        ++ String.join (project.configurations.map (fun c =>
            String.join (c.binaries.map (designTimeRow c.name c.architecture))
              ++ String.join (c.libraries.map (designTimeRow c.name c.architecture))))
        ++ "\t\t</ItemGroup>\r\n\t</Target>\r\n"
        ++ (if project.hasLibraries then libraryTarget project.configurations else "")
        ++ (if project.hasBinaries then copyTarget project.configurations else "")
        ++ "</Project>\r\n" ∧
    (∀ c ∈ project.configurations, ∀ p ∈ c.binaries,
      ∃ pre post, emit project = pre ++ designTimeRow c.name c.architecture p ++ post) ∧
    ∀ (fs : String → FileTest) (argv : List String) (cout : String),
      parse fs argv = (cout, .ok project) →
      ∃ (exe name toolset : String) (cfgs : List ConfigSpec),
        argv = exe :: name :: toolset :: flattenConfigs cfgs ∧
        ∀ cfg ∈ cfgs, ∀ p, (ArtifactKind.dll, p) ∈ cfg.artifacts →
          ∃ pre post, emit project =
            pre ++ designTimeRow cfg.name cfg.architecture p ++ post := by
  have hw : ∀ (os : String) (c : Configuration), writeTargets os c =
      os ++ String.join (c.binaries.map (designTimeRow c.name c.architecture))
        ++ String.join (c.libraries.map (designTimeRow c.name c.architecture)) := by
    intro os c
    rw [writeTargets_eq, List.map_append, join_append, String.append_assoc]
  have he : emit project =
      "<?xml version=\"1.0\" encoding=\"utf-8\"?>\r\n<Project DefaultTargets=\"Build\" ToolsVersion=\"15.0\" xmlns=\"http://schemas.microsoft.com/developer/msbuild/2003\">\r\n"
        ++ writeConfigurations "" project
        ++ writeGlobals "" project
        ++ "<Import Project=\"$(VCTargetsPath)\\Microsoft.Cpp.Default.props\"/>\r\n<Import Project=\"$(VCTargetsPath)\\Microsoft.Cpp.props\"/>\r\n<Import Project=\"$(VCTargetsPath)\\Microsoft.Cpp.targets\"/>\r\n"
        ++ "\t<Target Name=\"GetTargetPath\" DependsOnTargets=\"GetNativeTargetPath\" Returns=\"@(NativeTargetPath)\">\r\n\t</Target>\r\n"
        ++ "\t<Target Name=\"GetTargetPath\" Returns=\"@(NativeTargetPath)\">\r\n\t\t<ItemGroup>\r\n"
        ++ String.join (project.configurations.map (fun c =>
            String.join (c.binaries.map (designTimeRow c.name c.architecture))
              ++ String.join (c.libraries.map (designTimeRow c.name c.architecture))))
        ++ "\t\t</ItemGroup>\r\n\t</Target>\r\n"
        ++ (if project.hasLibraries then libraryTarget project.configurations else "")
        ++ (if project.hasBinaries then copyTarget project.configurations else "")
        ++ "</Project>\r\n" := by
    rw [emit_eq, emitHead_eq]
    have hm : project.configurations.map (fun c => writeTargets "" c) =
        project.configurations.map (fun c =>
          String.join (c.binaries.map (designTimeRow c.name c.architecture))
            ++ String.join (c.libraries.map (designTimeRow c.name c.architecture))) := by
      apply List.map_congr_left
      intro c _
      rw [hw, String.empty_append]
    rw [hm]
  have hrow : ∀ c ∈ project.configurations, ∀ p ∈ c.binaries,
      ∃ pre post, emit project = pre ++ designTimeRow c.name c.architecture p ++ post := by
    intro c hc p hp
    have h1 := join_mem (List.mem_map_of_mem (designTimeRow c.name c.architecture) hp)
    have h2 := join_mem (List.mem_map_of_mem (fun c =>
      String.join (c.binaries.map (designTimeRow c.name c.architecture))
        ++ String.join (c.libraries.map (designTimeRow c.name c.architecture))) hc)
    rw [he]
    exact occurs_right _ (occurs_right _ (occurs_right _ (occurs_right _ (occurs_left _
      (occurs_trans h2 (occurs_right _ h1))))))
  refine ⟨hw, he, hrow, ?_⟩
  intro fs argv cout hparse
  obtain ⟨exe, name, toolset, cfgs, hargv, -, hproj, -⟩ :=
    parse_ok_inv fs argv cout project hparse
  refine ⟨exe, name, toolset, cfgs, hargv, ?_⟩
  intro cfg hcfg p hp
  exact hrow cfg.toConfiguration
    (by rw [hproj]; exact List.mem_map_of_mem ConfigSpec.toConfiguration hcfg) p
    (mem_pathsOf hp)

theorem copyTarget_eq (configurations : List Configuration) :
    copyTarget configurations =
      "\t<Target Name=\"CopyBinaryFiles\">\r\n\t\t<ItemGroup>\r\n"
        ++ String.join (configurations.map (fun c =>
            c.binaries.map (copyRow c.name c.architecture))).flatten
        ++ "</ItemGroup>\r\n"
        ++ "<Copy SourceFiles=\"@(NativeTargetPath)\" DestinationFolder=\"$(OutDir)\" />\r\n"
        ++ "</Target>\r\n"
        ++ "<Target Name=\"Build\" DependsOnTargets=\"CopyBinaryFiles\"/>" := by
  have hrow : ∀ (c : Configuration) (binary : String),
      "<NativeTargetPath " ++ writeCondition "" c ++ " Include=\"$(ProjectDir)" ++ binary
        ++ "\" />\r\n" = copyRow c.name c.architecture binary := by
    intro c binary
    simp only [writeCondition, copyRow, String.append_assoc, String.empty_append]
    rfl
  simp only [copyTarget, hrow]
  simp only [join_flatten, List.map_map, Function.comp_def, String.append_assoc]
  rfl

/-- C12: when `hasBinaries` is set, `writeCopyTarget` writes the
`CopyBinaryFiles` target whose item group holds exactly one `NativeTargetPath`
row for each binary of each configuration, in model order and none for the
libraries, each with the condition on `name|arch` alone and with `Include`
`$(ProjectDir)path`, then one `Copy` task, the end of the target and the
`Build` target; the number of rows is the sum of the lengths of the binary
lists. -/
theorem writeCopyTarget_rows (os : String) (project : Project)
    (h : project.hasBinaries = true) :
    writeCopyTarget os project =
      os ++ "\t<Target Name=\"CopyBinaryFiles\">\r\n\t\t<ItemGroup>\r\n"
        ++ String.join (project.configurations.map (fun c =>
            c.binaries.map (copyRow c.name c.architecture))).flatten
        ++ "</ItemGroup>\r\n"
        ++ "<Copy SourceFiles=\"@(NativeTargetPath)\" DestinationFolder=\"$(OutDir)\" />\r\n"
        ++ "</Target>\r\n"
        ++ "<Target Name=\"Build\" DependsOnTargets=\"CopyBinaryFiles\"/>" ∧
    (project.configurations.map (fun c =>
        c.binaries.map (copyRow c.name c.architecture))).flatten.length =
      (project.configurations.map (fun c => c.binaries.length)).sum := by
  constructor
  · rw [writeCopyTarget_eq, if_pos h, copyTarget_eq]
    simp only [String.append_assoc]
  · simp [List.length_flatten, List.map_map, Function.comp_def]

theorem writeCopyTarget_rows_witness :
    releaseLibProject.hasBinaries = true ∧
    (writeCopyTarget "" releaseLibProject =
      "" ++ "\t<Target Name=\"CopyBinaryFiles\">\r\n\t\t<ItemGroup>\r\n"
        ++ String.join (releaseLibProject.configurations.map (fun c =>
            c.binaries.map (copyRow c.name c.architecture))).flatten
        ++ "</ItemGroup>\r\n"
        ++ "<Copy SourceFiles=\"@(NativeTargetPath)\" DestinationFolder=\"$(OutDir)\" />\r\n"
        ++ "</Target>\r\n"
        ++ "<Target Name=\"Build\" DependsOnTargets=\"CopyBinaryFiles\"/>" ∧
    (releaseLibProject.configurations.map (fun c =>
        c.binaries.map (copyRow c.name c.architecture))).flatten.length =
      (releaseLibProject.configurations.map (fun c => c.binaries.length)).sum) :=
  ⟨rfl, writeCopyTarget_rows "" releaseLibProject rfl⟩

/-! ## Warnings -/

theorem writeWarnings_eq (cout : String) (c : Configuration) :
    writeWarnings cout c = cout ++ warningLines c := by
  simp only [writeWarnings, warningLines]
  split <;> split <;> simp only [String.append_assoc, String.append_empty]
  all_goals rfl

/-- C15: for a command line that parses, what the run has written to standard
output is, for the configurations in input order, the line
`Warning: Configuration 'cfg|arch' has no libs` when the library list is empty
followed by the line `Warning: Configuration 'cfg|arch' has no DLLs` when the
binary list is empty; a configuration with libraries only gives the one line
about DLLs and a configuration with both kinds gives none. -/
theorem parse_warnings (fs : String → FileTest) (argv : List String) (cout : String)
    (project : Project) (h : parse fs argv = (cout, .ok project)) :
    cout = String.join (project.configurations.map (fun c =>
      (if c.libraries.isEmpty then
        "Warning: Configuration '" ++ c.name ++ "|" ++ c.architecture ++ "' has no libs\n"
      else "")
      ++ (if c.binaries.isEmpty then
        "Warning: Configuration '" ++ c.name ++ "|" ++ c.architecture ++ "' has no DLLs\n"
      else ""))) ∧
    (∀ c : Configuration, c.libraries ≠ [] → c.binaries = [] →
      warningLines c =
        "Warning: Configuration '" ++ c.name ++ "|" ++ c.architecture ++ "' has no DLLs\n") ∧
    (∀ c : Configuration, c.libraries ≠ [] → c.binaries ≠ [] → warningLines c = "") ∧
    ∃ run, main fs argv = some run ∧
      run.cout = String.join (project.configurations.map warningLines) := by
  obtain ⟨exe, name, toolset, cfgs, -, -, hp, hc⟩ := parse_ok_inv fs argv cout project h
  have hcout : cout = String.join (project.configurations.map warningLines) := by
    rw [hc, hp, coutAfterConfigs,
      foldl_stream (fun cout c => writeWarnings cout (ConfigSpec.toConfiguration c))
        (fun c => warningLines (ConfigSpec.toConfiguration c))
        (fun cout c => writeWarnings_eq cout _)]
    simp [projectOf, List.map_map, Function.comp_def]
  refine ⟨hcout, ?_, ?_, ?_⟩
  · intro c hl hb
    cases hlc : c.libraries with
    | nil => exact absurd hlc hl
    | cons l ls => simp [warningLines, hlc, hb]
  · intro c hl hb
    cases hlc : c.libraries with
    | nil => exact absurd hlc hl
    | cons l ls =>
      cases hbc : c.binaries with
      | nil => exact absurd hbc hb
      | cons b bs => simp [warningLines, hlc, hbc]
  · rcases main_eq fs argv with ⟨cout2, project2, hp2, hm⟩ | ⟨cout2, what, hp2, hm⟩
    · rw [h] at hp2
      injection hp2 with h1 h2
      subst h1
      exact ⟨_, hm, hcout⟩
    · rw [h] at hp2
      rcases hp2 with hp2 | hp2 <;> injection hp2 with _ h2 <;> cases h2

theorem parse_warnings_witness :
    parse (fun _ => .returns true) releaseLibArgv =
        ("Warning: Configuration 'Debug|x64' has no libs\n", .ok releaseLibProject) ∧
    ("Warning: Configuration 'Debug|x64' has no libs\n" =
      String.join (releaseLibProject.configurations.map (fun c =>
        (if c.libraries.isEmpty then
          "Warning: Configuration '" ++ c.name ++ "|" ++ c.architecture ++ "' has no libs\n"
        else "")
        ++ (if c.binaries.isEmpty then
          "Warning: Configuration '" ++ c.name ++ "|" ++ c.architecture ++ "' has no DLLs\n"
        else ""))) ∧
    (∀ c : Configuration, c.libraries ≠ [] → c.binaries = [] →
      warningLines c =
        "Warning: Configuration '" ++ c.name ++ "|" ++ c.architecture ++ "' has no DLLs\n") ∧
    (∀ c : Configuration, c.libraries ≠ [] → c.binaries ≠ [] → warningLines c = "") ∧
    ∃ run, main (fun _ => .returns true) releaseLibArgv = some run ∧
      run.cout = String.join (releaseLibProject.configurations.map warningLines)) :=
  ⟨by decide, parse_warnings (fun _ => .returns true) releaseLibArgv
    "Warning: Configuration 'Debug|x64' has no libs\n" releaseLibProject (by decide)⟩

/-! ## The filesystem decides acceptance only -/

/-- A command line that parses under one filesystem parses to the same result
when every file exists. -/
theorem parse_ok_all_exist (fs : String → FileTest) (argv : List String) (cout : String)
    (project : Project) (h : parse fs argv = (cout, .ok project)) :
    parse (fun _ => .returns true) argv = (cout, .ok project) := by
  obtain ⟨exe, name, toolset, cfgs, rfl, -, rfl, rfl⟩ := parse_ok_inv fs argv cout project h
  exact parse_grammar (fun _ => .returns true) exe name toolset cfgs (fun _ _ _ _ => rfl)

/-- C17: when the same command line parses under two filesystem states, the
two runs build the same project and emit the same document (and write the same
warnings and the same file): the output depends on the tokens alone. -/
theorem parse_filesystem_independent (fs1 fs2 : String → FileTest) (argv : List String)
    (cout1 cout2 : String) (project1 project2 : Project)
    (h1 : parse fs1 argv = (cout1, .ok project1))
    (h2 : parse fs2 argv = (cout2, .ok project2)) :
    project1 = project2 ∧ emit project1 = emit project2 ∧ main fs1 argv = main fs2 argv := by
  have e1 := parse_ok_all_exist fs1 argv cout1 project1 h1
  have e2 := parse_ok_all_exist fs2 argv cout2 project2 h2
  rw [e1] at e2
  injection e2 with hc hp
  injection hp with hp
  subst hc hp
  refine ⟨rfl, rfl, ?_⟩
  simp only [main, h1, h2]

theorem parse_filesystem_independent_witness :
    parse (fun _ => .returns true) releaseLibArgv =
        ("Warning: Configuration 'Debug|x64' has no libs\n", .ok releaseLibProject) ∧
    parse (fun p => .returns (p != "other.dll")) releaseLibArgv =
        ("Warning: Configuration 'Debug|x64' has no libs\n", .ok releaseLibProject) ∧
    (releaseLibProject = releaseLibProject ∧ emit releaseLibProject = emit releaseLibProject ∧
      main (fun _ => .returns true) releaseLibArgv = main (fun p => .returns (p != "other.dll")) releaseLibArgv) :=
  ⟨by decide, by decide,
    parse_filesystem_independent (fun _ => .returns true) (fun p => .returns (p != "other.dll")) releaseLibArgv
      "Warning: Configuration 'Debug|x64' has no libs\n"
      "Warning: Configuration 'Debug|x64' has no libs\n" releaseLibProject releaseLibProject
      (by decide) (by decide)⟩

/-! ## Failures inside the artifact loop -/

theorem flattenConfigs_append (cfgs1 cfgs2 : List ConfigSpec) :
    flattenConfigs (cfgs1 ++ cfgs2) = flattenConfigs cfgs1 ++ flattenConfigs cfgs2 := by
  induction cfgs1 with
  | nil => rfl
  | cons c cfgs1 ih => simp [flattenConfigs, ih]

/-- After complete configurations, a header `-c cfg arch` and artifact pairs
whose files exist, the parser stands in the artifact loop at the tokens that
follow, and what that loop throws there is what parsing throws. -/
theorem parse_artifact_throw (fs : String → FileTest) (exe name toolset : String)
    (cfgs : List ConfigSpec) (cname arch : String) (arts : List (ArtifactKind × String))
    (tail : List String) (hcfgs : AllExist fs cfgs) (harts : ∀ a ∈ arts, fs a.2 = .returns true) :
    ∃ (fuel i : Nat) (project : Project) (configuration : Configuration),
      (exe :: name :: toolset :: (flattenConfigs cfgs ++
        "-c" :: cname :: arch :: (flattenArtifacts arts ++ tail))).drop i = tail ∧
      (exe :: name :: toolset :: (flattenConfigs cfgs ++
        "-c" :: cname :: arch :: (flattenArtifacts arts ++ tail))).length ≤ i + fuel ∧
      ∀ what, artifactLoop fs (exe :: name :: toolset :: (flattenConfigs cfgs ++
          "-c" :: cname :: arch :: (flattenArtifacts arts ++ tail))) fuel i project
            configuration = .thrown what →
        (parse fs (exe :: name :: toolset :: (flattenConfigs cfgs ++
          "-c" :: cname :: arch :: (flattenArtifacts arts ++ tail)))).2 = .thrown what := by
  generalize htok : flattenConfigs cfgs ++
    "-c" :: cname :: arch :: (flattenArtifacts arts ++ tail) = tokens
  rw [parse_positional]
  generalize hargv : exe :: name :: toolset :: tokens = argv
  have hdrop : argv.drop 3 = tokens := by rw [← hargv]; rfl
  have hlen : argv.length = tokens.length + 3 := by rw [← hargv]; rfl
  obtain ⟨fuel2, hf2, hd2, heq⟩ := configLoop_prefix fs argv cfgs
    ("-c" :: cname :: arch :: (flattenArtifacts arts ++ tail))
    (tokens.length + 3) 3 ⟨name, toolset, false, false, []⟩ "" (by rw [hdrop, htok])
    (Or.inr ⟨_, rfl⟩) hcfgs (by omega)
  rw [heq]
  obtain ⟨hi, -, -⟩ := drop_eq_cons hd2
  obtain ⟨fuel2, rfl⟩ : ∃ f, fuel2 = f + 1 := ⟨fuel2 - 1, by omega⟩
  rw [configLoop_header fs argv fuel2 _ _ _ cname arch _ hd2]
  have hd3 : argv.drop (3 + (flattenConfigs cfgs).length + 1 + 1 + 1) =
      flattenArtifacts arts ++ tail :=
    (drop_eq_cons (drop_eq_cons (drop_eq_cons hd2).2.2).2.2).2.2
  obtain ⟨fuel3, hf3, hd4, heq3⟩ := artifactLoop_prefix fs argv arts _ argv.length _
    (projectAfterConfigs ⟨name, toolset, false, false, []⟩ cfgs) ⟨cname, arch, [], []⟩
    hd3 harts (by omega)
  rw [heq3]
  refine ⟨fuel3, _, projectAfter (projectAfterConfigs ⟨name, toolset, false, false, []⟩ cfgs) arts,
    configurationAfter ⟨cname, arch, [], []⟩ arts, hd4, hf3, ?_⟩
  intro what hw
  rw [hw]

/-- The artifact loop at a token that is no switch. -/
theorem artifactLoop_unknown (fs : String → FileTest) (argv : List String) (fuel i : Nat)
    (project : Project) (configuration : Configuration) (t : String) (rest : List String)
    (h : argv.drop i = t :: rest) (hc : t ≠ "-c") (hdll : t ≠ "-dll") (hlib : t ≠ "-lib") :
    artifactLoop fs argv (fuel + 1) i project configuration =
      .thrown "Expected -dll, -lib or -c" := by
  obtain ⟨hi, hsw, -⟩ := drop_eq_cons h
  simp only [artifactLoop, hi, if_true, hsw, hc, hdll, hlib, if_false]

/-- The artifact loop at a switch that is the last token. -/
theorem artifactLoop_no_path (fs : String → FileTest) (argv : List String) (fuel i : Nat)
    (project : Project) (configuration : Configuration) (kind : ArtifactKind)
    (h : argv.drop i = [switchOf kind]) :
    artifactLoop fs argv (fuel + 1) i project configuration =
      .thrown (missingPathMessage kind) := by
  obtain ⟨hi, hsw, h1⟩ := drop_eq_cons h
  have hi1 := drop_eq_nil_length h1
  cases kind <;>
    simp [artifactLoop, hi, hsw, switchOf, requireFn_error hi1, missingPathMessage,
      -List.getD_eq_getElem?_getD]

/-! ## Truncated command lines -/

/-- The configuration loop when the input ends inside a header `-c cfg arch`. -/
theorem parse_header_throw (fs : String → FileTest) (exe name toolset : String)
    (cfgs : List ConfigSpec) (hcfgs : AllExist fs cfgs) :
    (parse fs (exe :: name :: toolset :: (flattenConfigs cfgs ++ ["-c"]))).2 =
      .thrown "Expected configurations name" ∧
    ∀ cname : String,
      (parse fs (exe :: name :: toolset :: (flattenConfigs cfgs ++ ["-c", cname]))).2 =
        .thrown "Expected platform (e.g. x86, x64)" := by
  have key : ∀ tail : List String, (∃ r, tail = "-c" :: r) →
      ∃ (fuel i : Nat) (project : Project) (cout : String),
        (exe :: name :: toolset :: (flattenConfigs cfgs ++ tail)).drop i = tail ∧
        parse fs (exe :: name :: toolset :: (flattenConfigs cfgs ++ tail)) =
          configLoop fs (exe :: name :: toolset :: (flattenConfigs cfgs ++ tail)) (fuel + 1) i
            project cout := by
    intro tail htail
    generalize htok : flattenConfigs cfgs ++ tail = tokens
    rw [parse_positional]
    generalize hargv : exe :: name :: toolset :: tokens = argv
    have hdrop : argv.drop 3 = tokens := by rw [← hargv]; rfl
    have hlen : argv.length = tokens.length + 3 := by rw [← hargv]; rfl
    obtain ⟨fuel2, hf2, hd2, heq⟩ := configLoop_prefix fs argv cfgs tail
      (tokens.length + 3) 3 ⟨name, toolset, false, false, []⟩ "" (by rw [hdrop, htok])
      (Or.inr htail) hcfgs (by omega)
    obtain ⟨r, rfl⟩ := htail
    obtain ⟨hi, -, -⟩ := drop_eq_cons hd2
    obtain ⟨fuel2, rfl⟩ : ∃ f, fuel2 = f + 1 := ⟨fuel2 - 1, by omega⟩
    exact ⟨fuel2, _, _, _, hd2, heq⟩
  constructor
  · obtain ⟨fuel, i, project, cout, hd, heq⟩ := key ["-c"] ⟨[], rfl⟩
    rw [heq]
    obtain ⟨hi, hsw, h1⟩ := drop_eq_cons hd
    have hi1 := drop_eq_nil_length h1
    simp only [configLoop, hi, if_true, requireSwitchFn_ok hi hsw, requireFn_error hi1]
  · intro cname
    obtain ⟨fuel, i, project, cout, hd, heq⟩ := key ["-c", cname] ⟨[cname], rfl⟩
    rw [heq]
    obtain ⟨hi, hsw, h1⟩ := drop_eq_cons hd
    obtain ⟨hi1, -, h2⟩ := drop_eq_cons h1
    have hi2 := drop_eq_nil_length h2
    simp only [configLoop, hi, if_true, requireSwitchFn_ok hi hsw, requireFn_ok hi1,
      requireFn_error hi2]

/-- Parsing when the input ends right after an artifact switch. -/
theorem parse_no_path (fs : String → FileTest) (exe name toolset : String)
    (cfgs : List ConfigSpec) (cname arch : String) (arts : List (ArtifactKind × String))
    (kind : ArtifactKind) (hcfgs : AllExist fs cfgs) (harts : ∀ a ∈ arts, fs a.2 = .returns true) :
    (parse fs (exe :: name :: toolset :: (flattenConfigs cfgs ++
        "-c" :: cname :: arch :: (flattenArtifacts arts ++ [switchOf kind])))).2 =
      .thrown (missingPathMessage kind) := by
  obtain ⟨fuel, i, project, configuration, hd, hf, hthrow⟩ :=
    parse_artifact_throw fs exe name toolset cfgs cname arch arts [switchOf kind] hcfgs harts
  obtain ⟨hi, -, -⟩ := drop_eq_cons hd
  obtain ⟨fuel, rfl⟩ : ∃ f, fuel = f + 1 := ⟨fuel - 1, by omega⟩
  exact hthrow _ (artifactLoop_no_path fs _ fuel i project configuration kind hd)

/-- Parsing when no token, or the name only, follows the program name. -/
theorem parse_no_positional (fs : String → FileTest) (exe name : String) :
    (parse fs [exe]).2 = .thrown "Expected project name" ∧
    (parse fs [exe, name]).2 = .thrown "Expected toolset (e.g. vs141, vs140)" := by
  constructor <;> simp [parse, requireFn]

theorem length_slotsOfArtifacts (arts : List (ArtifactKind × String)) :
    (slotsOfArtifacts arts).length = 2 * arts.length := by
  induction arts with
  | nil => rfl
  | cons a l ih =>
    obtain ⟨k, q⟩ := a
    simp only [slotsOfArtifacts, List.length_cons, ih]
    omega

/-- A prefix of the tokens of artifact pairs is the tokens of a prefix of the
pairs, possibly followed by a switch without its path. -/
theorem take_flattenArtifacts (fs : String → FileTest) :
    ∀ (arts : List (ArtifactKind × String)) (m : Nat), (∀ a ∈ arts, fs a.2 = .returns true) →
      ∃ (arts2 : List (ArtifactKind × String)) (sw : List String) (swSlots : List Slot),
        (flattenArtifacts arts).take m = flattenArtifacts arts2 ++ sw ∧
        (slotsOfArtifacts arts).take m = slotsOfArtifacts arts2 ++ swSlots ∧
        (∀ a ∈ arts2, fs a.2 = .returns true) ∧
        ((sw = [] ∧ swSlots = []) ∨
          ∃ kind, sw = [switchOf kind] ∧ swSlots = [.artifactSwitch kind]) := by
  intro arts
  induction arts with
  | nil =>
    intro m _
    exact ⟨[], [], [], by simp [flattenArtifacts], by simp [slotsOfArtifacts],
      fun _ h => absurd h (List.not_mem_nil _), Or.inl ⟨rfl, rfl⟩⟩
  | cons a arts ih =>
    intro m hfs
    obtain ⟨kind, p⟩ := a
    match m with
    | 0 =>
      exact ⟨[], [], [], by simp [flattenArtifacts], by simp [slotsOfArtifacts],
        fun _ h => absurd h (List.not_mem_nil _), Or.inl ⟨rfl, rfl⟩⟩
    | 1 =>
      exact ⟨[], [switchOf kind], [.artifactSwitch kind], by simp [flattenArtifacts],
        by simp [slotsOfArtifacts], fun _ h => absurd h (List.not_mem_nil _),
        Or.inr ⟨kind, rfl, rfl⟩⟩
    | m + 2 =>
      obtain ⟨arts2, sw, swSlots, h1, h2, h3, h4⟩ :=
        ih m (fun a ha => hfs a (List.mem_cons_of_mem _ ha))
      refine ⟨(kind, p) :: arts2, sw, swSlots, ?_, ?_, ?_, h4⟩
      · simp [flattenArtifacts, h1]
      · simp [slotsOfArtifacts, h2]
      · intro a ha
        rcases List.mem_cons.mp ha with rfl | ha
        · exact hfs _ (List.mem_cons_self _ _)
        · exact h3 a ha

/-- A prefix of the tokens of configurations is the tokens of complete
configurations followed by an unfinished one. -/
theorem take_flattenConfigs (fs : String → FileTest) :
    ∀ (cfgs : List ConfigSpec) (n : Nat), AllExist fs cfgs →
      ∃ (cfgs2 : List ConfigSpec) (tail : List String) (tailSlots : List Slot),
        (flattenConfigs cfgs).take n = flattenConfigs cfgs2 ++ tail ∧
        (slotsOfConfigs cfgs).take n = slotsOfConfigs cfgs2 ++ tailSlots ∧
        AllExist fs cfgs2 ∧ TailShape fs tail tailSlots := by
  intro cfgs
  induction cfgs with
  | nil =>
    intro n _
    exact ⟨[], [], [], by simp [flattenConfigs], by simp [slotsOfConfigs],
      fun _ h => absurd h (List.not_mem_nil _), Or.inl ⟨rfl, rfl⟩⟩
  | cons c cs ih =>
    intro n hfs
    have hcs : AllExist fs cs := fun c2 hc2 => hfs c2 (List.mem_cons_of_mem _ hc2)
    have hc : ∀ a ∈ c.artifacts, fs a.2 = .returns true := hfs c (List.mem_cons_self _ _)
    match n with
    | 0 =>
      exact ⟨[], [], [], by simp [flattenConfigs], by simp [slotsOfConfigs],
        fun _ h => absurd h (List.not_mem_nil _), Or.inl ⟨rfl, rfl⟩⟩
    | 1 =>
      exact ⟨[], ["-c"], [.configSwitch], by simp [flattenConfigs], by simp [slotsOfConfigs],
        fun _ h => absurd h (List.not_mem_nil _), Or.inr (Or.inl ⟨rfl, rfl⟩)⟩
    | 2 =>
      exact ⟨[], ["-c", c.name], [.configSwitch, .configName], by simp [flattenConfigs],
        by simp [slotsOfConfigs], fun _ h => absurd h (List.not_mem_nil _),
        Or.inr (Or.inr (Or.inl ⟨c.name, rfl, rfl⟩))⟩
    | m + 3 =>
      by_cases hm : m ≤ 2 * c.artifacts.length
      · obtain ⟨arts2, sw, swSlots, h1, h2, h3, h4⟩ := take_flattenArtifacts fs c.artifacts m hc
        have ht : (flattenConfigs (c :: cs)).take (m + 3) =
            "-c" :: c.name :: c.architecture :: (flattenArtifacts arts2 ++ sw) := by
          simp only [flattenConfigs, List.take_succ_cons]
          rw [List.take_append_of_le_length (by rw [length_flattenArtifacts]; exact hm), h1]
        have hs : (slotsOfConfigs (c :: cs)).take (m + 3) =
            .configSwitch :: .configName :: .architecture ::
              (slotsOfArtifacts arts2 ++ swSlots) := by
          simp only [slotsOfConfigs, List.take_succ_cons]
          rw [List.take_append_of_le_length (by rw [length_slotsOfArtifacts]; exact hm), h2]
        rcases h4 with ⟨rfl, rfl⟩ | ⟨kind, rfl, rfl⟩
        · refine ⟨[⟨c.name, c.architecture, arts2⟩], [], [], ?_, ?_, ?_, Or.inl ⟨rfl, rfl⟩⟩
          · rw [ht]; simp [flattenConfigs]
          · rw [hs]; simp [slotsOfConfigs]
          · intro c2 hc2
            rw [List.mem_singleton] at hc2
            subst hc2
            exact h3
        · refine ⟨[], _, _, ?_, ?_, fun _ h => absurd h (List.not_mem_nil _),
            Or.inr (Or.inr (Or.inr ⟨c.name, c.architecture, arts2, kind, h3, rfl, rfl⟩))⟩
          · rw [ht]; simp [flattenConfigs]
          · rw [hs]; simp [slotsOfConfigs]
      · obtain ⟨cs2, tail, tailSlots, h1, h2, h3, h4⟩ := ih (m - 2 * c.artifacts.length) hcs
        refine ⟨c :: cs2, tail, tailSlots, ?_, ?_, ?_, h4⟩
        · simp only [flattenConfigs, List.take_succ_cons]
          rw [List.take_append_eq_append_take,
            List.take_of_length_le (by rw [length_flattenArtifacts]; omega),
            length_flattenArtifacts, h1]
          simp
        · simp only [slotsOfConfigs, List.take_succ_cons]
          rw [List.take_append_eq_append_take,
            List.take_of_length_le (by rw [length_slotsOfArtifacts]; omega),
            length_slotsOfArtifacts, h2]
          simp
        · intro c2 hc2
          rcases List.mem_cons.mp hc2 with rfl | hc2
          · exact hc
          · exact h3 c2 hc2

/-- After complete configurations the last slot is the toolset, an
architecture or a path: a production boundary. -/
theorem messageAfter_complete (cfgs : List ConfigSpec) :
    messageAfter (Slot.toolset :: slotsOfConfigs cfgs).getLast? = none := by
  have harts : ∀ (arts : List (ArtifactKind × String)) (s : Slot),
      messageAfter (some s) = none →
      messageAfter (s :: slotsOfArtifacts arts).getLast? = none := by
    intro arts
    induction arts with
    | nil => intro s hs; simpa [slotsOfArtifacts] using hs
    | cons a arts ih =>
      intro s _
      obtain ⟨k, p⟩ := a
      simp only [slotsOfArtifacts, List.getLast?_cons_cons]
      exact ih Slot.path rfl
  have hgen : ∀ (cfgs : List ConfigSpec) (s : Slot) (pre : List Slot),
      messageAfter (s :: pre).getLast? = none →
      messageAfter (s :: (pre ++ slotsOfConfigs cfgs)).getLast? = none := by
    intro cfgs
    induction cfgs with
    | nil => intro s pre hs; simpa [slotsOfConfigs] using hs
    | cons c cs ih =>
      intro s pre _
      have hstep : s :: (pre ++ slotsOfConfigs (c :: cs)) =
          s :: ((pre ++ Slot.configSwitch :: Slot.configName :: Slot.architecture ::
            slotsOfArtifacts c.artifacts) ++ slotsOfConfigs cs) := by
        simp [slotsOfConfigs]
      rw [hstep]
      apply ih
      have hlast : (s :: (pre ++ Slot.configSwitch :: Slot.configName :: Slot.architecture ::
          slotsOfArtifacts c.artifacts)).getLast? =
          (Slot.architecture :: slotsOfArtifacts c.artifacts).getLast? := by
        rw [show s :: (pre ++ Slot.configSwitch :: Slot.configName :: Slot.architecture ::
            slotsOfArtifacts c.artifacts) =
          (s :: pre ++ [Slot.configSwitch, Slot.configName]) ++
            (Slot.architecture :: slotsOfArtifacts c.artifacts) by simp]
        rw [List.getLast?_append_of_ne_nil _ (by simp)]
      rw [hlast]
      exact harts c.artifacts Slot.architecture rfl
  simpa using hgen cfgs Slot.toolset [] rfl

/-- C19: for every complete grammatical command line whose artifact files all
exist and every `n`, parsing its first `n` tokens fails with the message of
the first missing slot when the prefix stops inside a production
(`Expected project name` for no token, `Expected toolset (e.g. vs141, vs140)`
after the name, `Expected configurations name` right after a `-c`,
`Expected platform (e.g. x86, x64)` right after a configuration name,
`Expected DLL path` right after a `-dll`, `Expected lib path` right after a
`-lib`), and succeeds when the prefix stops at a production boundary (after
the toolset, an architecture or an artifact path). -/
theorem parse_prefix (fs : String → FileTest) (exe name toolset : String)
    (cfgs : List ConfigSpec) (h : AllExist fs cfgs) (n : Nat) :
    (∀ msg,
      messageAfter ((Slot.name :: Slot.toolset :: slotsOfConfigs cfgs).take n).getLast? =
        some msg →
      (parse fs (exe :: (name :: toolset :: flattenConfigs cfgs).take n)).2 = .thrown msg) ∧
    (messageAfter ((Slot.name :: Slot.toolset :: slotsOfConfigs cfgs).take n).getLast? = none →
      ∃ project,
        (parse fs (exe :: (name :: toolset :: flattenConfigs cfgs).take n)).2 = .ok project) := by
  have fin_some : ∀ (o : Outcome Project) (ms : Option Slot) (m0 : String),
      messageAfter ms = some m0 → o = .thrown m0 →
      (∀ msg, messageAfter ms = some msg → o = .thrown msg) ∧
        (messageAfter ms = none → ∃ p, o = .ok p) := by
    intro o ms m0 hm ho
    constructor
    · intro msg hmsg
      rw [hm] at hmsg
      injection hmsg with hmsg
      rw [← hmsg]
      exact ho
    · intro hnone
      rw [hm] at hnone
      cases hnone
  have fin_none : ∀ (o : Outcome Project) (ms : Option Slot) (p : Project),
      messageAfter ms = none → o = .ok p →
      (∀ msg, messageAfter ms = some msg → o = .thrown msg) ∧
        (messageAfter ms = none → ∃ p, o = .ok p) := by
    intro o ms p hm ho
    constructor
    · intro msg hmsg
      rw [hm] at hmsg
      cases hmsg
    · intro _
      exact ⟨p, ho⟩
  match n with
  | 0 =>
    exact fin_some _ _ "Expected project name" rfl (parse_no_positional fs exe name).1
  | 1 =>
    exact fin_some _ _ "Expected toolset (e.g. vs141, vs140)" rfl
      (parse_no_positional fs exe name).2
  | m + 2 =>
    obtain ⟨cfgs2, tail, tailSlots, ht, hs, hfs2, hshape⟩ := take_flattenConfigs fs cfgs m h
    simp only [List.take_succ_cons, ht, hs]
    rcases hshape with ⟨rfl, rfl⟩ | ⟨rfl, rfl⟩ | ⟨cname, rfl, rfl⟩ |
      ⟨cname, arch, arts, kind, harts, rfl, rfl⟩
    · refine fin_none _ _ (projectOf name toolset cfgs2) ?_ ?_
      · simpa using messageAfter_complete cfgs2
      · rw [List.append_nil, parse_grammar fs exe name toolset cfgs2 hfs2]
    · refine fin_some _ _ "Expected configurations name" ?_
        (parse_header_throw fs exe name toolset cfgs2 hfs2).1
      rw [show Slot.name :: Slot.toolset :: (slotsOfConfigs cfgs2 ++ [Slot.configSwitch]) =
        (Slot.name :: Slot.toolset :: slotsOfConfigs cfgs2) ++ [Slot.configSwitch] by simp,
        List.getLast?_concat]
      rfl
    · refine fin_some _ _ "Expected platform (e.g. x86, x64)" ?_
        ((parse_header_throw fs exe name toolset cfgs2 hfs2).2 cname)
      rw [show Slot.name :: Slot.toolset ::
          (slotsOfConfigs cfgs2 ++ [Slot.configSwitch, Slot.configName]) =
        (Slot.name :: Slot.toolset :: slotsOfConfigs cfgs2 ++ [Slot.configSwitch]) ++
          [Slot.configName] by simp,
        List.getLast?_concat]
      rfl
    · refine fin_some _ _ (missingPathMessage kind) ?_
        (parse_no_path fs exe name toolset cfgs2 cname arch arts kind hfs2 harts)
      rw [show Slot.name :: Slot.toolset :: (slotsOfConfigs cfgs2 ++
          Slot.configSwitch :: Slot.configName :: Slot.architecture ::
            (slotsOfArtifacts arts ++ [Slot.artifactSwitch kind])) =
        (Slot.name :: Slot.toolset :: slotsOfConfigs cfgs2 ++
          Slot.configSwitch :: Slot.configName :: Slot.architecture :: slotsOfArtifacts arts) ++
          [Slot.artifactSwitch kind] by simp,
        List.getLast?_concat]
      cases kind <;> rfl

theorem parse_prefix_witness :
    AllExist (fun _ => .returns true) sampleConfigs ∧
    ((∀ msg,
      messageAfter ((Slot.name :: Slot.toolset :: slotsOfConfigs sampleConfigs).take 6).getLast? =
        some msg →
      (parse (fun _ => .returns true)
        ("vcppgen" :: ("foo" :: "v141" :: flattenConfigs sampleConfigs).take 6)).2 =
          .thrown msg) ∧
    (messageAfter ((Slot.name :: Slot.toolset :: slotsOfConfigs sampleConfigs).take 6).getLast? =
        none →
      ∃ project,
        (parse (fun _ => .returns true)
          ("vcppgen" :: ("foo" :: "v141" :: flattenConfigs sampleConfigs).take 6)).2 =
            .ok project)) :=
  ⟨fun _ _ _ _ => rfl,
    parse_prefix (fun _ => .returns true) "vcppgen" "foo" "v141" sampleConfigs (fun _ _ _ _ => rfl) 6⟩

/-! ## The message `Expected -c` -/

theorem notFound_ne_expected_c (kind : ArtifactKind) (p : String) :
    notFoundMessage kind p ≠ "Expected -c" := by
  intro h
  have hd := congrArg (fun s : String => s.data.head?) h
  cases kind
  · have h1 : (notFoundMessage .dll p).data.head? = some 'D' := rfl
    simp only [h1] at hd
    revert hd
    decide
  · have h1 : (notFoundMessage .lib p).data.head? = some 'l' := rfl
    simp only [h1] at hd
    revert hd
    decide

/-- The artifact loop never throws `Expected -c`. -/
theorem artifactLoop_ne_expected_c (fs : String → FileTest) (argv : List String) :
    ∀ (fuel i : Nat) (project : Project) (configuration : Configuration),
      artifactLoop fs argv fuel i project configuration ≠ .thrown "Expected -c" := by
  intro fuel
  induction fuel with
  | zero =>
    intro i project configuration
    simp only [artifactLoop]
    split <;> exact fun h => by cases h
  | succ fuel ih =>
    intro i project configuration
    simp only [artifactLoop]
    split
    · split
      · exact fun h => by cases h
      · split
        · by_cases hi1 : i + 1 < argv.length
          · rw [requireFn_ok hi1]
            simp only
            split
            · exact fun h => by cases h
            · split
              · intro h
                injection h with h
                exact notFound_ne_expected_c .dll _ h
              · exact ih _ _ _
          · rw [requireFn_error hi1]
            intro h
            injection h with h
            revert h
            decide
        · split
          · by_cases hi1 : i + 1 < argv.length
            · rw [requireFn_ok hi1]
              simp only
              split
              · exact fun h => by cases h
              · split
                · intro h
                  injection h with h
                  exact notFound_ne_expected_c .lib _ h
                · exact ih _ _ _
            · rw [requireFn_error hi1]
              intro h
              injection h with h
              revert h
              decide
          · intro h
            injection h with h
            revert h
            decide
    · exact fun h => by cases h

/-- The configuration loop throws `Expected -c` only at its own start, at a
token that is not `-c`. -/
theorem configLoop_expected_c (fs : String → FileTest) (argv : List String) :
    ∀ (fuel i : Nat) (project : Project) (cout : String),
      (configLoop fs argv fuel i project cout).2 = .thrown "Expected -c" →
      i < argv.length ∧ argv.getD i "" ≠ "-c" := by
  intro fuel
  induction fuel with
  | zero =>
    intro i project cout h
    simp only [configLoop] at h
    split at h <;> cases h
  | succ fuel ih =>
    intro i project cout h
    simp only [configLoop] at h
    split at h
    · rename_i hi
      by_cases hsw : argv.getD i "" = "-c"
      · rw [requireSwitchFn_ok hi hsw] at h
        simp only at h
        by_cases hi1 : i + 1 < argv.length
        · rw [requireFn_ok hi1] at h
          simp only at h
          by_cases hi2 : i + 1 + 1 < argv.length
          · rw [requireFn_ok hi2] at h
            simp only at h
            cases hloop : artifactLoop fs argv argv.length (i + 1 + 1 + 1) project
                ⟨argv.getD (i + 1) "", argv.getD (i + 1 + 1) "", [], []⟩ with
            | thrown what =>
              rw [hloop] at h
              simp only at h
              injection h with h
              rw [h] at hloop
              exact absurd hloop (artifactLoop_ne_expected_c fs argv _ _ _ _)
            | filesystemError what =>
              rw [hloop] at h
              cases h
            | noFuel =>
              rw [hloop] at h
              cases h
            | ok val =>
              obtain ⟨i4, project4, configuration4⟩ := val
              rw [hloop] at h
              simp only at h
              obtain ⟨hi4, hsw4⟩ := ih _ _ _ h
              obtain ⟨arts, -, -, hstop, -, -, -⟩ :=
                artifactLoop_ok_inv fs argv _ _ _ _ _ _ _ hloop
              rcases hstop with hnil | ⟨r, hr⟩
              · exact absurd hi4 (drop_eq_nil_length hnil)
              · exact absurd (drop_eq_cons hr).2.1 hsw4
          · rw [requireFn_error hi2] at h
            simp only at h
            injection h with h
            exact absurd h (by decide)
        · rw [requireFn_error hi1] at h
          simp only at h
          injection h with h
          exact absurd h (by decide)
      · exact ⟨hi, hsw⟩
    · cases h

/-- C20: parsing fails with the message `Expected -c` if and only if there are
at least three tokens after the program name and the third is not `-c`; in
particular it never fails so where a configuration follows the toolset,
whatever stands after that configuration. -/
theorem parse_expected_c_iff (fs : String → FileTest) (argv : List String) :
    ((parse fs argv).2 = .thrown "Expected -c" ↔
      ∃ (exe name toolset t : String) (rest : List String),
        argv = exe :: name :: toolset :: t :: rest ∧ t ≠ "-c") ∧
    ∀ (exe name toolset : String) (c : ConfigSpec) (cfgs : List ConfigSpec)
      (rest : List String),
      (parse fs (exe :: name :: toolset :: (flattenConfigs (c :: cfgs) ++ rest))).2 ≠
        .thrown "Expected -c" := by
  have hiff : ∀ argv : List String, (parse fs argv).2 = .thrown "Expected -c" ↔
      ∃ (exe name toolset t : String) (rest : List String),
        argv = exe :: name :: toolset :: t :: rest ∧ t ≠ "-c" := by
    intro argv
    constructor
    · intro h
      match argv, h with
      | [], h => exact absurd h (by simp [parse, requireFn])
      | [_], h => exact absurd h (by simp [parse, requireFn])
      | [_, _], h => exact absurd h (by simp [parse, requireFn])
      | exe :: name :: toolset :: tokens, h =>
        rw [parse_positional] at h
        obtain ⟨hi, hsw⟩ := configLoop_expected_c fs _ _ _ _ _ h
        match tokens, hi, hsw with
        | [], hi, _ => exact absurd hi (by simp)
        | t :: rest, _, hsw => exact ⟨exe, name, toolset, t, rest, rfl, by simpa using hsw⟩
    · rintro ⟨exe, name, toolset, t, rest, rfl, ht⟩
      rw [parse_positional]
      have hfuel : (t :: rest).length + 3 = (rest.length + 3) + 1 := by
        simp only [List.length_cons]
      rw [hfuel]
      generalize hargv : exe :: name :: toolset :: t :: rest = argv2
      have hd : argv2.drop 3 = t :: rest := by rw [← hargv]; rfl
      obtain ⟨hi, hsw, -⟩ := drop_eq_cons hd
      simp only [configLoop, hi, if_true]
      rw [requireSwitchFn_error (fun hc => ht (hsw.symm.trans hc.2))]
  refine ⟨hiff argv, ?_⟩
  intro exe name toolset c cfgs rest h
  obtain ⟨exe2, name2, toolset2, t, rest2, heq, ht⟩ := (hiff _).mp h
  simp only [flattenConfigs, List.cons_append, List.cons.injEq] at heq
  exact ht heq.2.2.2.1.symm

/-! ## The order of the document -/

/-- The document with the head spelled out. -/
theorem emit_full (project : Project) :
    emit project =
      "<?xml version=\"1.0\" encoding=\"utf-8\"?>\r\n<Project DefaultTargets=\"Build\" ToolsVersion=\"15.0\" xmlns=\"http://schemas.microsoft.com/developer/msbuild/2003\">\r\n"
        ++ writeConfigurations "" project
        ++ writeGlobals "" project
        ++ "<Import Project=\"$(VCTargetsPath)\\Microsoft.Cpp.Default.props\"/>\r\n<Import Project=\"$(VCTargetsPath)\\Microsoft.Cpp.props\"/>\r\n<Import Project=\"$(VCTargetsPath)\\Microsoft.Cpp.targets\"/>\r\n"
        ++ "\t<Target Name=\"GetTargetPath\" DependsOnTargets=\"GetNativeTargetPath\" Returns=\"@(NativeTargetPath)\">\r\n\t</Target>\r\n"
        ++ "\t<Target Name=\"GetTargetPath\" Returns=\"@(NativeTargetPath)\">\r\n\t\t<ItemGroup>\r\n"
        ++ String.join (project.configurations.map (fun c =>
            String.join (c.binaries.map (designTimeRow c.name c.architecture))
              ++ String.join (c.libraries.map (designTimeRow c.name c.architecture))))
        ++ "\t\t</ItemGroup>\r\n\t</Target>\r\n"
        ++ (if project.hasLibraries then libraryTarget project.configurations else "")
        ++ (if project.hasBinaries then copyTarget project.configurations else "")
        ++ "</Project>\r\n" := by
  rw [emit_eq, emitHead_eq]
  have hm : project.configurations.map (fun c => writeTargets "" c) =
      project.configurations.map (fun c =>
        String.join (c.binaries.map (designTimeRow c.name c.architecture))
          ++ String.join (c.libraries.map (designTimeRow c.name c.architecture))) := by
    apply List.map_congr_left
    intro c _
    rw [writeTargets_eq, List.map_append, join_append, String.empty_append]
  rw [hm]

set_option maxRecDepth 100000 in
/-- The document is the concatenation of its parts. -/
theorem emit_eq_parts (project : Project) :
    emit project = String.join (documentParts project) := by
  rw [emit_full, writeConfigurations_eq, copyTarget_eq]
  simp only [documentParts, writeGlobals, libraryTarget]
  cases project.hasLibraries <;> cases project.hasBinaries <;>
    simp only [join_append, join_cons, join_nil, List.cons_append, List.nil_append,
      List.append_nil, String.append_assoc, String.empty_append, String.append_empty,
      if_true, Bool.false_eq_true, if_false] <;> rfl

set_option maxRecDepth 100000 in
/-- C18: the document of a project is its parts in exactly this order: the XML
declaration, the root tag, the `ProjectConfigurations` item group, the
`Configuration` and `Globals` property groups, the three imports, the empty
`GetTargetPath` target that depends on `GetNativeTargetPath`, the second
`GetTargetPath` target with the `NativeTargetPath` item group, the optional
`GetResolvedLinkLibs` target, the optional `CopyBinaryFiles` and `Build`
targets, and the closing tag; exactly two of these parts are `GetTargetPath`
targets. -/
theorem emit_order (project : Project) :
    emit project = String.join (documentParts project) ∧
    (documentParts project).countP (startsWith "\t<Target Name=\"GetTargetPath\"") = 2 := by
  constructor
  · exact emit_eq_parts project
  · simp only [documentParts]
    cases project.hasLibraries <;> cases project.hasBinaries <;> rfl

/-! ## Line terminators -/

theorem crlfOnly_sound :
    ∀ (l : List Char) (b : Bool), crlfOnly b l = true →
      ∀ pre post : List Char, l = pre ++ '\n' :: post →
        (pre = [] ∧ b = true) ∨ ∃ pre2, pre = pre2 ++ ['\r'] := by
  intro l
  induction l with
  | nil =>
    intro b _ pre post h
    exact absurd h (by simp)
  | cons c rest ih =>
    intro b hb pre post h
    simp only [crlfOnly, Bool.and_eq_true, Bool.or_eq_true] at hb
    obtain ⟨hc, hrest⟩ := hb
    cases pre with
    | nil =>
      simp only [List.nil_append, List.cons.injEq] at h
      obtain ⟨rfl, -⟩ := h
      rcases hc with hc | hc
      · exact absurd hc (by decide)
      · exact Or.inl ⟨rfl, hc⟩
    | cons d pre =>
      simp only [List.cons_append, List.cons.injEq] at h
      obtain ⟨rfl, h⟩ := h
      rcases ih _ hrest pre post h with ⟨rfl, hcr⟩ | ⟨pre2, rfl⟩
      · have : c = '\r' := by simpa using hcr
        exact Or.inr ⟨[], by simp [this]⟩
      · exact Or.inr ⟨c :: pre2, by simp⟩

/-- A text that passes the computed test has every line feed after a carriage
return. -/
theorem crlf_of_check (s : String) (h : crlfOnly false s.data = true) : CrlfTerminated s := by
  intro pre post hs
  rcases crlfOnly_sound s.data false h pre post hs with ⟨-, hb⟩ | hp
  · cases hb
  · exact hp

theorem crlf_append {a b : String} (ha : CrlfTerminated a) (hb : CrlfTerminated b) :
    CrlfTerminated (a ++ b) := by
  intro pre post h
  rw [String.data_append] at h
  rcases List.append_eq_append_iff.mp h with ⟨a2, hpre, hbd⟩ | ⟨c2, had, hcd⟩
  · obtain ⟨pre2, rfl⟩ := hb a2 post hbd
    exact ⟨a.data ++ pre2, by rw [hpre, List.append_assoc]⟩
  · cases c2 with
    | nil =>
      simp only [List.nil_append] at hcd
      obtain ⟨pre2, hp2⟩ := hb [] post (by simpa using hcd.symm)
      exact absurd hp2 (by simp)
    | cons x c2 =>
      simp only [List.cons_append, List.cons.injEq] at hcd
      obtain ⟨rfl, -⟩ := hcd
      exact ha pre c2 had

theorem crlf_join {l : List String} (h : ∀ s ∈ l, CrlfTerminated s) :
    CrlfTerminated (String.join l) := by
  induction l with
  | nil => exact crlf_of_check _ (by decide)
  | cons x l ih =>
    rw [join_cons]
    exact crlf_append (h x (List.mem_cons_self _ _))
      (ih (fun s hs => h s (List.mem_cons_of_mem _ hs)))

theorem crlf_join_map {α : Type} {l : List α} {f : α → String}
    (h : ∀ x ∈ l, CrlfTerminated (f x)) : CrlfTerminated (String.join (l.map f)) := by
  apply crlf_join
  intro s hs
  obtain ⟨x, hx, rfl⟩ := List.mem_map.mp hs
  exact h x hx

theorem crlf_intercalate_go (sep : String) (hsep : CrlfTerminated sep) :
    ∀ (l : List String) (acc : String), CrlfTerminated acc → (∀ s ∈ l, CrlfTerminated s) →
      CrlfTerminated (String.intercalate.go acc sep l) := by
  intro l
  induction l with
  | nil => intro acc hacc _; exact hacc
  | cons a l ih =>
    intro acc hacc hl
    simp only [String.intercalate.go]
    exact ih _ (crlf_append (crlf_append hacc hsep) (hl a (List.mem_cons_self _ _)))
      (fun s hs => hl s (List.mem_cons_of_mem _ hs))

theorem crlf_intercalate (sep : String) (hsep : CrlfTerminated sep) (l : List String)
    (hl : ∀ s ∈ l, CrlfTerminated s) : CrlfTerminated (String.intercalate sep l) := by
  cases l with
  | nil => exact crlf_of_check _ rfl
  | cons a l =>
    simp only [String.intercalate]
    exact crlf_intercalate_go sep hsep l a (hl a (List.mem_cons_self _ _))
      (fun s hs => hl s (List.mem_cons_of_mem _ hs))

theorem crlf_designTimeRow {name architecture path : String} (hn : CrlfTerminated name)
    (ha : CrlfTerminated architecture) (hp : CrlfTerminated path) :
    CrlfTerminated (designTimeRow name architecture path) := by
  unfold designTimeRow
  repeat' (first | exact crlf_of_check _ (by decide) | assumption | apply crlf_append)

theorem crlf_copyRow {name architecture path : String} (hn : CrlfTerminated name)
    (ha : CrlfTerminated architecture) (hp : CrlfTerminated path) :
    CrlfTerminated (copyRow name architecture path) := by
  unfold copyRow
  repeat' (first | exact crlf_of_check _ (by decide) | assumption | apply crlf_append)

theorem crlf_projectConfigurationElement {name architecture : String}
    (hn : CrlfTerminated name) (ha : CrlfTerminated architecture) :
    CrlfTerminated (projectConfigurationElement name architecture) := by
  unfold projectConfigurationElement
  repeat' (first | exact crlf_of_check _ (by decide) | assumption | apply crlf_append)

theorem crlf_writeLibraries {c : Configuration} (hn : CrlfTerminated c.name)
    (ha : CrlfTerminated c.architecture) (hl : ∀ p ∈ c.libraries, CrlfTerminated p) :
    CrlfTerminated (writeLibraries "" c) := by
  rw [writeLibraries_eq, String.empty_append]
  have hi : CrlfTerminated
      (String.intercalate ";" (c.libraries.map (fun l => "$(ProjectDir)" ++ l))) := by
    apply crlf_intercalate _ (crlf_of_check _ (by decide))
    intro s hs
    obtain ⟨p, hp, rfl⟩ := List.mem_map.mp hs
    exact crlf_append (crlf_of_check _ (by decide)) (hl p hp)
  have hc : CrlfTerminated (writeCondition "" c) := by
    unfold writeCondition
    repeat' (first | exact crlf_of_check _ (by decide) | assumption | apply crlf_append)
  have ht : CrlfTerminated (if c.binaries.isEmpty then "StaticLibrary" else "DynamicLibrary") := by
    split <;> exact crlf_of_check _ (by decide)
  repeat' (first | exact crlf_of_check _ (by decide) | assumption | apply crlf_append)

set_option maxRecDepth 100000 in
/-- C14, as the code has it: when every string of the project (name, toolset,
configuration names, architectures, paths) has each of its line feeds
immediately preceded by a carriage return, in particular when none holds a
line feed, every line feed of the emitted document is immediately preceded by
a carriage return. -/
theorem emit_crlf (project : Project) (h : StringsCrlfTerminated project) :
    CrlfTerminated (emit project) := by
  obtain ⟨hname, htoolset, hcfg⟩ := h
  rw [emit_eq_parts]
  have hpc : CrlfTerminated (String.join (project.configurations.map (fun c =>
      projectConfigurationElement c.name c.architecture))) :=
    crlf_join_map (fun c hc => crlf_projectConfigurationElement (hcfg c hc).1 (hcfg c hc).2.1)
  have hrows : CrlfTerminated (String.join (project.configurations.map (fun c =>
      String.join (c.binaries.map (designTimeRow c.name c.architecture))
        ++ String.join (c.libraries.map (designTimeRow c.name c.architecture))))) :=
    crlf_join_map (fun c hc => crlf_append
      (crlf_join_map (fun p hp =>
        crlf_designTimeRow (hcfg c hc).1 (hcfg c hc).2.1 ((hcfg c hc).2.2.2 p hp)))
      (crlf_join_map (fun p hp =>
        crlf_designTimeRow (hcfg c hc).1 (hcfg c hc).2.1 ((hcfg c hc).2.2.1 p hp))))
  have hlibs : CrlfTerminated (String.join (project.configurations.map (fun c =>
      writeLibraries "" c))) :=
    crlf_join_map (fun c hc =>
      crlf_writeLibraries (hcfg c hc).1 (hcfg c hc).2.1 (hcfg c hc).2.2.1)
  have hcopy : CrlfTerminated (String.join (project.configurations.map (fun c =>
      c.binaries.map (copyRow c.name c.architecture))).flatten) := by
    rw [join_flatten, List.map_map]
    exact crlf_join_map (fun c hc => crlf_join_map (fun p hp =>
      crlf_copyRow (hcfg c hc).1 (hcfg c hc).2.1 ((hcfg c hc).2.2.2 p hp)))
  apply crlf_join
  intro s hs
  simp only [documentParts, List.mem_append, List.mem_cons, List.mem_singleton,
    List.not_mem_nil, or_false] at hs
  rcases hs with ((hs | hs) | hs) | hs
  · rcases hs with rfl | rfl | rfl | rfl | rfl | rfl | rfl | rfl | rfl | rfl
    all_goals
      repeat' (first | exact crlf_of_check _ (by decide) | assumption | apply crlf_append)
  · split at hs
    · rw [List.mem_singleton] at hs
      subst hs
      repeat' (first | exact crlf_of_check _ (by decide) | assumption | apply crlf_append)
    · cases hs
  · split at hs
    · rcases List.mem_cons.mp hs with rfl | hs
      · repeat' (first | exact crlf_of_check _ (by decide) | assumption | apply crlf_append)
      · rw [List.mem_singleton] at hs
        subst hs
        exact crlf_of_check _ (by decide)
    · cases hs
  · subst hs
    exact crlf_of_check _ (by decide)

theorem releaseLibProject_strings : StringsCrlfTerminated releaseLibProject := by
  refine ⟨crlf_of_check _ (by decide), crlf_of_check _ (by decide), ?_⟩
  intro c hc
  simp only [releaseLibProject, List.mem_cons, List.mem_singleton, List.not_mem_nil,
    or_false] at hc
  rcases hc with rfl | rfl
  · refine ⟨crlf_of_check _ (by decide), crlf_of_check _ (by decide), ?_, ?_⟩
    · intro p hp
      cases hp
    · intro p hp
      rw [List.mem_singleton] at hp
      subst hp
      exact crlf_of_check _ (by decide)
  · refine ⟨crlf_of_check _ (by decide), crlf_of_check _ (by decide), ?_, ?_⟩
    · intro p hp
      rw [List.mem_singleton] at hp
      subst hp
      exact crlf_of_check _ (by decide)
    · intro p hp
      rw [List.mem_singleton] at hp
      subst hp
      exact crlf_of_check _ (by decide)

theorem emit_crlf_witness :
    StringsCrlfTerminated releaseLibProject ∧ CrlfTerminated (emit releaseLibProject) :=
  ⟨releaseLibProject_strings, emit_crlf releaseLibProject releaseLibProject_strings⟩

set_option maxRecDepth 100000 in
/-- C14, counterexample: the command line `a\nb v141` (a project name that
holds a line feed) parses, and in its document the line feed of the name
stands right after the `a`, not after a carriage return. -/
theorem emit_lineFeed_not_crlf :
    (parse (fun _ => .returns true) lineFeedArgv).2 = .ok lineFeedProject ∧
    (emit lineFeedProject).data =
      (emit lineFeedProject).data.take 386 ++ '\n' :: (emit lineFeedProject).data.drop 387 ∧
    ((emit lineFeedProject).data.take 386).getLast? = some 'a' ∧
    ¬ CrlfTerminated (emit lineFeedProject) := by
  have hsplit : (emit lineFeedProject).data =
      (emit lineFeedProject).data.take 386 ++ '\n' :: (emit lineFeedProject).data.drop 387 := by
    decide
  have hlast : ((emit lineFeedProject).data.take 386).getLast? = some 'a' := by decide
  refine ⟨by decide, hsplit, hlast, ?_⟩
  intro h
  obtain ⟨pre2, hp⟩ := h _ _ hsplit
  rw [hp, List.getLast?_concat] at hlast
  revert hlast
  decide

/-! ## Well-formed XML -/

theorem run_append (a b : List Char) :
    ∀ st : XmlState, run st (a ++ b) = (run st a).bind (fun st2 => run st2 b) := by
  induction a with
  | nil => intro st; rfl
  | cons c a ih =>
    intro st
    simp only [List.cons_append, run]
    cases step st c with
    | none => rfl
    | some st2 => exact ih st2

theorem reads_lit (st : XmlState) (lit : String) (h : (run st lit.data).isSome = true) :
    Reads st (stateAfter st lit) lit := by
  intro rest
  rw [run_append, stateAfter]
  cases hr : run st lit.data with
  | none => rw [hr] at h; cases h
  | some st2 => rfl

theorem reads_append {a b c : XmlState} {s t : String} (h1 : Reads a b s) (h2 : Reads b c t) :
    Reads a c (s ++ t) := by
  intro rest
  rw [String.data_append, List.append_assoc, h1, h2]

theorem reads_cast {a b c : XmlState} {s : String} (h : Reads a b s) (hbc : b = c) :
    Reads a c s :=
  hbc ▸ h

theorem reads_empty (a : XmlState) : Reads a a "" :=
  fun _ => rfl

theorem reads_join_map {α : Type} {a : XmlState} {f : α → String} :
    ∀ l : List α, (∀ x ∈ l, Reads a a (f x)) → Reads a a (String.join (l.map f)) := by
  intro l
  induction l with
  | nil => intro _; exact reads_empty a
  | cons x l ih =>
    intro h
    rw [List.map_cons, join_cons]
    exact reads_append (h x (List.mem_cons_self _ _))
      (ih (fun y hy => h y (List.mem_cons_of_mem _ hy)))

/-- A safe text inside a double-quoted attribute value leaves the reader where
it is. -/
theorem reads_attr (st : XmlState) (hst : inDoubleQuotes st = true) (t : String)
    (ht : XmlSafe t) : Reads st st t := by
  obtain ⟨stack, rootSeen, mode⟩ := st
  cases mode with
  | attrValue name attrs quote =>
    simp only [inDoubleQuotes, beq_iff_eq] at hst
    subst hst
    intro rest
    have key : ∀ l : List Char,
        (∀ c ∈ l, isXmlChar c = true ∧ c ≠ '<' ∧ c ≠ '&' ∧ c ≠ '>' ∧ c ≠ '"') →
        run ⟨stack, rootSeen, .attrValue name attrs '"'⟩ (l ++ rest) =
          run ⟨stack, rootSeen, .attrValue name attrs '"'⟩ rest := by
      intro l
      induction l with
      | nil => intro _; rfl
      | cons c l ih =>
        intro hl
        obtain ⟨hx, hlt, hamp, -, hq⟩ := hl c (List.mem_cons_self _ _)
        simp only [List.cons_append, run, step, hq, hlt, hamp, hx, if_false, if_true]
        exact ih (fun d hd => hl d (List.mem_cons_of_mem _ hd))
    exact key t.data ht
  | _ => simp [inDoubleQuotes] at hst

/-- In character data, the reader reads a safe text and then markup. -/
theorem reads_text {a : XmlState} {x : String} (b : XmlState) (h1 : Reads a b x)
    (hb : inContent b = true) (t : String) (ht : XmlSafe t) (lit : String)
    (hlit : lit.data.head? = some '<') (hrun : (run b lit.data).isSome = true) :
    Reads a (stateAfter b lit) (x ++ t ++ lit) := by
  obtain ⟨stack, rootSeen, mode⟩ := b
  cases mode with
  | text brackets =>
    simp only [inContent, Bool.and_true, Bool.not_eq_true', List.isEmpty_eq_false] at hb
    have hlt : ∀ (k : Nat) (l : List Char),
        run ⟨stack, rootSeen, .text k⟩ ('<' :: l) = run ⟨stack, rootSeen, .lt⟩ l := by
      intro k l
      simp only [run, step, if_true]
    have key : ∀ (l : List Char) (k : Nat) (rest : List Char),
        (∀ c ∈ l, isXmlChar c = true ∧ c ≠ '<' ∧ c ≠ '&' ∧ c ≠ '>' ∧ c ≠ '"') →
        run ⟨stack, rootSeen, .text k⟩ (l ++ '<' :: rest) =
          run ⟨stack, rootSeen, .lt⟩ rest := by
      intro l
      induction l with
      | nil => intro k rest _; exact hlt k rest
      | cons c l ih =>
        intro k rest hl
        obtain ⟨hx, hlt2, hamp, hgt, -⟩ := hl c (List.mem_cons_self _ _)
        have hne : stack.isEmpty = false := by
          cases stack with
          | nil => exact absurd rfl hb
          | cons _ _ => rfl
        have hrest := fun d hd => hl d (List.mem_cons_of_mem _ hd)
        by_cases hbr : c = ']'
        · simp only [List.cons_append, run, step, hlt2, hne, hamp, hbr, if_false, if_true,
            Bool.false_eq_true]
          exact ih _ rest hrest
        · simp only [List.cons_append, run, step, hlt2, hne, hamp, hbr, hgt, hx, if_false,
            if_true, Bool.false_eq_true]
          exact ih _ rest hrest
    cases hld : lit.data with
    | nil => rw [hld] at hlit; cases hlit
    | cons c0 ltail =>
      rw [hld] at hlit
      simp only [List.head?_cons, Option.some.injEq] at hlit
      subst hlit
      have hlitr := reads_lit ⟨stack, rootSeen, .text brackets⟩ lit hrun
      intro rest
      rw [String.data_append, String.data_append, List.append_assoc, List.append_assoc, h1,
        hld, List.cons_append, key t.data brackets _ ht, ← hlt brackets, ← List.cons_append,
        ← hld]
      exact hlitr rest
  | _ => simp [inContent] at hb

set_option maxRecDepth 100000 in
theorem reads_projectConfigurationElement {name architecture : String}
    (hn : XmlSafe name) (ha : XmlSafe architecture) :
    Reads xmlInItemGroup xmlInItemGroup (projectConfigurationElement name architecture) := by
  have h1 := reads_lit xmlInItemGroup "<ProjectConfiguration Include=\"" (by decide)
  have h2 := reads_append h1 (reads_attr _ (by decide) name hn)
  have h3 := reads_append h2 (reads_lit _ "|" (by decide))
  have h4 := reads_append h3 (reads_attr _ (by decide) architecture ha)
  have h5 := reads_append h4 (reads_lit _ "\">\r\n<Configuration>" (by decide))
  have h6 := reads_text _ h5 (by decide) name hn "</Configuration>\r\n<Platform>"
    (by decide) (by decide)
  have h7 := reads_text _ h6 (by decide) architecture ha
    "</Platform>\r\n</ProjectConfiguration>\r\n" (by decide) (by decide)
  exact reads_cast h7 (by decide)

set_option maxRecDepth 100000 in
theorem reads_designTimeRow {name architecture path : String}
    (hn : XmlSafe name) (ha : XmlSafe architecture) (hp : XmlSafe path) :
    Reads xmlInTargetItemGroup xmlInTargetItemGroup (designTimeRow name architecture path) := by
  have h1 := reads_lit xmlInTargetItemGroup
    "\t\t\t<NativeTargetPath Condition=\"'$(Configuration)|$(Platform)'=='" (by decide)
  have h2 := reads_append h1 (reads_attr _ (by decide) name hn)
  have h3 := reads_append h2 (reads_lit _ "|" (by decide))
  have h4 := reads_append h3 (reads_attr _ (by decide) architecture ha)
  have h5 := reads_append h4 (reads_lit _
    "' and '$(DesignTimeBuild)'=='true'\" Include=\"$(ProjectDir)" (by decide))
  have h6 := reads_append h5 (reads_attr _ (by decide) path hp)
  have h7 := reads_append h6 (reads_lit _ "\" />\r\n" (by decide))
  exact reads_cast h7 (by decide)

set_option maxRecDepth 100000 in
theorem reads_copyRow {name architecture path : String}
    (hn : XmlSafe name) (ha : XmlSafe architecture) (hp : XmlSafe path) :
    Reads xmlInTargetItemGroup xmlInTargetItemGroup (copyRow name architecture path) := by
  have h1 := reads_lit xmlInTargetItemGroup
    "<NativeTargetPath Condition=\"'$(Configuration)|$(Platform)'=='" (by decide)
  have h2 := reads_append h1 (reads_attr _ (by decide) name hn)
  have h3 := reads_append h2 (reads_lit _ "|" (by decide))
  have h4 := reads_append h3 (reads_attr _ (by decide) architecture ha)
  have h5 := reads_append h4 (reads_lit _ "'\" Include=\"$(ProjectDir)" (by decide))
  have h6 := reads_append h5 (reads_attr _ (by decide) path hp)
  have h7 := reads_append h6 (reads_lit _ "\" />\r\n" (by decide))
  exact reads_cast h7 (by decide)

theorem xmlSafe_append {a b : String} (ha : XmlSafe a) (hb : XmlSafe b) : XmlSafe (a ++ b) := by
  intro c hc
  rw [String.data_append, List.mem_append] at hc
  rcases hc with hc | hc
  · exact ha c hc
  · exact hb c hc

theorem xmlSafe_intercalate_go (sep : String) (hsep : XmlSafe sep) :
    ∀ (l : List String) (acc : String), XmlSafe acc → (∀ s ∈ l, XmlSafe s) →
      XmlSafe (String.intercalate.go acc sep l) := by
  intro l
  induction l with
  | nil => intro acc hacc _; exact hacc
  | cons a l ih =>
    intro acc hacc hl
    simp only [String.intercalate.go]
    exact ih _ (xmlSafe_append (xmlSafe_append hacc hsep) (hl a (List.mem_cons_self _ _)))
      (fun s hs => hl s (List.mem_cons_of_mem _ hs))

theorem xmlSafe_intercalate (sep : String) (hsep : XmlSafe sep) (l : List String)
    (hl : ∀ s ∈ l, XmlSafe s) : XmlSafe (String.intercalate sep l) := by
  cases l with
  | nil => intro c hc; cases hc
  | cons a l =>
    simp only [String.intercalate]
    exact xmlSafe_intercalate_go sep hsep l a (hl a (List.mem_cons_self _ _))
      (fun s hs => hl s (List.mem_cons_of_mem _ hs))

theorem writeLibraries_flat (c : Configuration) :
    writeLibraries "" c =
      "<Libs Condition=\"'$(Configuration)|$(Platform)'=='" ++ c.name ++ "|" ++ c.architecture
        ++ "'\" Include=\""
        ++ String.intercalate ";" (c.libraries.map (fun l => "$(ProjectDir)" ++ l))
        ++ "\">\r\n<ProjectType>"
        ++ (if c.binaries.isEmpty then "StaticLibrary" else "DynamicLibrary")
        ++ "</ProjectType>\r\n<FileType>lib</FileType>\r\n<ResolveableAssembly>false</ResolveableAssembly>\r\n</Libs>\r\n" := by
  rw [writeLibraries_eq]
  simp only [writeCondition, String.append_assoc, String.empty_append]
  rfl

set_option maxRecDepth 100000 in
theorem reads_writeLibraries {c : Configuration} (hn : XmlSafe c.name)
    (ha : XmlSafe c.architecture) (hl : ∀ p ∈ c.libraries, XmlSafe p) :
    Reads xmlInTargetItemGroup xmlInTargetItemGroup (writeLibraries "" c) := by
  have hi : XmlSafe
      (String.intercalate ";" (c.libraries.map (fun l => "$(ProjectDir)" ++ l))) := by
    apply xmlSafe_intercalate _ (by unfold XmlSafe; decide)
    intro s hs
    obtain ⟨p, hp, rfl⟩ := List.mem_map.mp hs
    exact xmlSafe_append (by unfold XmlSafe; decide) (hl p hp)
  rw [writeLibraries_flat]
  have h1 := reads_lit xmlInTargetItemGroup
    "<Libs Condition=\"'$(Configuration)|$(Platform)'=='" (by decide)
  have h2 := reads_append h1 (reads_attr _ (by decide) c.name hn)
  have h3 := reads_append h2 (reads_lit _ "|" (by decide))
  have h4 := reads_append h3 (reads_attr _ (by decide) c.architecture ha)
  have h5 := reads_append h4 (reads_lit _ "'\" Include=\"" (by decide))
  have h6 := reads_append h5 (reads_attr _ (by decide) _ hi)
  have h7 := reads_append h6 (reads_lit _ "\">\r\n<ProjectType>" (by decide))
  cases c.binaries.isEmpty with
  | true =>
    simp only [if_true]
    have h8 := reads_append h7 (reads_lit _ "StaticLibrary" (by decide))
    have h9 := reads_append h8 (reads_lit _
      "</ProjectType>\r\n<FileType>lib</FileType>\r\n<ResolveableAssembly>false</ResolveableAssembly>\r\n</Libs>\r\n"
      (by decide))
    exact reads_cast h9 (by decide)
  | false =>
    simp only [Bool.false_eq_true, if_false]
    have h8 := reads_append h7 (reads_lit _ "DynamicLibrary" (by decide))
    have h9 := reads_append h8 (reads_lit _
      "</ProjectType>\r\n<FileType>lib</FileType>\r\n<ResolveableAssembly>false</ResolveableAssembly>\r\n</Libs>\r\n"
      (by decide))
    exact reads_cast h9 (by decide)

/-- After the declaration `<?xml version="1.0" encoding="utf-8"?>` the reader
takes over. -/
theorem wellFormedXml_decl (body : String) :
    wellFormedXml ("<?xml version=\"1.0\" encoding=\"utf-8\"?>" ++ body) =
      acceptsBody body.data := by
  rfl

theorem acceptsBody_of_reads {body : String} (h : Reads xmlStart xmlDone body) :
    acceptsBody body.data = true := by
  have := h []
  rw [List.append_nil] at this
  simp only [acceptsBody, this, run]
  rfl

theorem writeConfigurations_flat (project : Project) :
    writeConfigurations "" project =
      "<ItemGroup Label=\"ProjectConfigurations\">\r\n"
        ++ String.join (project.configurations.map (fun c =>
            projectConfigurationElement c.name c.architecture))
        ++ "</ItemGroup>\r\n<PropertyGroup Label=\"Configuration\">\r\n<PlatformToolset>"
        ++ project.toolset ++ "</PlatformToolset>\r\n</PropertyGroup>\r\n" := by
  rw [writeConfigurations_eq]
  simp only [String.append_assoc, String.empty_append]
  rfl

set_option maxRecDepth 100000 in
theorem reads_writeConfigurations (project : Project) (h : StringsXmlSafe project) :
    Reads xmlInProject xmlInProject (writeConfigurations "" project) := by
  obtain ⟨-, htoolset, hcfg⟩ := h
  rw [writeConfigurations_flat]
  have h1 := reads_cast
    (reads_lit xmlInProject "<ItemGroup Label=\"ProjectConfigurations\">\r\n" (by decide))
    (show _ = xmlInItemGroup by decide)
  have h2 := reads_append h1 (reads_join_map project.configurations (fun c hc =>
    reads_projectConfigurationElement (hcfg c hc).1 (hcfg c hc).2.1))
  have h3 := reads_append h2 (reads_lit _
    "</ItemGroup>\r\n<PropertyGroup Label=\"Configuration\">\r\n<PlatformToolset>" (by decide))
  have h4 := reads_text _ h3 (by decide) project.toolset htoolset
    "</PlatformToolset>\r\n</PropertyGroup>\r\n" (by decide) (by decide)
  exact reads_cast h4 (by decide)

set_option maxRecDepth 100000 in
theorem reads_writeGlobals (project : Project) (h : StringsXmlSafe project) :
    Reads xmlInProject xmlInProject (writeGlobals "" project) := by
  obtain ⟨hname, -, -⟩ := h
  unfold writeGlobals
  have h1 := reads_append (reads_empty xmlInProject)
    (reads_lit _ "<PropertyGroup Label=\"Globals\">\r\n" (by decide))
  have h2 := reads_append h1 (reads_lit _ "<Keyword>Win32Proj</Keyword>" (by decide))
  have h3 := reads_append h2 (reads_lit _ "<RootNamespace>" (by decide))
  have h4 := reads_text _ h3 (by decide) project.name hname "</RootNamespace>\r\n"
    (by decide) (by decide)
  have h5 := reads_append h4 (reads_lit _ "</PropertyGroup>\r\n" (by decide))
  exact reads_cast h5 (by decide)

set_option maxRecDepth 100000 in
theorem reads_libraryPart (project : Project) (h : StringsXmlSafe project) :
    Reads xmlInProject xmlInProject
      (if project.hasLibraries then libraryTarget project.configurations else "") := by
  obtain ⟨-, -, hcfg⟩ := h
  split
  · unfold libraryTarget
    have h1 := reads_cast
      (reads_lit xmlInProject
        "<Target Name=\"GetResolvedLinkLibs\" Returns = \"@(Libs)\">\r\n<ItemGroup>\r\n"
        (by decide))
      (show _ = xmlInTargetItemGroup by decide)
    have h2 := reads_append h1 (reads_join_map project.configurations (fun c hc =>
      reads_writeLibraries (hcfg c hc).1 (hcfg c hc).2.1 (hcfg c hc).2.2.1))
    have h3 := reads_append h2 (reads_lit _ "</ItemGroup>\r\n</Target>\r\n" (by decide))
    exact reads_cast h3 (by decide)
  · exact reads_empty _

set_option maxRecDepth 100000 in
theorem reads_copyPart (project : Project) (h : StringsXmlSafe project) :
    Reads xmlInProject xmlInProject
      (if project.hasBinaries then copyTarget project.configurations else "") := by
  obtain ⟨-, -, hcfg⟩ := h
  split
  · rw [copyTarget_eq, join_flatten, List.map_map]
    have h1 := reads_cast
      (reads_lit xmlInProject "\t<Target Name=\"CopyBinaryFiles\">\r\n\t\t<ItemGroup>\r\n"
        (by decide))
      (show _ = xmlInTargetItemGroup by decide)
    have h2 := reads_append h1 (reads_join_map (a := xmlInTargetItemGroup)
      (f := String.join ∘ fun c : Configuration =>
        c.binaries.map (copyRow c.name c.architecture))
      project.configurations (fun c hc =>
        reads_join_map c.binaries (fun p hp =>
          reads_copyRow (hcfg c hc).1 (hcfg c hc).2.1 ((hcfg c hc).2.2.2 p hp))))
    have h3 := reads_append h2 (reads_lit _ "</ItemGroup>\r\n" (by decide))
    have h4 := reads_append h3 (reads_lit _
      "<Copy SourceFiles=\"@(NativeTargetPath)\" DestinationFolder=\"$(OutDir)\" />\r\n"
      (by decide))
    have h5 := reads_append h4 (reads_lit _ "</Target>\r\n" (by decide))
    have h6 := reads_append h5 (reads_lit _
      "<Target Name=\"Build\" DependsOnTargets=\"CopyBinaryFiles\"/>" (by decide))
    exact reads_cast h6 (by decide)
  · exact reads_empty _

set_option maxRecDepth 100000 in
/-- The document of a project whose strings are safe is well-formed XML. -/
theorem emit_wellFormed (project : Project) (h : StringsXmlSafe project) :
    wellFormedXml (emit project) = true := by
  have hsplit : emit project =
      "<?xml version=\"1.0\" encoding=\"utf-8\"?>"
        ++ ("\r\n<Project DefaultTargets=\"Build\" ToolsVersion=\"15.0\" xmlns=\"http://schemas.microsoft.com/developer/msbuild/2003\">\r\n"
          ++ writeConfigurations "" project
          ++ writeGlobals "" project
          ++ "<Import Project=\"$(VCTargetsPath)\\Microsoft.Cpp.Default.props\"/>\r\n<Import Project=\"$(VCTargetsPath)\\Microsoft.Cpp.props\"/>\r\n<Import Project=\"$(VCTargetsPath)\\Microsoft.Cpp.targets\"/>\r\n"
          ++ "\t<Target Name=\"GetTargetPath\" DependsOnTargets=\"GetNativeTargetPath\" Returns=\"@(NativeTargetPath)\">\r\n\t</Target>\r\n"
          ++ "\t<Target Name=\"GetTargetPath\" Returns=\"@(NativeTargetPath)\">\r\n\t\t<ItemGroup>\r\n"
          ++ String.join (project.configurations.map (fun c =>
              String.join (c.binaries.map (designTimeRow c.name c.architecture))
                ++ String.join (c.libraries.map (designTimeRow c.name c.architecture))))
          ++ "\t\t</ItemGroup>\r\n\t</Target>\r\n"
          ++ (if project.hasLibraries then libraryTarget project.configurations else "")
          ++ (if project.hasBinaries then copyTarget project.configurations else "")
          ++ "</Project>\r\n") := by
    rw [emit_full]
    simp only [String.append_assoc]
    rfl
  rw [hsplit, wellFormedXml_decl]
  apply acceptsBody_of_reads
  have hcfg := h.2.2
  have h1 := reads_cast
    (reads_lit xmlStart
      "\r\n<Project DefaultTargets=\"Build\" ToolsVersion=\"15.0\" xmlns=\"http://schemas.microsoft.com/developer/msbuild/2003\">\r\n"
      (by decide))
    (show _ = xmlInProject by decide)
  have h2 := reads_append h1 (reads_writeConfigurations project h)
  have h3 := reads_append h2 (reads_writeGlobals project h)
  have h4 := reads_append h3 (reads_cast (reads_lit xmlInProject
    "<Import Project=\"$(VCTargetsPath)\\Microsoft.Cpp.Default.props\"/>\r\n<Import Project=\"$(VCTargetsPath)\\Microsoft.Cpp.props\"/>\r\n<Import Project=\"$(VCTargetsPath)\\Microsoft.Cpp.targets\"/>\r\n"
    (by decide)) (show _ = xmlInProject by decide))
  have h5 := reads_append h4 (reads_cast (reads_lit xmlInProject
    "\t<Target Name=\"GetTargetPath\" DependsOnTargets=\"GetNativeTargetPath\" Returns=\"@(NativeTargetPath)\">\r\n\t</Target>\r\n"
    (by decide)) (show _ = xmlInProject by decide))
  have h6 := reads_append h5 (reads_cast (reads_lit xmlInProject
    "\t<Target Name=\"GetTargetPath\" Returns=\"@(NativeTargetPath)\">\r\n\t\t<ItemGroup>\r\n"
    (by decide)) (show _ = xmlInTargetItemGroup by decide))
  have h7 := reads_append h6 (reads_join_map project.configurations (fun c hc =>
    reads_append
      (reads_join_map c.binaries (fun p hp =>
        reads_designTimeRow (hcfg c hc).1 (hcfg c hc).2.1 ((hcfg c hc).2.2.2 p hp)))
      (reads_join_map c.libraries (fun p hp =>
        reads_designTimeRow (hcfg c hc).1 (hcfg c hc).2.1 ((hcfg c hc).2.2.1 p hp)))))
  have h8 := reads_append h7 (reads_cast (reads_lit xmlInTargetItemGroup
    "\t\t</ItemGroup>\r\n\t</Target>\r\n" (by decide)) (show _ = xmlInProject by decide))
  have h9 := reads_append h8 (reads_libraryPart project h)
  have h10 := reads_append h9 (reads_copyPart project h)
  exact reads_append h10 (reads_cast (reads_lit xmlInProject "</Project>\r\n" (by decide))
    (show _ = xmlDone by decide))


/-! ## The strings of a parsed project are tokens of the command line -/

theorem pathsOf_subset_flatten {kind : ArtifactKind} {p : String} :
    ∀ arts : List (ArtifactKind × String), p ∈ pathsOf kind arts → p ∈ flattenArtifacts arts
  | [], h => by cases h
  | (k, q) :: rest, h => by
    simp only [pathsOf] at h
    simp only [flattenArtifacts, List.mem_cons]
    split at h
    · rcases List.mem_cons.mp h with heq | hmem
      · exact Or.inr (Or.inl heq)
      · exact Or.inr (Or.inr (pathsOf_subset_flatten rest hmem))
    · exact Or.inr (Or.inr (pathsOf_subset_flatten rest h))

theorem mem_flattenConfigs {c : ConfigSpec} :
    ∀ cfgs : List ConfigSpec, c ∈ cfgs →
      c.name ∈ flattenConfigs cfgs ∧ c.architecture ∈ flattenConfigs cfgs ∧
      ∀ t ∈ flattenArtifacts c.artifacts, t ∈ flattenConfigs cfgs
  | [], h => by cases h
  | d :: rest, h => by
    simp only [flattenConfigs, List.mem_cons, List.mem_append]
    rcases List.mem_cons.mp h with heq | hmem
    · subst heq
      exact ⟨Or.inr (Or.inl rfl), Or.inr (Or.inr (Or.inl rfl)),
        fun t ht => Or.inr (Or.inr (Or.inr (Or.inl ht)))⟩
    · obtain ⟨h1, h2, h3⟩ := mem_flattenConfigs rest hmem
      exact ⟨Or.inr (Or.inr (Or.inr (Or.inr h1))), Or.inr (Or.inr (Or.inr (Or.inr h2))),
        fun t ht => Or.inr (Or.inr (Or.inr (Or.inr (h3 t ht))))⟩

/-- The strings of the project the grammar describes are tokens of the command
line, so they are safe when every token is. -/
theorem projectOf_strings_safe (name toolset : String) (cfgs : List ConfigSpec)
    (h : ∀ t ∈ name :: toolset :: flattenConfigs cfgs, XmlSafe t) :
    StringsXmlSafe (projectOf name toolset cfgs) := by
  refine ⟨h name (List.mem_cons_self _ _),
    h toolset (List.mem_cons_of_mem _ (List.mem_cons_self _ _)), ?_⟩
  intro c hc
  simp only [projectOf, List.mem_map] at hc
  obtain ⟨spec, hspec, rfl⟩ := hc
  obtain ⟨h1, h2, h3⟩ := mem_flattenConfigs cfgs hspec
  have hin : ∀ t ∈ flattenConfigs cfgs, XmlSafe t := fun t ht =>
    h t (List.mem_cons_of_mem _ (List.mem_cons_of_mem _ ht))
  exact ⟨hin _ h1, hin _ h2,
    fun p hp => hin p (h3 p (pathsOf_subset_flatten _ hp)),
    fun p hp => hin p (h3 p (pathsOf_subset_flatten _ hp))⟩

/-! ## Well-formedness of the emitted document -/

set_option maxRecDepth 100000 in
/-- C13, counterexample: the command line `vcppgen a<b v141` is accepted (it
names no artifact file), and the document emitted for it is not well-formed
XML: the project name is written verbatim between the `RootNamespace` tags, so
its `<` opens markup. -/
theorem emit_markup_not_wellFormed :
    parse (fun _ => .returns true) markupArgv = ("", .ok markupProject) ∧
    wellFormedXml (emit markupProject) = false := by
  decide

/-- C13, as the code has it: for every token sequence accepted by the parser
whose tokens consist of legal XML characters other than `<`, `&`, `>` and `"`,
the emitted document is well-formed XML. -/
theorem parse_wellFormed (fs : String → FileTest) (argv : List String) (cout : String)
    (project : Project) (h : parse fs argv = (cout, .ok project))
    (hsafe : ∀ t ∈ argv.drop 1, XmlSafe t) :
    wellFormedXml (emit project) = true := by
  obtain ⟨exe, name, toolset, cfgs, rfl, -, rfl, -⟩ := parse_ok_inv fs argv cout project h
  exact emit_wellFormed _ (projectOf_strings_safe name toolset cfgs hsafe)

set_option maxRecDepth 100000 in
theorem parse_wellFormed_witness :
    parse (fun _ => .returns true) releaseLibArgv =
        ("Warning: Configuration 'Debug|x64' has no libs\n", .ok releaseLibProject) ∧
    (∀ t ∈ releaseLibArgv.drop 1, XmlSafe t) ∧
    wellFormedXml (emit releaseLibProject) = true :=
  ⟨by decide, by unfold XmlSafe; decide,
    parse_wellFormed (fun _ => .returns true) releaseLibArgv
      "Warning: Configuration 'Debug|x64' has no libs\n" releaseLibProject (by decide)
      (by unfold XmlSafe; decide)⟩


/-! ## The message `Expected -dll, -lib or -c` -/

theorem notFound_ne_unknown (kind : ArtifactKind) (p : String) :
    notFoundMessage kind p ≠ "Expected -dll, -lib or -c" := by
  intro h
  have hd := congrArg (fun s : String => s.data.head?) h
  cases kind
  · have h1 : (notFoundMessage .dll p).data.head? = some 'D' := rfl
    simp only [h1] at hd
    revert hd
    decide
  · have h1 : (notFoundMessage .lib p).data.head? = some 'l' := rfl
    simp only [h1] at hd
    revert hd
    decide

/-- Whenever the artifact loop throws `Expected -dll, -lib or -c`, it has
consumed a run of artifact pairs whose files exist and stands at a token that
is present and is none of the three switches. -/
theorem artifactLoop_unknown_inv (fs : String → FileTest) (argv : List String) :
    ∀ (fuel i : Nat) (project : Project) (configuration : Configuration),
      artifactLoop fs argv fuel i project configuration =
        .thrown "Expected -dll, -lib or -c" →
      ∃ (arts : List (ArtifactKind × String)) (t : String) (rest : List String),
        argv.drop i = flattenArtifacts arts ++ t :: rest ∧
        (∀ a ∈ arts, fs a.2 = .returns true) ∧
        t ≠ "-c" ∧ t ≠ "-dll" ∧ t ≠ "-lib" := by
  intro fuel
  induction fuel with
  | zero =>
    intro i project configuration h
    simp only [artifactLoop] at h
    split at h <;> cases h
  | succ fuel ih =>
    intro i project configuration h
    simp only [artifactLoop] at h
    split at h
    · rename_i hi
      split at h
      · cases h
      · rename_i hc
        split at h
        · rename_i hsw
          by_cases hi1 : i + 1 < argv.length
          · rw [requireFn_ok hi1] at h
            simp only at h
            split at h
            · cases h
            · rename_i isRegular htest
              cases isRegular with
              | false =>
                simp only [Bool.not_false, if_true] at h
                injection h with h
                exact absurd h (notFound_ne_unknown .dll _)
              | true =>
                simp only [Bool.not_true, Bool.false_eq_true, if_false] at h
                obtain ⟨arts, t, rest, hd, hfs, ht⟩ := ih _ _ _ h
                refine ⟨(.dll, argv.getD (i + 1) "") :: arts, t, rest, ?_, ?_, ht⟩
                · rw [drop_eq_getD_cons hi, drop_eq_getD_cons hi1, hsw, hd]
                  simp [flattenArtifacts, switchOf]
                · intro a ha
                  rcases List.mem_cons.mp ha with rfl | ha
                  · exact htest
                  · exact hfs a ha
          · rw [requireFn_error hi1] at h
            simp only at h
            injection h with h
            exact absurd h (by decide)
        · rename_i hdll
          split at h
          · rename_i hsw
            by_cases hi1 : i + 1 < argv.length
            · rw [requireFn_ok hi1] at h
              simp only at h
              split at h
              · cases h
              · rename_i isRegular htest
                cases isRegular with
                | false =>
                  simp only [Bool.not_false, if_true] at h
                  injection h with h
                  exact absurd h (notFound_ne_unknown .lib _)
                | true =>
                  simp only [Bool.not_true, Bool.false_eq_true, if_false] at h
                  obtain ⟨arts, t, rest, hd, hfs, ht⟩ := ih _ _ _ h
                  refine ⟨(.lib, argv.getD (i + 1) "") :: arts, t, rest, ?_, ?_, ht⟩
                  · rw [drop_eq_getD_cons hi, drop_eq_getD_cons hi1, hsw, hd]
                    simp [flattenArtifacts, switchOf]
                  · intro a ha
                    rcases List.mem_cons.mp ha with rfl | ha
                    · exact htest
                    · exact hfs a ha
            · rw [requireFn_error hi1] at h
              simp only at h
              injection h with h
              exact absurd h (by decide)
          · rename_i hlib
            exact ⟨[], argv.getD i "", argv.drop (i + 1),
              by rw [drop_eq_getD_cons hi]; rfl,
              fun _ ha => absurd ha (List.not_mem_nil _), hc, hdll, hlib⟩
    · cases h

/-- Whenever the configuration loop throws `Expected -dll, -lib or -c`, it has
consumed complete configurations, a header and artifact pairs whose files
exist, and stands at a token that is present and is none of the three
switches. -/
theorem configLoop_unknown_inv (fs : String → FileTest) (argv : List String) :
    ∀ (fuel i : Nat) (project : Project) (cout : String),
      (configLoop fs argv fuel i project cout).2 = .thrown "Expected -dll, -lib or -c" →
      ∃ (cfgs : List ConfigSpec) (cname arch : String) (arts : List (ArtifactKind × String))
        (t : String) (rest : List String),
        argv.drop i = flattenConfigs cfgs ++
          "-c" :: cname :: arch :: (flattenArtifacts arts ++ t :: rest) ∧
        AllExist fs cfgs ∧ (∀ a ∈ arts, fs a.2 = .returns true) ∧
        t ≠ "-c" ∧ t ≠ "-dll" ∧ t ≠ "-lib" := by
  intro fuel
  induction fuel with
  | zero =>
    intro i project cout h
    simp only [configLoop] at h
    split at h <;> cases h
  | succ fuel ih =>
    intro i project cout h
    simp only [configLoop] at h
    split at h
    · rename_i hi
      by_cases hsw : argv.getD i "" = "-c"
      · rw [requireSwitchFn_ok hi hsw] at h
        simp only at h
        by_cases hi1 : i + 1 < argv.length
        · rw [requireFn_ok hi1] at h
          simp only at h
          by_cases hi2 : i + 1 + 1 < argv.length
          · rw [requireFn_ok hi2] at h
            simp only at h
            have hhead : argv.drop i = "-c" :: argv.getD (i + 1) "" ::
                argv.getD (i + 1 + 1) "" :: argv.drop (i + 1 + 1 + 1) := by
              rw [drop_eq_getD_cons hi, drop_eq_getD_cons hi1, drop_eq_getD_cons hi2, hsw]
            cases hloop : artifactLoop fs argv argv.length (i + 1 + 1 + 1) project
                ⟨argv.getD (i + 1) "", argv.getD (i + 1 + 1) "", [], []⟩ with
            | thrown what =>
              rw [hloop] at h
              simp only at h
              injection h with h
              rw [h] at hloop
              obtain ⟨arts, t, rest, hd, hfs, ht⟩ :=
                artifactLoop_unknown_inv fs argv _ _ _ _ hloop
              refine ⟨[], argv.getD (i + 1) "", argv.getD (i + 1 + 1) "", arts, t, rest, ?_,
                fun _ hc => absurd hc (List.not_mem_nil _), hfs, ht⟩
              rw [hhead, hd]
              rfl
            | filesystemError what =>
              rw [hloop] at h
              cases h
            | noFuel =>
              rw [hloop] at h
              cases h
            | ok val =>
              obtain ⟨i4, project4, configuration4⟩ := val
              rw [hloop] at h
              simp only at h
              obtain ⟨cfgs, cname, arch, arts, t, rest, hd, hcfgs, hfs, ht⟩ := ih _ _ _ h
              obtain ⟨arts0, hd0, hfs0, -, -, -, -⟩ :=
                artifactLoop_ok_inv fs argv _ _ _ _ _ _ _ hloop
              refine ⟨⟨argv.getD (i + 1) "", argv.getD (i + 1 + 1) "", arts0⟩ :: cfgs,
                cname, arch, arts, t, rest, ?_, ?_, hfs, ht⟩
              · rw [hhead, hd0, hd]
                simp [flattenConfigs]
              · intro c hc
                rcases List.mem_cons.mp hc with rfl | hc
                · exact hfs0
                · exact hcfgs c hc
          · rw [requireFn_error hi2] at h
            simp only at h
            injection h with h
            exact absurd h (by decide)
        · rw [requireFn_error hi1] at h
          simp only at h
          injection h with h
          exact absurd h (by decide)
      · rw [requireSwitchFn_error (fun hc => hsw hc.2)] at h
        simp only at h
        injection h with h
        exact absurd h (by decide)
    · cases h

/-- Whenever parsing throws `Expected -dll, -lib or -c`, the command line is
grammatical (all files existing) up to a token that is present, stands where
the artifact loop expects a switch, and is none of the three switches. -/
theorem parse_unknown_inv (fs : String → FileTest) (argv : List String)
    (h : (parse fs argv).2 = .thrown "Expected -dll, -lib or -c") :
    ∃ (exe name toolset : String) (cfgs : List ConfigSpec) (cname arch : String)
      (arts : List (ArtifactKind × String)) (t : String) (rest : List String),
      argv = exe :: name :: toolset :: (flattenConfigs cfgs ++
        "-c" :: cname :: arch :: (flattenArtifacts arts ++ t :: rest)) ∧
      AllExist fs cfgs ∧ (∀ a ∈ arts, fs a.2 = .returns true) ∧
      t ≠ "-c" ∧ t ≠ "-dll" ∧ t ≠ "-lib" := by
  match argv, h with
  | [], h => exact absurd h (by simp [parse, requireFn])
  | [_], h => exact absurd h (by simp [parse, requireFn])
  | [_, _], h => exact absurd h (by simp [parse, requireFn])
  | exe :: name :: toolset :: tokens, h =>
    rw [parse_positional] at h
    obtain ⟨cfgs, cname, arch, arts, t, rest, hd, hcfgs, hfs, ht⟩ :=
      configLoop_unknown_inv fs _ _ _ _ _ h
    exact ⟨exe, name, toolset, cfgs, cname, arch, arts, t, rest,
      by simpa using hd, hcfgs, hfs, ht⟩

/-- Cutting a complete grammatical command line (all files existing) short
yields success or one of the messages for a missing required token. -/
theorem parse_take_thrown (fs : String → FileTest) (exe name toolset : String)
    (cfgs : List ConfigSpec) (h : AllExist fs cfgs) (n : Nat) (msg : String)
    (hm : (parse fs (exe :: (name :: toolset :: flattenConfigs cfgs).take n)).2 =
      .thrown msg) :
    msg ∈ missingTokenMessages ∧ msg ≠ "Expected -dll, -lib or -c" := by
  have fin : ∀ m0 : String, m0 ∈ missingTokenMessages → m0 ≠ "Expected -dll, -lib or -c" →
      ∀ o : Outcome Project, o = .thrown m0 → o = .thrown msg →
      msg ∈ missingTokenMessages ∧ msg ≠ "Expected -dll, -lib or -c" := by
    intro m0 h1 h2 o ho hmsg
    rw [ho] at hmsg
    injection hmsg with hmsg
    rw [← hmsg]
    exact ⟨h1, h2⟩
  match n, hm with
  | 0, hm =>
    exact fin "Expected project name" (by decide) (by decide) _
      (parse_no_positional fs exe name).1 hm
  | 1, hm =>
    exact fin "Expected toolset (e.g. vs141, vs140)" (by decide) (by decide) _
      (parse_no_positional fs exe name).2 hm
  | m + 2, hm =>
    obtain ⟨cfgs2, tail, tailSlots, ht, -, hfs2, hshape⟩ := take_flattenConfigs fs cfgs m h
    simp only [List.take_succ_cons, ht] at hm
    rcases hshape with ⟨rfl, -⟩ | ⟨rfl, -⟩ | ⟨cname, rfl, -⟩ |
      ⟨cname, arch, arts, kind, harts, rfl, -⟩
    · rw [List.append_nil, parse_grammar fs exe name toolset cfgs2 hfs2] at hm
      cases hm
    · exact fin "Expected configurations name" (by decide) (by decide) _
        (parse_header_throw fs exe name toolset cfgs2 hfs2).1 hm
    · exact fin "Expected platform (e.g. x86, x64)" (by decide) (by decide) _
        ((parse_header_throw fs exe name toolset cfgs2 hfs2).2 cname) hm
    · exact fin (missingPathMessage kind) (by cases kind <;> decide)
        (by cases kind <;> decide) _
        (parse_no_path fs exe name toolset cfgs2 cname arch arts kind hfs2 harts) hm

/-- C16: after a complete grammatical command line with at least one
configuration, all files existing, a further token that is none of `-c`,
`-dll` and `-lib` makes parsing fail with exactly the message
`Expected -dll, -lib or -c`, whatever tokens follow it. That message differs
from every message the parser produces for a missing required token: cut short
after any number of tokens, the command line parses or fails with one of the
messages given to `requireFn` and `requireSwitchFn`, none of which is
`Expected -dll, -lib or -c`; and on any command line whatever, parsing fails
with `Expected -dll, -lib or -c` only at a token that is present, stands where
the artifact loop looks for a switch, and is none of the three switches. -/
theorem parse_unknown_switch (fs : String → FileTest) (exe name toolset : String)
    (cfgs : List ConfigSpec) (t : String) (rest : List String)
    (hne : cfgs ≠ []) (hfs : AllExist fs cfgs)
    (hc : t ≠ "-c") (hdll : t ≠ "-dll") (hlib : t ≠ "-lib") :
    (parse fs (exe :: name :: toolset :: (flattenConfigs cfgs ++ t :: rest))).2 =
      .thrown "Expected -dll, -lib or -c" ∧
    (∀ (n : Nat) (msg : String),
      (parse fs (exe :: (name :: toolset :: flattenConfigs cfgs).take n)).2 = .thrown msg →
      msg ∈ missingTokenMessages ∧ msg ≠ "Expected -dll, -lib or -c") ∧
    (∀ argv : List String, (parse fs argv).2 = .thrown "Expected -dll, -lib or -c" →
      ∃ (exe2 name2 toolset2 : String) (cfgs2 : List ConfigSpec) (cname arch : String)
        (arts : List (ArtifactKind × String)) (t2 : String) (rest2 : List String),
        argv = exe2 :: name2 :: toolset2 :: (flattenConfigs cfgs2 ++
          "-c" :: cname :: arch :: (flattenArtifacts arts ++ t2 :: rest2)) ∧
        AllExist fs cfgs2 ∧ (∀ a ∈ arts, fs a.2 = .returns true) ∧
        t2 ≠ "-c" ∧ t2 ≠ "-dll" ∧ t2 ≠ "-lib") ∧
    "Expected -dll, -lib or -c" ∉ missingTokenMessages := by
  refine ⟨?_, fun n msg hm => parse_take_thrown fs exe name toolset cfgs hfs n msg hm,
    fun argv h => parse_unknown_inv fs argv h, by decide⟩
  rcases List.eq_nil_or_concat cfgs with rfl | ⟨init, last, rfl⟩
  · exact absurd rfl hne
  · rw [List.concat_eq_append] at hfs ⊢
    have hflat : flattenConfigs (init ++ [last]) ++ t :: rest =
        flattenConfigs init ++ "-c" :: last.name :: last.architecture ::
          (flattenArtifacts last.artifacts ++ t :: rest) := by
      simp [flattenConfigs_append, flattenConfigs]
    rw [hflat]
    obtain ⟨fuel, i, project, configuration, hd, hf, hthrow⟩ :=
      parse_artifact_throw fs exe name toolset init last.name last.architecture last.artifacts
        (t :: rest) (fun c hcm => hfs c (by simp [hcm])) (hfs last (by simp))
    obtain ⟨hi, -, -⟩ := drop_eq_cons hd
    obtain ⟨fuel, rfl⟩ : ∃ f, fuel = f + 1 := ⟨fuel - 1, by omega⟩
    exact hthrow _ (artifactLoop_unknown fs _ fuel i project configuration t rest hd hc hdll hlib)

theorem parse_unknown_switch_witness :
    sampleConfigs ≠ [] ∧ AllExist (fun _ => .returns true) sampleConfigs ∧
    "-x" ≠ "-c" ∧ "-x" ≠ "-dll" ∧ "-x" ≠ "-lib" ∧
    ((parse (fun _ => .returns true)
        ("vcppgen" :: "foo" :: "v141" :: (flattenConfigs sampleConfigs ++ "-x" :: ["-c"]))).2 =
      .thrown "Expected -dll, -lib or -c" ∧
    (∀ (n : Nat) (msg : String),
      (parse (fun _ => .returns true)
        ("vcppgen" :: ("foo" :: "v141" :: flattenConfigs sampleConfigs).take n)).2 =
          .thrown msg →
      msg ∈ missingTokenMessages ∧ msg ≠ "Expected -dll, -lib or -c") ∧
    (∀ argv : List String,
      (parse (fun _ => .returns true) argv).2 = .thrown "Expected -dll, -lib or -c" →
      ∃ (exe2 name2 toolset2 : String) (cfgs2 : List ConfigSpec) (cname arch : String)
        (arts : List (ArtifactKind × String)) (t2 : String) (rest2 : List String),
        argv = exe2 :: name2 :: toolset2 :: (flattenConfigs cfgs2 ++
          "-c" :: cname :: arch :: (flattenArtifacts arts ++ t2 :: rest2)) ∧
        AllExist (fun _ => .returns true) cfgs2 ∧
        (∀ a ∈ arts, (fun _ => FileTest.returns true) a.2 = .returns true) ∧
        t2 ≠ "-c" ∧ t2 ≠ "-dll" ∧ t2 ≠ "-lib") ∧
    "Expected -dll, -lib or -c" ∉ missingTokenMessages) :=
  ⟨by decide, fun _ _ _ _ => rfl, by decide, by decide, by decide,
    parse_unknown_switch (fun _ => .returns true) "vcppgen" "foo" "v141" sampleConfigs "-x"
      ["-c"] (by decide) (fun _ _ _ _ => rfl) (by decide) (by decide) (by decide)⟩

end Vcppgen
